import Mathlib

/-! # BurstDeserializer

A shallow embedding of `src/cpp/BurstDeserializer.cpp` (the REDHAWK component
`BurstDeserializer_i`) and theorems about it.

Conventions of the embedding:

* `double` fields of the SRI and the samples are rationals: the claims are stated over exact
  arithmetic, and samples are only ever copied;
* the two output port calls `pushSRI` and `pushPacket` become entries of an output trace, in
  call order;
* the member `flushStreams` and the map `activeStreams` form the component state; the property
  `transpose` is read once at the start of `serviceFunction` and is an argument of the step;
* log statements have no effect on control flow and are left out;
* in complex mode `pushTransposed` casts the buffer to a vector of complex values; the loop of
  `demuxData` then reaches every pair that starts before the end of the doubles, and the one
  double it can read beyond a buffer with an odd number of doubles is an input of the model, the
  field `pastEnd` of the packet;
* sizes and counters stay far below the width of `size_t` and `unsigned int`, they are naturals.
-/

set_option linter.unusedVariables false

namespace BurstDeserializer

/-! ## Data model -/

/-- The constant `BULKIO::UNITS_NONE` of the BULKIO interface. -/
def UNITS_NONE : Int := 0

/-- The constant `BULKIO::UNITS_TIME` of the BULKIO interface. -/
def UNITS_TIME : Int := 1

/-- The fields of `BULKIO::StreamSRI` the component reads or writes. -/
structure StreamSRI where
  xstart : ℚ
  xdelta : ℚ
  xunits : Int
  subsize : Int
  ystart : ℚ
  ydelta : ℚ
  yunits : Int
  mode : Int
  streamID : String
  deriving DecidableEq

/-- The packet `bulkio::InDoublePort::dataTransfer` returned by `getPacket`. The time stamp `T`
is only copied, it is a natural number here. The last field is not a member of the transfer:
`pastEnd` is the double that lies in memory right after the last element of `dataBuffer`, which
`demuxData` reads through the complex view of a buffer with an odd number of doubles. -/
structure DataTransfer where
  dataBuffer : List ℚ
  T : Nat
  EOS : Bool
  streamID : String
  SRI : StreamSRI
  sriChanged : Bool
  inputQueueFlushed : Bool
  pastEnd : ℚ
  deriving DecidableEq

/-- Modelled from the spec: `StateStruct` is declared in `BurstDeserializer.h`, which is not among
the sources; the fields are the ones `BurstDeserializer.cpp` uses (`streamCount`, `outputIDs`,
`SRI`, `adjustXStart`), which are the Stream State fields of section 3 of the specification. -/
structure StateStruct where
  streamCount : Nat
  outputIDs : List String
  SRI : StreamSRI
  adjustXStart : Bool
  deriving DecidableEq

/-- Modelled from the spec: `state_type` is declared in `BurstDeserializer.h`, which is not among
the sources; it is a map from source stream identifier to `StateStruct`, here the list of its
entries in iteration order. -/
abbrev state_type := List (String × StateStruct)

/-- A call on the output port. -/
inductive Output where
  | pushSRI (sri : StreamSRI)
  | pushPacket (data : List ℚ) (T : Nat) (EOS : Bool) (streamID : String)
  deriving DecidableEq

/-- The members of `BurstDeserializer_i` that persist between calls of `serviceFunction`. -/
structure Component where
  activeStreams : state_type
  flushStreams : Bool
  deriving DecidableEq

/-- The return value of `serviceFunction`. -/
inductive ReturnCode where
  | NOOP
  | NORMAL
  deriving DecidableEq

/-- What one call of `serviceFunction` leaves behind: the component, the calls made on the output
port, and the return value. -/
structure ServiceResult where
  comp : Component
  out : List Output
  ret : ReturnCode
  deriving DecidableEq

/-! ## The map `activeStreams` -/

/-- The lookup `activeStreams.find(key)`. -/
def findState : state_type → String → Option StateStruct
  | [], _ => none
  | e :: rest, key => if e.1 = key then some e.2 else findState rest key

/-- The insertion `activeStreams.insert(activeStreams.end(), vt)` of a key that is not in the map:
the new entry takes its place in key order (the order of strings, character by character), as
in an ordered map. -/
def insertState : state_type → String → StateStruct → state_type
  | [], key, v => [(key, v)]
  | e :: rest, key, v =>
    if key.data < e.1.data then (key, v) :: e :: rest else e :: insertState rest key v

/-- The writes through the iterator `state`: the entry of `key` gets the value `v`. -/
def assignState : state_type → String → StateStruct → state_type
  | [], _, _ => []
  | e :: rest, key, v =>
    if e.1 = key then (e.1, v) :: rest else e :: assignState rest key v

/-- The empty end-of-stream packets `pushPacket(data, T, true, *outID)` of a loop over a vector of
output identifiers, `data` being an empty vector. -/
def eosMarkers (T : Nat) (ids : List String) : List Output :=
  ids.map (fun outID => Output.pushPacket [] T true outID)

/-- The flush loop of `serviceFunction`: over every entry of `activeStreams`, over every one of
its `outputIDs`. -/
def flushOutputs (T : Nat) : state_type → List Output
  | [] => []
  | e :: rest => eosMarkers T e.2.outputIDs ++ flushOutputs T rest

/-! ## Helper functions of the component -/

/-- The loop of `demuxData`: the iterator is at index `i`; `fuel` bounds the number of
iterations (the length of the input is enough when `subsize > 0`). -/
def demuxLoop {α : Type} (input : List α) (subsize : Nat) : Nat → Nat → List α
  | 0, _ => []
  | fuel + 1, i =>
    match input[i]? with
    | some x => x :: demuxLoop input subsize fuel (i + subsize)
    | none => []

/-- The template `demuxData`: every `subsize`-th element of `input` starting at `colNum`. -/
def demuxData {α : Type} (input : List α) (colNum subsize : Nat) : List α :=
  demuxLoop input subsize input.length colNum

/-- The view of a `std::vector<double>` as a `std::vector<std::complex<double> >` that
`pushTransposed` and `demuxData` take by a pointer cast: the elements that the loop
`for (i = inVec->begin() + colNum; i < inVec->end(); i += subsize)` can reach. The iterators are
pointers to pairs of doubles and `inVec->end()` is the end of the doubles: element `p` lies
before it when `2 * p` is less than the number of doubles. With an odd number of doubles the
last element starts at the last double and its imaginary part is read beyond the buffer: it is
`pastEnd`, the double that the memory holds there. -/
def toComplex (pastEnd : ℚ) : List ℚ → List (ℚ × ℚ)
  | a :: b :: rest => (a, b) :: toComplex pastEnd rest
  | [a] => [(a, pastEnd)]
  | [] => []

/-- The view of a vector of complex values as the vector of doubles that stores it. -/
def fromComplex : List (ℚ × ℚ) → List ℚ
  | [] => []
  | z :: rest => z.1 :: z.2 :: fromComplex rest

/-- The function `getStreamID`: the identifier `<key>_<streamCount>`, and the state with the
counter incremented. -/
def getStreamID (key : String) (state : StateStruct) : String × StateStruct :=
  (key ++ "_" ++ toString state.streamCount,
    { state with streamCount := state.streamCount + 1 })

/-- What `updateState` leaves behind: the state, the packet (its `sriChanged` may be set) and the
output calls. -/
structure UpdateResult where
  state : StateStruct
  tmp : DataTransfer
  out : List Output
  deriving DecidableEq

/-- The step `if (subsizeRefresh)` of `updateState`: end the old output streams and restart the
counter. -/
def clearStreams (subsizeRefresh : Bool) (state : StateStruct) (T : Nat) :
    StateStruct × List Output :=
  if subsizeRefresh then
    if !state.outputIDs.isEmpty then
      ({ state with outputIDs := [], streamCount := 0 }, eosMarkers T state.outputIDs)
    else ({ state with streamCount := 0 }, [])
  else (state, [])

/-- The SRI that `updateState` stores in the state. -/
def deriveSRI (thisTranspose : Bool) (sri : StreamSRI) : StreamSRI :=
  let s1 : StreamSRI :=
    if thisTranspose then
      { sri with
        xdelta := if sri.ydelta > 0 then sri.ydelta else sri.xdelta / (sri.subsize : ℚ)
        xstart := sri.ystart
        xunits := sri.yunits }
    else sri
  { s1 with subsize := 0, ystart := 0, ydelta := 0, yunits := UNITS_NONE }

/-- The function `updateState`. -/
def updateState (subsizeRefresh : Bool) (state : StateStruct) (thisTranspose : Bool)
    (tmp : DataTransfer) : UpdateResult :=
  if tmp.SRI.subsize > 0 then
    let cleared := clearStreams subsizeRefresh state tmp.T
    { state := { cleared.1 with SRI := deriveSRI thisTranspose tmp.SRI }
      tmp := { tmp with sriChanged := true }
      out := cleared.2 }
  else
    { state := state, tmp := tmp, out := [] }

/-! ## The two engines -/

/-- The data of column `colNum` in `pushTransposed`: `demuxData` on the doubles in real mode,
on the complex view in complex mode. -/
def columnData (tmp : DataTransfer) (colNum : Nat) : List ℚ :=
  if tmp.SRI.mode = 0 then demuxData tmp.dataBuffer colNum tmp.SRI.subsize.toNat
  else fromComplex
    (demuxData (toComplex tmp.pastEnd tmp.dataBuffer) colNum tmp.SRI.subsize.toNat)

/-- The step `if (outputIDs.size() == colNum)` of `pushTransposed`: start a new output stream. -/
def ensureID (key : String) (colNum : Nat) (state : StateStruct) : StateStruct :=
  if state.outputIDs.length = colNum then
    { (getStreamID key state).2 with
      outputIDs := state.outputIDs ++ [(getStreamID key state).1] }
  else state

/-- The step `if (sriPush)` of `pushTransposed`. -/
def pushColSRI (tmp : DataTransfer) (colNum : Nat) (state : StateStruct) :
    StateStruct × List Output :=
  let sri : StreamSRI := { state.SRI with streamID := state.outputIDs.getD colNum "" }
  ({ state with
      SRI := if state.adjustXStart then { sri with xstart := sri.xstart + tmp.SRI.xdelta }
             else sri },
   [Output.pushSRI sri])

/-- One iteration of the loop of `pushTransposed`. -/
def pushTransposedCol (key : String) (tmp : DataTransfer) (colNum : Nat) (state : StateStruct) :
    StateStruct × List Output :=
  let sriPush : Bool := tmp.sriChanged || decide (state.outputIDs.length = colNum)
  let st1 := ensureID key colNum state
  let r := if sriPush then pushColSRI tmp colNum st1 else (st1, [])
  (r.1, r.2 ++ [Output.pushPacket (columnData tmp colNum) tmp.T tmp.EOS
    (r.1.outputIDs.getD colNum "")])

/-- The loop of `pushTransposed` with `remaining` iterations left, at column `colNum`. -/
def pushTransposedLoop (key : String) (tmp : DataTransfer) :
    Nat → Nat → StateStruct → StateStruct × List Output
  | 0, _, state => (state, [])
  | remaining + 1, colNum, state =>
    let r := pushTransposedCol key tmp colNum state
    let r2 := pushTransposedLoop key tmp remaining (colNum + 1) r.1
    (r2.1, r.2 ++ r2.2)

/-- The function `pushTransposed`; `key` is `state->first`. -/
def pushTransposed (numElements complex_offset : Nat) (key : String) (state : StateStruct)
    (tmp : DataTransfer) : StateStruct × List Output :=
  pushTransposedLoop key tmp tmp.SRI.subsize.toNat 0 state

/-- One iteration of the loop of `pushUnTransposed`. -/
def pushUnTransposedFrame (key : String) (tmp : DataTransfer) (stride i : Nat)
    (state : StateStruct) : StateStruct × List Output :=
  let data := (tmp.dataBuffer.drop (i * stride)).take stride
  let streamID := (getStreamID key state).1
  let st1 := (getStreamID key state).2
  let sri : StreamSRI := { st1.SRI with streamID := streamID }
  ({ st1 with
      SRI := if st1.adjustXStart then { sri with xstart := sri.xstart + tmp.SRI.ydelta }
             else sri },
   [Output.pushSRI sri, Output.pushPacket data tmp.T true streamID])

/-- The loop of `pushUnTransposed` with `remaining` iterations left, at frame `i`. -/
def pushUnTransposedLoop (key : String) (tmp : DataTransfer) (stride : Nat) :
    Nat → Nat → StateStruct → StateStruct × List Output
  | 0, _, state => (state, [])
  | remaining + 1, i, state =>
    let r := pushUnTransposedFrame key tmp stride i state
    let r2 := pushUnTransposedLoop key tmp stride remaining (i + 1) r.1
    (r2.1, r.2 ++ r2.2)

/-- The function `pushUnTransposed`; `key` is `state->first`. -/
def pushUnTransposed (complex_offset : Nat) (key : String) (state : StateStruct)
    (tmp : DataTransfer) : StateStruct × List Output :=
  let stride := tmp.SRI.subsize.toNat * complex_offset
  let nstreams := tmp.dataBuffer.length / stride
  pushUnTransposedLoop key tmp stride nstreams 0 state

/-! ## The service function -/

/-- Lines 197 to 213 of `serviceFunction`: a flushed input queue arms `flushStreams`; when
`flushStreams` is armed every output stream of every entry gets an empty end-of-stream packet,
the map is cleared and the flag is reset. -/
def flushStep (c : Component) (tmp : DataTransfer) : Component × List Output :=
  let c1 : Component := if tmp.inputQueueFlushed then { c with flushStreams := true } else c
  if c1.flushStreams then
    ({ activeStreams := [], flushStreams := false }, flushOutputs tmp.T c1.activeStreams)
  else (c1, [])

/-- A new entry of `activeStreams` as lines 220 to 223 of `serviceFunction` make it: a
default-constructed `StateStruct` with `streamCount` and `adjustXStart` assigned. `initSRI` is
the `SRI` member of a default-constructed `StateStruct` (the constructor is in
`BurstDeserializer.h`, which is not among the sources); its `outputIDs` is an empty vector. -/
def newState (initSRI : StreamSRI) (tmp : DataTransfer) : StateStruct :=
  { streamCount := 0
    outputIDs := []
    SRI := initSRI
    adjustXStart := decide (tmp.SRI.xunits = UNITS_TIME) && decide (tmp.SRI.yunits = UNITS_TIME) }

/-- Lines 216 to 224 of `serviceFunction`: find the state of the stream of the packet, or insert
a new one. -/
def lookupOrCreate (initSRI : StreamSRI) (m : state_type) (tmp : DataTransfer) :
    state_type × StateStruct :=
  match findState m tmp.streamID with
  | some st => (m, st)
  | none => (insertState m tmp.streamID (newState initSRI tmp), newState initSRI tmp)

/-- Lines 249 to 257 of `serviceFunction`: adjust `xstart` before any SRI push. -/
def adjustXStartStep (thisTranspose : Bool) (tmp : DataTransfer) (state : StateStruct) :
    StateStruct :=
  if state.adjustXStart && (decide (tmp.SRI.xstart ≠ 0) || decide (tmp.SRI.ystart ≠ 0))
      && (!thisTranspose || tmp.sriChanged) then
    if tmp.SRI.xstart ≠ 0 then
      { state with SRI := { state.SRI with xstart := tmp.SRI.xstart } }
    else
      { state with SRI := { state.SRI with xstart := tmp.SRI.ystart } }
  else state

/-- Lines 226 to 232 of `serviceFunction`: decide on a refresh and call `updateState`. The
comparison of `subsize` (a signed 32 bit value) with the size of `outputIDs` is made on `size_t`
in the source; a negative `subsize` converts to a value no vector size reaches, so that the
comparison is the one of integers. -/
def refreshStep (thisTranspose : Bool) (state : StateStruct) (tmp : DataTransfer) :
    UpdateResult :=
  let subsizeRefresh : Bool :=
    thisTranspose && decide (tmp.SRI.subsize ≠ (state.outputIDs.length : Int))
  if tmp.sriChanged || subsizeRefresh || decide (state.streamCount = 0) then
    updateState subsizeRefresh state thisTranspose tmp
  else
    { state := state, tmp := tmp, out := [] }

/-- Lines 234 to 268 of `serviceFunction`: the engines when `subsize > 0`, pass through
otherwise. -/
def pushStep (thisTranspose : Bool) (key : String) (state : StateStruct) (tmp : DataTransfer) :
    StateStruct × List Output :=
  if tmp.SRI.subsize > 0 then
    let complex_offset : Nat := if tmp.SRI.mode = 0 then 1 else 2
    let numElements : Nat := tmp.dataBuffer.length / complex_offset
    let st := adjustXStartStep thisTranspose tmp state
    if thisTranspose then pushTransposed numElements complex_offset key st tmp
    else pushUnTransposed complex_offset key st tmp
  else
    (state,
      (if tmp.sriChanged then [Output.pushSRI tmp.SRI] else [])
        ++ [Output.pushPacket tmp.dataBuffer tmp.T tmp.EOS tmp.streamID])

/-- The body of `serviceFunction` for a packet `tmp` that is not `NULL`. -/
def servicePacket (initSRI : StreamSRI) (transpose : Bool) (tmp : DataTransfer)
    (c : Component) : Component × List Output :=
  let f := flushStep c tmp
  let l := lookupOrCreate initSRI f.1.activeStreams tmp
  let u := refreshStep transpose l.2 tmp
  let r := pushStep transpose tmp.streamID u.state u.tmp
  ({ f.1 with activeStreams := assignState l.1 tmp.streamID r.1 }, f.2 ++ u.out ++ r.2)

/-- The function `serviceFunction`. `packet` is what `getPacket` returns (`none` for `NULL`),
`transpose` the value of the property when the function starts. -/
def serviceFunction (initSRI : StreamSRI) (transpose : Bool) (packet : Option DataTransfer)
    (c : Component) : ServiceResult :=
  match packet with
  | none => { comp := c, out := [], ret := ReturnCode.NOOP }
  | some tmp =>
    { comp := (servicePacket initSRI transpose tmp c).1
      out := (servicePacket initSRI transpose tmp c).2
      ret := ReturnCode.NORMAL }

/-- The function `transposeChanged`, the listener of the property `transpose`. -/
def transposeChanged (oldValue newValue : Bool) (c : Component) : Component :=
  { c with flushStreams := decide (oldValue ≠ newValue) }

/-- A sequence of calls of `serviceFunction`, each with the value of `transpose` at the call and
the packet received; the result is the component after the last call and the output calls of all
of them in order. -/
def run (initSRI : StreamSRI) : List (Bool × DataTransfer) → Component → Component × List Output
  | [], c => (c, [])
  | s :: rest, c =>
    let r := serviceFunction initSRI s.1 (some s.2) c
    let r2 := run initSRI rest r.comp
    (r2.1, r.out ++ r2.2)

/-- The component after construction: no active stream, `flushStreams(false)`. -/
def initial : Component := { activeStreams := [], flushStreams := false }

/-! ## Definitions used to state the properties -/

/-- The data packets of an output trace, in order. -/
def dataPackets (out : List Output) : List Output :=
  out.filter (fun o => match o with
    | Output.pushPacket _ _ _ _ => true
    | Output.pushSRI _ => false)

/-- The payloads of the data packets of an output trace, in order. -/
def payloads : List Output → List (List ℚ)
  | [] => []
  | Output.pushPacket data _ _ _ :: rest => data :: payloads rest
  | Output.pushSRI _ :: rest => payloads rest

/-- The factor `complex_offset` of `serviceFunction`: 1 for real data, 2 for complex data. -/
def complexFactor (tmp : DataTransfer) : Nat := if tmp.SRI.mode = 0 then 1 else 2

/-- The output identifiers a map tracks: the `outputIDs` of all its entries. -/
def trackedIDs (m : state_type) : List String :=
  m.flatMap (fun e => e.2.outputIDs)

/-- The column payload in the words of the specification: with `frames` the element count divided
by `subsize`, the elements at index `j * subsize + c` for `j = 0 .. frames - 1`; in complex mode
an element is the pair of doubles at positions `2 * (j * subsize + c)` and
`2 * (j * subsize + c) + 1`. -/
def specColumn (tmp : DataTransfer) (c : Nat) : List ℚ :=
  if tmp.SRI.mode = 0 then
    (List.range (tmp.dataBuffer.length / tmp.SRI.subsize.toNat)).map
      (fun j => tmp.dataBuffer.getD (j * tmp.SRI.subsize.toNat + c) 0)
  else
    (List.range (tmp.dataBuffer.length / 2 / tmp.SRI.subsize.toNat)).flatMap
      (fun j => [tmp.dataBuffer.getD (2 * (j * tmp.SRI.subsize.toNat + c)) 0,
                 tmp.dataBuffer.getD (2 * (j * tmp.SRI.subsize.toNat + c) + 1) 0])

/-- The output identifiers whose streams a call of `serviceFunction` ends before it handles the
data of its packet: all tracked identifiers when a flush is done (the flag is armed or the packet
reports a flushed queue), else the identifiers of the stream of the packet when `updateState`
clears them (column mode, `subsize > 0` and different from their number). -/
def closedIDs (transpose : Bool) (tmp : DataTransfer) (c : Component) : List String :=
  if c.flushStreams || tmp.inputQueueFlushed then trackedIDs c.activeStreams
  else
    match findState c.activeStreams tmp.streamID with
    | some st =>
      if transpose && decide (0 < tmp.SRI.subsize)
          && decide (tmp.SRI.subsize ≠ (st.outputIDs.length : Int)) then st.outputIDs
      else []
    | none => []

/-- The state of the stream of the packet when line 226 of `serviceFunction` is reached: after
the flush, if one is done, and the lookup or insertion. -/
def entryState (initSRI : StreamSRI) (tmp : DataTransfer) (c : Component) : StateStruct :=
  (lookupOrCreate initSRI (flushStep c tmp).1.activeStreams tmp).2

/-- The state and the packet that the engines receive: after `updateState`, if it is called. -/
def engineInput (initSRI : StreamSRI) (transpose : Bool) (tmp : DataTransfer) (c : Component) :
    UpdateResult :=
  refreshStep transpose (entryState initSRI tmp c) tmp

/-! ## Concrete inputs -/

/-- An SRI with all numeric fields zero and an empty stream identifier. -/
def zeroSRI : StreamSRI :=
  { xstart := 0, xdelta := 0, xunits := 0, subsize := 0, ystart := 0, ydelta := 0, yunits := 0,
    mode := 0, streamID := "" }

/-- The SRI of a framed stream `s`: `xdelta = 1`, `ydelta = 4`, both units `UNITS_TIME`. -/
def sampleSRI (subsize mode : Int) : StreamSRI :=
  { xstart := 0, xdelta := 1, xunits := UNITS_TIME, subsize := subsize, ystart := 0, ydelta := 4,
    yunits := UNITS_TIME, mode := mode, streamID := "s" }

/-- A packet of the stream `s` at time 7 with `sriChanged` and `inputQueueFlushed` clear, and
the double 0 in memory after the buffer. -/
def samplePacket (data : List ℚ) (subsize mode : Int) (EOS : Bool) : DataTransfer :=
  { dataBuffer := data, T := 7, EOS := EOS, streamID := "s", SRI := sampleSRI subsize mode,
    sriChanged := false, inputQueueFlushed := false, pastEnd := 0 }

/-- A complex packet of one column with five doubles, an odd number, and the double 9 in memory
after them. -/
def oddComplexPacket : DataTransfer :=
  { samplePacket [1, 2, 3, 4, 5] 1 1 false with pastEnd := 9 }

/-- The identifier `getStreamID` makes for the stream `key` when its counter is `n`. -/
def mintedID (key : String) (n : Nat) : String := key ++ "_" ++ toString n

/-- The block `[i * stride, (i + 1) * stride)` of a buffer. -/
def block (data : List ℚ) (stride i : Nat) : List ℚ := (data.drop (i * stride)).take stride

/-- The SRI published for frame `k` of a packet by a burst engine that starts in state `st`:
the SRI of the state under the identifier minted for the frame, with `xstart` advanced by
`k * ydelta` when `adjustXStart` is set. -/
def burstSRI (key : String) (tmp : DataTransfer) (st : StateStruct) (k : Nat) : StreamSRI :=
  { st.SRI with
    streamID := mintedID key (st.streamCount + k)
    xstart := if st.adjustXStart then st.SRI.xstart + (k : ℚ) * tmp.SRI.ydelta
              else st.SRI.xstart }

/-- The two output calls of the burst engine for frame `k` of a packet, at frame index `i + k`
of the buffer, when the engine starts in state `st`. -/
def burstCalls (key : String) (tmp : DataTransfer) (stride i : Nat) (st : StateStruct)
    (k : Nat) : List Output :=
  [Output.pushSRI (burstSRI key tmp st k),
   Output.pushPacket (block tmp.dataBuffer stride (i + k)) tmp.T true
     (mintedID key (st.streamCount + k))]

/-- The value of `streamCount` with which the stream of the packet enters a call of
`serviceFunction`: the one of its entry, or 0 when the entry is new (the stream was not in the
map, or the map was cleared by the flush of this call). -/
def priorCount (tmp : DataTransfer) (c : Component) : Nat :=
  if c.flushStreams || tmp.inputQueueFlushed then 0
  else
    match findState c.activeStreams tmp.streamID with
    | some st => st.streamCount
    | none => 0

/-- The state in which the burst engine starts in a call of `serviceFunction`: the state of the
stream after `updateState` (if called) and the adjustment of `xstart` of lines 249 to 257. -/
def burstStart (initSRI : StreamSRI) (tmp : DataTransfer) (c : Component) : StateStruct :=
  adjustXStartStep false (engineInput initSRI false tmp c).tmp
    (engineInput initSRI false tmp c).state

/-- The block `[i * stride, (i + 1) * stride)` of a buffer in the words of the specification:
the samples at the indices `i * stride + j` for `j = 0 .. stride - 1`. -/
def specBlock (data : List ℚ) (stride i : Nat) : List ℚ :=
  (List.range stride).map (fun j => data.getD (i * stride + j) 0)

/-- The component after one column mode packet `[1,2,3,4,5,6]` with `subsize = 2` of the stream
`s`: it tracks the columns `s_0` and `s_1`. -/
def afterColumns : Component :=
  (serviceFunction zeroSRI true (some (samplePacket [1, 2, 3, 4, 5, 6] 2 0 false)) initial).comp

/-- A packet `[1,2]` with `subsize = 1` of a second stream `a`. -/
def otherPacket : DataTransfer :=
  { samplePacket [1, 2] 1 0 false with streamID := "a" }

/-- The component after column mode packets of the two streams `s` and `a`, and then a toggle
of `transpose` from true to false: it tracks `a_0`, `s_0` and `s_1`, and `flushStreams` is
armed. -/
def armedComponent : Component :=
  transposeChanged true false
    (run zeroSRI [(true, samplePacket [1, 2, 3, 4, 5, 6] 2 0 false), (true, otherPacket)]
      initial).1

/-- The SRI published for the `k`-th newly minted column of a packet by a column engine that
starts minting in state `st`: the SRI of the state under the identifier minted for the column,
with `xstart` advanced by `k * xdelta` when `adjustXStart` is set. -/
def columnSRI (key : String) (tmp : DataTransfer) (st : StateStruct) (k : Nat) : StreamSRI :=
  { st.SRI with
    streamID := mintedID key (st.streamCount + k)
    xstart := if st.adjustXStart then st.SRI.xstart + (k : ℚ) * tmp.SRI.xdelta
              else st.SRI.xstart }

/-- The two output calls of the column engine for the `k`-th newly minted column, which is
column `col + k` of the packet, when minting starts in state `st`. -/
def columnCalls (key : String) (tmp : DataTransfer) (col : Nat) (st : StateStruct)
    (k : Nat) : List Output :=
  [Output.pushSRI (columnSRI key tmp st k),
   Output.pushPacket (columnData tmp (col + k)) tmp.T tmp.EOS
     (mintedID key (st.streamCount + k))]

/-- The state of the stream `s` in `afterColumns`. -/
def columnsState : StateStruct :=
  { streamCount := 2
    outputIDs := ["s_0", "s_1"]
    SRI := { xstart := 2, xdelta := 4, xunits := UNITS_TIME, subsize := 0, ystart := 0,
             ydelta := 0, yunits := UNITS_NONE, mode := 0, streamID := "s_1" }
    adjustXStart := true }

/-- The stream `key` has the output identifiers `ids` and no flush is pending. -/
def Tracks (c : Component) (key : String) (ids : List String) : Prop :=
  c.flushStreams = false
  ∧ ∃ st : StateStruct, findState c.activeStreams key = some st ∧ st.outputIDs = ids

/-- A sequence of column mode calls: every packet is served with `transpose` set. -/
def columnSteps (ps : List DataTransfer) : List (Bool × DataTransfer) :=
  ps.map (fun q => (true, q))

/-- A later packet `[5,6,7,8]` of the stream `s` with `subsize = 2` and the end-of-stream flag
set. -/
def eosPacket : DataTransfer := samplePacket [5, 6, 7, 8] 2 0 true

/-- No output stream of `key` is about to be closed by a column mode packet with `subsize = n`:
no flush is pending and the stream `key` has either no output identifier yet or exactly `n` of
them. -/
def Settled (c : Component) (key : String) (n : Nat) : Prop :=
  c.flushStreams = false
  ∧ ∀ st : StateStruct, findState c.activeStreams key = some st →
      st.outputIDs = [] ∨ st.outputIDs.length = n

/-- An SRI describes a one-dimensional stream: the row axis fields are reset. -/
def OneDimensional (sri : StreamSRI) : Prop :=
  sri.subsize = 0 ∧ sri.ystart = 0 ∧ sri.ydelta = 0 ∧ sri.yunits = UNITS_NONE

/-- Every entry of the map whose counter has left 0 holds a derived SRI. -/
def DerivedOnceCounted (m : state_type) : Prop :=
  ∀ e ∈ m, e.2.streamCount = 0 ∨ OneDimensional e.2.SRI

/-- A packet with `xdelta = 1` and an invalid `ydelta = 0`, `subsize = 2`. -/
def noRatePacket : DataTransfer :=
  { samplePacket [1, 2, 3, 4] 2 0 false with
    SRI := { sampleSRI 2 0 with ydelta := 0, ystart := 5, xstart := 3 } }

/-- A pass-through packet of the stream `s` that declares a changed SRI, then a burst mode packet
and a column mode packet with `subsize = 2`. -/
def mixedSteps : List (Bool × DataTransfer) :=
  [(false, { samplePacket [9] 0 0 false with sriChanged := true }),
   (false, samplePacket [1, 2, 3, 4] 2 0 false),
   (true, samplePacket [1, 2, 3, 4] 2 0 false)]

/-- The SRI published for the second burst of `mixedSteps`. -/
def secondBurstSRI : StreamSRI :=
  { xstart := 4, xdelta := 1, xunits := UNITS_TIME, subsize := 0, ystart := 0, ydelta := 0,
    yunits := UNITS_NONE, mode := 0, streamID := "s_1" }

/-- A packet of the stream `a` that reports a flushed input queue. -/
def flushedPacket : DataTransfer :=
  { otherPacket with inputQueueFlushed := true }

/-- A later packet of the stream `s` that declares a changed SRI whose `yunits` is
`UNITS_NONE`. -/
def unitsPacket : DataTransfer :=
  { samplePacket [5, 6, 7, 8] 2 0 false with
    sriChanged := true
    SRI := { sampleSRI 2 0 with yunits := UNITS_NONE } }

/-- The number that a list of decimal digit characters writes, most significant digit first. -/
def readDigits (ds : List Char) : Nat :=
  ds.foldl (fun acc ch => acc * 10 + (ch.toNat - 48)) 0

/-- A sequence of burst mode calls: every packet is served with `transpose` clear. -/
def burstSteps (ps : List DataTransfer) : List (Bool × DataTransfer) :=
  ps.map (fun q => (false, q))

/-- The number of frames the burst engine cuts from a packet: `nstreams` of `pushUnTransposed`
(0 for a packet with `subsize ≤ 0`, which passes through). -/
def frameCount (q : DataTransfer) : Nat :=
  q.dataBuffer.length / (q.SRI.subsize.toNat * complexFactor q)

/-- The value of `streamCount` of the stream `key` in a component, 0 when the stream has no
entry. -/
def startCount (c : Component) (key : String) : Nat :=
  match findState c.activeStreams key with
  | some st => st.streamCount
  | none => 0

/-- The identifiers of the data packets of an output trace, in order. -/
def packetIDs : List Output → List String
  | [] => []
  | Output.pushPacket _ _ _ streamID :: rest => streamID :: packetIDs rest
  | Output.pushSRI _ :: rest => packetIDs rest

/-- The identifiers, in order, of the data packets of an output trace that are not emitted under
the identifier `key` of the source stream itself: the derived streams. -/
def derivedIDs (key : String) (out : List Output) : List String :=
  (packetIDs out).filter (fun id => decide (id ≠ key))

/-- The data packets of an output trace that are not preceded in the trace by a `pushSRI` under
their own identifier, when the identifiers in `pub` have been published before the trace. -/
def uncovered (pub : List String) : List Output → List Output
  | [] => []
  | Output.pushSRI sri :: rest => uncovered (sri.streamID :: pub) rest
  | Output.pushPacket data T EOS streamID :: rest =>
    if streamID ∈ pub then uncovered pub rest
    else Output.pushPacket data T EOS streamID :: uncovered pub rest

/-- The identifiers published after an output trace, when the identifiers in `pub` have been
published before it. -/
def publishedAfter (pub : List String) : List Output → List String
  | [] => pub
  | Output.pushSRI sri :: rest => publishedAfter (sri.streamID :: pub) rest
  | Output.pushPacket _ _ _ _ :: rest => publishedAfter pub rest

/-- Every output identifier that the map tracks is among the identifiers `pub`. -/
def Known (m : state_type) (pub : List String) : Prop :=
  ∀ e ∈ m, ∀ id ∈ e.2.outputIDs, id ∈ pub

/-- The output `o` is the data packet that the pass-through branch forwards for the packet
`tmp`, which has `subsize ≤ 0` and `sriChanged` clear. -/
def ForwardedWithoutSRI (tmp : DataTransfer) (o : Output) : Prop :=
  tmp.SRI.subsize ≤ 0 ∧ tmp.sriChanged = false
  ∧ o = Output.pushPacket tmp.dataBuffer tmp.T tmp.EOS tmp.streamID

/-! ## Lemmas on the helper functions -/

theorem demuxLoop_getElem? {α : Type} (input : List α) (s : Nat) (hs : 0 < s) :
    ∀ (fuel i j : Nat), input.length ≤ i + fuel * s →
      (demuxLoop input s fuel i)[j]? = input[i + j * s]? := by
  intro fuel
  induction fuel with
  | zero =>
    intro i j h
    have : input.length ≤ i + j * s := by
      have := Nat.zero_le (j * s); omega
    simp [demuxLoop, List.getElem?_eq_none this]
  | succ fuel ih =>
    intro i j h
    unfold demuxLoop
    cases hx : input[i]? with
    | none =>
      have hi : input.length ≤ i := by
        by_contra hlt
        have hlt2 : i < input.length := by omega
        rw [List.getElem?_eq_getElem hlt2] at hx
        cases hx
      have : input.length ≤ i + j * s := by
        have := Nat.zero_le (j * s); omega
      simp [List.getElem?_eq_none this]
    | some x =>
      cases j with
      | zero => simp [hx]
      | succ j =>
        have h2 : input.length ≤ (i + s) + fuel * s := by
          have : (fuel + 1) * s = fuel * s + s := Nat.succ_mul fuel s
          omega
        have := ih (i + s) j h2
        simp only [List.getElem?_cons_succ, this]
        congr 1
        have : (j + 1) * s = j * s + s := Nat.succ_mul j s
        omega

theorem demuxData_getElem? {α : Type} (input : List α) (c s : Nat) (hs : 0 < s) (j : Nat) :
    (demuxData input c s)[j]? = input[c + j * s]? := by
  unfold demuxData
  apply demuxLoop_getElem? input s hs
  have : input.length * 1 ≤ input.length * s := Nat.mul_le_mul_left _ hs
  omega

theorem demuxData_eq_map {α : Type} (input : List α) (d : α) (c s : Nat) (hs : 0 < s)
    (hc : c < s) (hmul : input.length % s = 0) :
    demuxData input c s
      = (List.range (input.length / s)).map (fun j => input.getD (j * s + c) d) := by
  apply List.ext_getElem?
  intro j
  rw [demuxData_getElem? input c s hs j]
  have hn : input.length = input.length / s * s := by
    have := Nat.div_add_mod input.length s
    rw [hmul, Nat.mul_comm] at this
    omega
  by_cases hj : j < input.length / s
  · have hlt : c + j * s < input.length := by
      have h1 : (j + 1) * s ≤ input.length / s * s := Nat.mul_le_mul_right s hj
      have h2 : (j + 1) * s = j * s + s := Nat.succ_mul j s
      omega
    simp [List.getElem?_map, List.getElem?_range hj, List.getD_eq_getElem?_getD, Nat.add_comm, List.getElem?_eq_getElem hlt]
  · have hge : input.length ≤ c + j * s := by
      have h1 : input.length / s * s ≤ j * s := Nat.mul_le_mul_right s (by omega)
      omega
    have hr : (List.range (input.length / s))[j]? = none :=
      List.getElem?_eq_none (by simpa using hj)
    simp [List.getElem?_eq_none hge, hr]


theorem toComplex_length (past : ℚ) :
    ∀ (l : List ℚ), (toComplex past l).length = (l.length + 1) / 2
  | [] => by simp [toComplex]
  | [_] => by simp [toComplex]
  | a :: b :: rest => by
    have ih := toComplex_length past rest
    simp only [toComplex, List.length_cons, ih]
    omega

theorem toComplex_length_even (past : ℚ) (l : List ℚ) (h : l.length % 2 = 0) :
    (toComplex past l).length = l.length / 2 := by
  rw [toComplex_length]
  omega

theorem toComplex_getD (past : ℚ) : ∀ (l : List ℚ) (p : Nat), p < l.length / 2 →
    (toComplex past l).getD p (0, 0) = (l.getD (2 * p) 0, l.getD (2 * p + 1) 0)
  | [], p, h => by simp at h
  | [_], p, h => by
    simp only [List.length_singleton] at h
    omega
  | a :: b :: rest, 0, _ => by simp [toComplex]
  | a :: b :: rest, p + 1, h => by
    have hp : p < rest.length / 2 := by
      simp only [List.length_cons] at h
      omega
    have ih := toComplex_getD past rest p hp
    have e1 : 2 * (p + 1) = (2 * p + 1) + 1 := by omega
    have e2 : 2 * (p + 1) + 1 = ((2 * p + 1) + 1) + 1 := by omega
    rw [e1] at *
    simp only [toComplex, List.getD_cons_succ]
    rw [ih]

theorem fromComplex_map {ι : Type} (f : ι → ℚ × ℚ) :
    ∀ (l : List ι), fromComplex (l.map f) = l.flatMap (fun j => [(f j).1, (f j).2])
  | [] => by simp [fromComplex]
  | x :: rest => by
    have ih := fromComplex_map f rest
    simp [fromComplex, ih]

theorem columnData_eq_specColumn (tmp : DataTransfer) (c : Nat)
    (hs : 0 < tmp.SRI.subsize) (hc : c < tmp.SRI.subsize.toNat)
    (hwhole : tmp.dataBuffer.length % complexFactor tmp = 0)
    (hmul : (tmp.dataBuffer.length / complexFactor tmp) % tmp.SRI.subsize.toNat = 0) :
    columnData tmp c = specColumn tmp c := by
  have hs' : 0 < tmp.SRI.subsize.toNat := by omega
  unfold columnData specColumn
  unfold complexFactor at hmul hwhole
  by_cases hm : tmp.SRI.mode = 0
  · simp only [hm, if_true, Nat.div_one] at hmul ⊢
    exact demuxData_eq_map tmp.dataBuffer 0 c _ hs' hc hmul
  · simp only [hm, if_false] at hmul hwhole ⊢
    have hl := toComplex_length_even tmp.pastEnd tmp.dataBuffer hwhole
    rw [demuxData_eq_map (toComplex tmp.pastEnd tmp.dataBuffer) (0, 0) c _ hs' hc
        (by rw [hl]; exact hmul),
      fromComplex_map, hl]
    apply List.flatMap_congr
    intro j hj
    have hj' : j < tmp.dataBuffer.length / 2 / tmp.SRI.subsize.toNat := by simpa using hj
    have hp : j * tmp.SRI.subsize.toNat + c < tmp.dataBuffer.length / 2 := by
      have hn := Nat.div_add_mod (tmp.dataBuffer.length / 2) tmp.SRI.subsize.toNat
      rw [hmul] at hn
      have h1 : (j + 1) * tmp.SRI.subsize.toNat
          ≤ tmp.dataBuffer.length / 2 / tmp.SRI.subsize.toNat * tmp.SRI.subsize.toNat :=
        Nat.mul_le_mul_right _ hj'
      have h2 : (j + 1) * tmp.SRI.subsize.toNat
          = j * tmp.SRI.subsize.toNat + tmp.SRI.subsize.toNat := Nat.succ_mul _ _
      rw [Nat.mul_comm] at hn
      omega
    rw [toComplex_getD _ _ _ hp]


theorem dataPackets_append (a b : List Output) :
    dataPackets (a ++ b) = dataPackets a ++ dataPackets b := by
  simp [dataPackets]

theorem ensureID_outputIDs (key : String) (col : Nat) (st : StateStruct) :
    (ensureID key col st).outputIDs
      = if st.outputIDs.length = col then st.outputIDs ++ [(getStreamID key st).1]
        else st.outputIDs := by
  unfold ensureID
  split <;> rfl

theorem pushTransposedCol_outputIDs (key : String) (tmp : DataTransfer) (col : Nat)
    (st : StateStruct) :
    (pushTransposedCol key tmp col st).1.outputIDs = (ensureID key col st).outputIDs := by
  unfold pushTransposedCol
  simp only
  split <;> simp [pushColSRI]

theorem pushTransposedCol_dataPackets (key : String) (tmp : DataTransfer) (col : Nat)
    (st : StateStruct) :
    dataPackets (pushTransposedCol key tmp col st).2
      = [Output.pushPacket (columnData tmp col) tmp.T tmp.EOS
          ((ensureID key col st).outputIDs.getD col "")] := by
  unfold pushTransposedCol
  simp only
  split <;> simp [pushColSRI, dataPackets]

theorem pushTransposedLoop_spec (key : String) (tmp : DataTransfer) :
    ∀ (remaining col : Nat) (st : StateStruct), col ≤ st.outputIDs.length →
      (∃ ext, (pushTransposedLoop key tmp remaining col st).1.outputIDs = st.outputIDs ++ ext)
      ∧ (pushTransposedLoop key tmp remaining col st).1.outputIDs.length
          = max st.outputIDs.length (col + remaining)
      ∧ dataPackets (pushTransposedLoop key tmp remaining col st).2
          = (List.range remaining).map (fun j =>
              Output.pushPacket (columnData tmp (col + j)) tmp.T tmp.EOS
                ((pushTransposedLoop key tmp remaining col st).1.outputIDs.getD (col + j) "")) := by
  intro remaining
  induction remaining with
  | zero =>
    intro col st h
    refine ⟨⟨[], by simp [pushTransposedLoop]⟩, ?_, ?_⟩
    · simp [pushTransposedLoop]; omega
    · simp [pushTransposedLoop, dataPackets]
  | succ remaining ih =>
    intro col st h
    have hids := pushTransposedCol_outputIDs key tmp col st
    rw [ensureID_outputIDs] at hids
    have hpk := pushTransposedCol_dataPackets key tmp col st
    rw [ensureID_outputIDs] at hpk
    have hlen : col + 1 ≤ (pushTransposedCol key tmp col st).1.outputIDs.length := by
      rw [hids]
      split
      · simp only [List.length_append, List.length_singleton]; omega
      · omega
    obtain ⟨⟨ext, hext⟩, hl, hd⟩ := ih (col + 1) (pushTransposedCol key tmp col st).1 hlen
    simp only [pushTransposedLoop]
    refine ⟨?_, ?_, ?_⟩
    · rw [hext, hids]
      split
      · exact ⟨[(getStreamID key st).1] ++ ext, by simp⟩
      · exact ⟨ext, rfl⟩
    · rw [hl, hids]
      split
      · simp only [List.length_append, List.length_singleton]; omega
      · omega
    · rw [dataPackets_append, hd, hpk, List.range_succ_eq_map]
      simp only [List.map_cons, List.map_map, List.singleton_append, Nat.add_zero]
      congr 1
      · congr 1
        rw [hext, ← hids, List.getD_append _ _ _ _ (by omega)]
      · apply List.map_congr_left
        intro j _
        simp only [Function.comp, Nat.succ_eq_add_one]
        have : col + (j + 1) = col + 1 + j := by omega
        rw [this]


/-! ## Lemmas on the map and on the steps of the service function -/

theorem findState_insertState (m : state_type) (key : String) (v : StateStruct)
    (h : findState m key = none) : findState (insertState m key v) key = some v := by
  induction m with
  | nil => simp [insertState, findState]
  | cons e rest ih =>
    unfold findState at h
    by_cases he : e.1 = key
    · simp [he] at h
    · simp only [he, if_false] at h
      unfold insertState
      by_cases hlt : key.data < e.1.data
      · simp [hlt, findState]
      · simp only [hlt, if_false]
        unfold findState
        simp only [he, if_false]
        exact ih h

theorem findState_assignState (m : state_type) (key : String) (v v0 : StateStruct)
    (h : findState m key = some v0) : findState (assignState m key v) key = some v := by
  induction m with
  | nil => simp [findState] at h
  | cons e rest ih =>
    unfold findState at h
    unfold assignState
    by_cases he : e.1 = key
    · simp [he, findState]
    · simp only [he, if_false] at h ⊢
      unfold findState
      simp only [he, if_false]
      exact ih h

theorem lookupOrCreate_find (initSRI : StreamSRI) (m : state_type) (tmp : DataTransfer) :
    findState (lookupOrCreate initSRI m tmp).1 tmp.streamID
      = some (lookupOrCreate initSRI m tmp).2 := by
  unfold lookupOrCreate
  cases h : findState m tmp.streamID with
  | none => simp only; exact findState_insertState m tmp.streamID _ h
  | some st => simpa using h

theorem flushOutputs_eq (T : Nat) (m : state_type) :
    flushOutputs T m = eosMarkers T (trackedIDs m) := by
  induction m with
  | nil => rfl
  | cons e rest ih => simp [flushOutputs, ih, trackedIDs, eosMarkers]

theorem flushStep_of_flush (c : Component) (tmp : DataTransfer)
    (h : (c.flushStreams || tmp.inputQueueFlushed) = true) :
    flushStep c tmp
      = ({ activeStreams := [], flushStreams := false },
          eosMarkers tmp.T (trackedIDs c.activeStreams)) := by
  unfold flushStep
  cases hq : tmp.inputQueueFlushed <;> cases hf : c.flushStreams <;>
    simp [hq, hf, flushOutputs_eq] at h ⊢

theorem flushStep_of_no_flush (c : Component) (tmp : DataTransfer)
    (h : (c.flushStreams || tmp.inputQueueFlushed) = false) :
    flushStep c tmp = (c, []) := by
  unfold flushStep
  cases hq : tmp.inputQueueFlushed <;> cases hf : c.flushStreams <;>
    simp [hq, hf] at h ⊢

theorem updateState_pos (subsizeRefresh : Bool) (st : StateStruct) (thisTranspose : Bool)
    (tmp : DataTransfer) (hs : 0 < tmp.SRI.subsize) :
    updateState subsizeRefresh st thisTranspose tmp
      = { state := { (clearStreams subsizeRefresh st tmp.T).1 with
                      SRI := deriveSRI thisTranspose tmp.SRI }
          tmp := { tmp with sriChanged := true }
          out := (clearStreams subsizeRefresh st tmp.T).2 } := by
  unfold updateState
  rw [if_pos hs]

theorem updateState_nonpos (subsizeRefresh : Bool) (st : StateStruct) (thisTranspose : Bool)
    (tmp : DataTransfer) (hs : ¬ 0 < tmp.SRI.subsize) :
    updateState subsizeRefresh st thisTranspose tmp = { state := st, tmp := tmp, out := [] } := by
  unfold updateState
  rw [if_neg hs]

theorem refreshStep_nonpos (thisTranspose : Bool) (st : StateStruct) (tmp : DataTransfer)
    (hs : ¬ 0 < tmp.SRI.subsize) :
    refreshStep thisTranspose st tmp = { state := st, tmp := tmp, out := [] } := by
  unfold refreshStep
  simp only [updateState_nonpos _ _ _ _ hs, ite_self]

theorem clearStreams_out (subsizeRefresh : Bool) (st : StateStruct) (T : Nat) :
    (clearStreams subsizeRefresh st T).2
      = eosMarkers T (if subsizeRefresh then st.outputIDs else []) := by
  unfold clearStreams
  cases subsizeRefresh <;> cases h : st.outputIDs <;> simp [eosMarkers]

theorem refreshStep_out (thisTranspose : Bool) (st : StateStruct) (tmp : DataTransfer) :
    (refreshStep thisTranspose st tmp).out
      = eosMarkers tmp.T
          (if thisTranspose && decide (0 < tmp.SRI.subsize)
              && decide (tmp.SRI.subsize ≠ (st.outputIDs.length : Int)) then st.outputIDs
           else []) := by
  by_cases hs : 0 < tmp.SRI.subsize
  · unfold refreshStep
    simp only [updateState_pos _ _ _ _ hs, clearStreams_out]
    cases thisTranspose <;> by_cases hn : tmp.SRI.subsize = (st.outputIDs.length : Int)
      <;> simp [hs, hn, eosMarkers, apply_ite UpdateResult.out]
  · rw [refreshStep_nonpos _ _ _ hs]
    simp [hs, eosMarkers]


theorem lookupOrCreate_snd (initSRI : StreamSRI) (m : state_type) (tmp : DataTransfer) :
    (lookupOrCreate initSRI m tmp).2
      = match findState m tmp.streamID with
        | some st => st
        | none => newState initSRI tmp := by
  unfold lookupOrCreate
  cases h : findState m tmp.streamID <;> rfl

theorem entryState_of_flush (initSRI : StreamSRI) (tmp : DataTransfer) (c : Component)
    (h : (c.flushStreams || tmp.inputQueueFlushed) = true) :
    entryState initSRI tmp c = newState initSRI tmp := by
  unfold entryState
  rw [flushStep_of_flush c tmp h, lookupOrCreate_snd]
  rfl

theorem entryState_of_no_flush (initSRI : StreamSRI) (tmp : DataTransfer) (c : Component)
    (h : (c.flushStreams || tmp.inputQueueFlushed) = false) :
    entryState initSRI tmp c
      = match findState c.activeStreams tmp.streamID with
        | some st => st
        | none => newState initSRI tmp := by
  unfold entryState
  rw [flushStep_of_no_flush c tmp h, lookupOrCreate_snd]

theorem servicePacket_flushStreams (initSRI : StreamSRI) (transpose : Bool) (tmp : DataTransfer)
    (c : Component) : (servicePacket initSRI transpose tmp c).1.flushStreams = false := by
  unfold servicePacket
  simp only
  cases h : (c.flushStreams || tmp.inputQueueFlushed)
  · rw [flushStep_of_no_flush c tmp h]
    simp only [Bool.or_eq_false_iff] at h
    exact h.1
  · rw [flushStep_of_flush c tmp h]

theorem servicePacket_find (initSRI : StreamSRI) (transpose : Bool) (tmp : DataTransfer)
    (c : Component) :
    findState (servicePacket initSRI transpose tmp c).1.activeStreams tmp.streamID
      = some (pushStep transpose tmp.streamID (engineInput initSRI transpose tmp c).state
          (engineInput initSRI transpose tmp c).tmp).1 := by
  unfold servicePacket engineInput entryState
  simp only
  exact findState_assignState _ _ _ _ (lookupOrCreate_find initSRI _ tmp)

theorem servicePacket_out (initSRI : StreamSRI) (transpose : Bool) (tmp : DataTransfer)
    (c : Component) :
    (servicePacket initSRI transpose tmp c).2
      = eosMarkers tmp.T (closedIDs transpose tmp c)
        ++ (pushStep transpose tmp.streamID (engineInput initSRI transpose tmp c).state
            (engineInput initSRI transpose tmp c).tmp).2 := by
  have hpre : (flushStep c tmp).2 ++ (engineInput initSRI transpose tmp c).out
      = eosMarkers tmp.T (closedIDs transpose tmp c) := by
    unfold engineInput closedIDs
    rw [refreshStep_out]
    cases h : (c.flushStreams || tmp.inputQueueFlushed)
    · rw [flushStep_of_no_flush c tmp h, entryState_of_no_flush initSRI tmp c h]
      cases hf : findState c.activeStreams tmp.streamID
      · simp [newState, eosMarkers]
      · simp
    · rw [flushStep_of_flush c tmp h, entryState_of_flush initSRI tmp c h]
      simp [newState, eosMarkers]
  rw [← hpre]
  unfold servicePacket engineInput entryState
  simp only [List.append_assoc]


theorem refreshStep_tmp (thisTranspose : Bool) (st : StateStruct) (tmp : DataTransfer) :
    ∃ b : Bool, (refreshStep thisTranspose st tmp).tmp = { tmp with sriChanged := b } := by
  by_cases hs : 0 < tmp.SRI.subsize
  · unfold refreshStep
    simp only [updateState_pos _ _ _ _ hs]
    split
    · exact ⟨true, rfl⟩
    · exact ⟨tmp.sriChanged, rfl⟩
  · rw [refreshStep_nonpos _ _ _ hs]
    exact ⟨tmp.sriChanged, rfl⟩

theorem clearStreams_outputIDs (subsizeRefresh : Bool) (st : StateStruct) (T : Nat) :
    (clearStreams subsizeRefresh st T).1.outputIDs
      = if subsizeRefresh then [] else st.outputIDs := by
  unfold clearStreams
  cases subsizeRefresh <;> cases h : st.outputIDs <;> simp [h]

theorem refreshStep_outputIDs (thisTranspose : Bool) (st : StateStruct) (tmp : DataTransfer) :
    (refreshStep thisTranspose st tmp).state.outputIDs
      = if thisTranspose && decide (0 < tmp.SRI.subsize)
            && decide (tmp.SRI.subsize ≠ (st.outputIDs.length : Int)) then []
        else st.outputIDs := by
  by_cases hs : 0 < tmp.SRI.subsize
  · unfold refreshStep
    simp only [updateState_pos _ _ _ _ hs]
    cases thisTranspose <;> by_cases hn : tmp.SRI.subsize = (st.outputIDs.length : Int)
      <;> simp [hs, hn, clearStreams_outputIDs, apply_ite UpdateResult.state,
        apply_ite StateStruct.outputIDs]
  · rw [refreshStep_nonpos _ _ _ hs]
    simp [hs]

theorem adjustXStartStep_outputIDs (thisTranspose : Bool) (tmp : DataTransfer)
    (st : StateStruct) : (adjustXStartStep thisTranspose tmp st).outputIDs = st.outputIDs := by
  unfold adjustXStartStep
  split
  · split <;> rfl
  · rfl

theorem dataPackets_eosMarkers (T : Nat) (ids : List String) :
    dataPackets (eosMarkers T ids) = eosMarkers T ids := by
  induction ids with
  | nil => rfl
  | cons a rest ih =>
    simp only [eosMarkers, dataPackets, List.map_cons] at ih ⊢
    simp [List.filter_cons, ih]

/-- C1 (as amended). Column engine data: in column mode, for a packet with `subsize > 0` whose
buffer holds whole elements (the number of doubles is a multiple of `complexFactor`: a complex
buffer holds an even number of doubles) and whose element count is a multiple of `subsize`, the
call of `serviceFunction` leaves `subsize` output identifiers in the state of the stream, and
its data packets are the end-of-stream markers of the streams it closes first (flush or shape
refresh), then one packet per column `col = 0 .. subsize - 1` in increasing order, under
`outputIDs[col]`, with the payload the specification gives (the elements at index
`j * subsize + col`, pairs of doubles in complex mode), the time stamp and the end-of-stream
flag of the input packet. -/
theorem column_engine_data (initSRI : StreamSRI) (c : Component) (tmp : DataTransfer)
    (hs : 0 < tmp.SRI.subsize)
    (hwhole : tmp.dataBuffer.length % complexFactor tmp = 0)
    (hmul : (tmp.dataBuffer.length / complexFactor tmp) % tmp.SRI.subsize.toNat = 0) :
    ∃ st : StateStruct,
      findState (serviceFunction initSRI true (some tmp) c).comp.activeStreams tmp.streamID
          = some st
      ∧ st.outputIDs.length = tmp.SRI.subsize.toNat
      ∧ dataPackets (serviceFunction initSRI true (some tmp) c).out
          = eosMarkers tmp.T (closedIDs true tmp c)
            ++ (List.range tmp.SRI.subsize.toNat).map (fun col =>
                Output.pushPacket (specColumn tmp col) tmp.T tmp.EOS
                  (st.outputIDs.getD col "")) := by
  obtain ⟨b, hb⟩ := refreshStep_tmp true (entryState initSRI tmp c) tmp
  have hfind := servicePacket_find initSRI true tmp c
  have hout := servicePacket_out initSRI true tmp c
  have hids := refreshStep_outputIDs true (entryState initSRI tmp c) tmp
  unfold engineInput at hfind hout
  rw [hb] at hfind hout
  have hpush : pushStep true tmp.streamID (refreshStep true (entryState initSRI tmp c) tmp).state
        { tmp with sriChanged := b }
      = pushTransposedLoop tmp.streamID { tmp with sriChanged := b } tmp.SRI.subsize.toNat 0
          (adjustXStartStep true { tmp with sriChanged := b }
            (refreshStep true (entryState initSRI tmp c) tmp).state) := by
    unfold pushStep pushTransposed
    simp [hs]
  rw [hpush] at hfind hout
  obtain ⟨_, hlen, hdata⟩ := pushTransposedLoop_spec tmp.streamID { tmp with sriChanged := b }
    tmp.SRI.subsize.toNat 0
    (adjustXStartStep true { tmp with sriChanged := b }
      (refreshStep true (entryState initSRI tmp c) tmp).state) (Nat.zero_le _)
  refine ⟨_, hfind, ?_, ?_⟩
  · rw [hlen, adjustXStartStep_outputIDs, hids]
    by_cases hn : tmp.SRI.subsize = ((entryState initSRI tmp c).outputIDs.length : Int)
    · simp [hs, hn]
    · simp [hs, hn]
  · show dataPackets (servicePacket initSRI true tmp c).2 = _
    rw [hout, dataPackets_append, dataPackets_eosMarkers, hdata]
    congr 1
    apply List.map_congr_left
    intro col hcol
    have hcol' : col < tmp.SRI.subsize.toNat := by simpa using hcol
    simp only [Nat.zero_add]
    have hcd : columnData { tmp with sriChanged := b } col = columnData tmp col := rfl
    rw [hcd, columnData_eq_specColumn tmp col hs hcol' hwhole hmul]

/-- The scenario of C1: column mode, `subsize = 2`, real samples `[1,2,3,4,5,6]`: column 0
receives `[1,3,5]` and column 1 receives `[2,4,6]`, both with `endOfStream = false`. -/
theorem column_engine_data_witness :
    (0 < (samplePacket [1, 2, 3, 4, 5, 6] 2 0 false).SRI.subsize
      ∧ (samplePacket [1, 2, 3, 4, 5, 6] 2 0 false).dataBuffer.length
          % complexFactor (samplePacket [1, 2, 3, 4, 5, 6] 2 0 false) = 0
      ∧ ((samplePacket [1, 2, 3, 4, 5, 6] 2 0 false).dataBuffer.length
          / complexFactor (samplePacket [1, 2, 3, 4, 5, 6] 2 0 false))
          % (samplePacket [1, 2, 3, 4, 5, 6] 2 0 false).SRI.subsize.toNat = 0)
    ∧ (∃ st : StateStruct,
        findState (serviceFunction zeroSRI true
            (some (samplePacket [1, 2, 3, 4, 5, 6] 2 0 false)) initial).comp.activeStreams
            (samplePacket [1, 2, 3, 4, 5, 6] 2 0 false).streamID = some st
        ∧ st.outputIDs.length = (samplePacket [1, 2, 3, 4, 5, 6] 2 0 false).SRI.subsize.toNat
        ∧ dataPackets (serviceFunction zeroSRI true
            (some (samplePacket [1, 2, 3, 4, 5, 6] 2 0 false)) initial).out
          = eosMarkers (samplePacket [1, 2, 3, 4, 5, 6] 2 0 false).T
              (closedIDs true (samplePacket [1, 2, 3, 4, 5, 6] 2 0 false) initial)
            ++ (List.range (samplePacket [1, 2, 3, 4, 5, 6] 2 0 false).SRI.subsize.toNat).map
              (fun col => Output.pushPacket
                (specColumn (samplePacket [1, 2, 3, 4, 5, 6] 2 0 false) col)
                (samplePacket [1, 2, 3, 4, 5, 6] 2 0 false).T
                (samplePacket [1, 2, 3, 4, 5, 6] 2 0 false).EOS (st.outputIDs.getD col "")))
    ∧ dataPackets (serviceFunction zeroSRI true
          (some (samplePacket [1, 2, 3, 4, 5, 6] 2 0 false)) initial).out
        = [Output.pushPacket [1, 3, 5] 7 false "s_0", Output.pushPacket [2, 4, 6] 7 false "s_1"] :=
  ⟨⟨by decide, by decide, by decide⟩,
    column_engine_data zeroSRI initial (samplePacket [1, 2, 3, 4, 5, 6] 2 0 false)
      (by decide) (by decide) (by decide),
    by decide⟩

/-- C1 as stated fails: column mode, `subsize = 1`, complex, the five doubles `[1,2,3,4,5]`
followed in memory by `9`: the element count is `5 / 2 = 2`, a multiple of `subsize`, and the
claim gives the payload `[1,2,3,4]`; the loop of `demuxData` on the complex view stops at the end
of the doubles, which is after the start of the third pair, and the call emits six doubles, the
last one read beyond the buffer. -/
theorem column_engine_data_counterexample :
    0 < oddComplexPacket.SRI.subsize
    ∧ (oddComplexPacket.dataBuffer.length / complexFactor oddComplexPacket)
        % oddComplexPacket.SRI.subsize.toNat = 0
    ∧ specColumn oddComplexPacket 0 = [1, 2, 3, 4]
    ∧ dataPackets (serviceFunction zeroSRI true (some oddComplexPacket) initial).out
        = [Output.pushPacket [1, 2, 3, 4, 5, 9] 7 false "s_0"]
    ∧ payloads (serviceFunction zeroSRI true (some oddComplexPacket) initial).out
        ≠ (List.range oddComplexPacket.SRI.subsize.toNat).map (specColumn oddComplexPacket) := by
  decide


theorem pushUnTransposedFrame_fst (key : String) (tmp : DataTransfer) (stride i : Nat)
    (st : StateStruct) :
    (pushUnTransposedFrame key tmp stride i st).1
      = { streamCount := st.streamCount + 1
          outputIDs := st.outputIDs
          SRI := { st.SRI with
                    streamID := mintedID key st.streamCount
                    xstart := if st.adjustXStart then st.SRI.xstart + tmp.SRI.ydelta
                              else st.SRI.xstart }
          adjustXStart := st.adjustXStart } := by
  unfold pushUnTransposedFrame getStreamID mintedID
  cases h : st.adjustXStart <;> simp [h]

theorem pushUnTransposedFrame_snd (key : String) (tmp : DataTransfer) (stride i : Nat)
    (st : StateStruct) :
    (pushUnTransposedFrame key tmp stride i st).2 = burstCalls key tmp stride i st 0 := by
  unfold pushUnTransposedFrame getStreamID burstCalls burstSRI mintedID block
  cases h : st.adjustXStart <;> simp [h]

theorem pushUnTransposedLoop_spec (key : String) (tmp : DataTransfer) (stride : Nat) :
    ∀ (remaining i : Nat) (st : StateStruct),
      (pushUnTransposedLoop key tmp stride remaining i st).2
          = (List.range remaining).flatMap (burstCalls key tmp stride i st)
      ∧ (pushUnTransposedLoop key tmp stride remaining i st).1.streamCount
          = st.streamCount + remaining
      ∧ (pushUnTransposedLoop key tmp stride remaining i st).1.outputIDs = st.outputIDs
      ∧ (pushUnTransposedLoop key tmp stride remaining i st).1.adjustXStart = st.adjustXStart
      ∧ (pushUnTransposedLoop key tmp stride remaining i st).1.SRI.xstart
          = (if st.adjustXStart then st.SRI.xstart + (remaining : ℚ) * tmp.SRI.ydelta
             else st.SRI.xstart) := by
  intro remaining
  induction remaining with
  | zero =>
    intro i st
    simp [pushUnTransposedLoop]
  | succ remaining ih =>
    intro i st
    obtain ⟨hout, hcount, hids, hadj, hx⟩ :=
      ih (i + 1) (pushUnTransposedFrame key tmp stride i st).1
    simp only [pushUnTransposedLoop]
    rw [hout, hcount, hids, hadj, hx, pushUnTransposedFrame_snd, pushUnTransposedFrame_fst]
    refine ⟨?_, ?_, rfl, rfl, ?_⟩
    · rw [List.range_succ_eq_map]
      simp only [List.flatMap_cons, List.flatMap_map]
      congr 1
      apply List.flatMap_congr
      intro j _
      unfold burstCalls burstSRI
      have e1 : st.streamCount + 1 + j = st.streamCount + (j + 1) := by omega
      have e2 : i + 1 + j = i + (j + 1) := by omega
      simp only [Function.comp, Nat.succ_eq_add_one, e1, e2]
      cases h : st.adjustXStart
      · simp
      · simp only [if_true, Nat.cast_add, Nat.cast_one]
        congr 3
        ring
    · simp only; omega
    · cases h : st.adjustXStart
      · simp
      · simp only [if_true, Nat.cast_add, Nat.cast_one]
        ring


theorem entryState_streamCount (initSRI : StreamSRI) (tmp : DataTransfer) (c : Component) :
    (entryState initSRI tmp c).streamCount = priorCount tmp c := by
  unfold priorCount
  cases h : (c.flushStreams || tmp.inputQueueFlushed)
  · rw [entryState_of_no_flush initSRI tmp c h]
    cases hf : findState c.activeStreams tmp.streamID <;> simp [newState]
  · rw [entryState_of_flush initSRI tmp c h]
    simp [newState]

theorem refreshStep_burst_state (st : StateStruct) (tmp : DataTransfer) :
    (refreshStep false st tmp).state.streamCount = st.streamCount
    ∧ (refreshStep false st tmp).state.outputIDs = st.outputIDs
    ∧ (refreshStep false st tmp).state.adjustXStart = st.adjustXStart := by
  by_cases hs : 0 < tmp.SRI.subsize
  · unfold refreshStep
    simp only [updateState_pos _ _ _ _ hs, clearStreams]
    split <;> simp
  · rw [refreshStep_nonpos _ _ _ hs]
    simp

theorem adjustXStartStep_frame (thisTranspose : Bool) (tmp : DataTransfer) (st : StateStruct) :
    (adjustXStartStep thisTranspose tmp st).streamCount = st.streamCount
    ∧ (adjustXStartStep thisTranspose tmp st).adjustXStart = st.adjustXStart := by
  unfold adjustXStartStep
  split
  · split <;> exact ⟨rfl, rfl⟩
  · exact ⟨rfl, rfl⟩

theorem burstStart_streamCount (initSRI : StreamSRI) (tmp : DataTransfer) (c : Component) :
    (burstStart initSRI tmp c).streamCount = priorCount tmp c := by
  unfold burstStart engineInput
  rw [(adjustXStartStep_frame _ _ _).1, (refreshStep_burst_state _ _).1,
    entryState_streamCount]

theorem servicePacket_burst (initSRI : StreamSRI) (tmp : DataTransfer) (c : Component)
    (hs : 0 < tmp.SRI.subsize) :
    (servicePacket initSRI false tmp c).2
        = eosMarkers tmp.T (closedIDs false tmp c)
          ++ (List.range (tmp.dataBuffer.length / (tmp.SRI.subsize.toNat * complexFactor tmp))).flatMap
              (burstCalls tmp.streamID tmp (tmp.SRI.subsize.toNat * complexFactor tmp) 0
                (burstStart initSRI tmp c))
    ∧ ∃ st : StateStruct,
        findState (servicePacket initSRI false tmp c).1.activeStreams tmp.streamID = some st
        ∧ st.streamCount = priorCount tmp c
            + tmp.dataBuffer.length / (tmp.SRI.subsize.toNat * complexFactor tmp)
        ∧ st.SRI.xstart
            = (if (burstStart initSRI tmp c).adjustXStart then
                (burstStart initSRI tmp c).SRI.xstart
                  + ((tmp.dataBuffer.length / (tmp.SRI.subsize.toNat * complexFactor tmp) : Nat) : ℚ)
                    * tmp.SRI.ydelta
               else (burstStart initSRI tmp c).SRI.xstart) := by
  obtain ⟨b, hb⟩ := refreshStep_tmp false (entryState initSRI tmp c) tmp
  have hfind := servicePacket_find initSRI false tmp c
  have hout := servicePacket_out initSRI false tmp c
  have hpush : pushStep false tmp.streamID (engineInput initSRI false tmp c).state
        (engineInput initSRI false tmp c).tmp
      = pushUnTransposedLoop tmp.streamID { tmp with sriChanged := b }
          (tmp.SRI.subsize.toNat * complexFactor tmp)
          (tmp.dataBuffer.length / (tmp.SRI.subsize.toNat * complexFactor tmp)) 0
          (burstStart initSRI tmp c) := by
    unfold burstStart
    have hb' : (engineInput initSRI false tmp c).tmp = { tmp with sriChanged := b } := hb
    rw [hb']
    unfold pushStep pushUnTransposed complexFactor
    simp [hs]
  rw [hpush] at hfind hout
  obtain ⟨ho, hc, _, _, hx⟩ := pushUnTransposedLoop_spec tmp.streamID { tmp with sriChanged := b }
    (tmp.SRI.subsize.toNat * complexFactor tmp)
    (tmp.dataBuffer.length / (tmp.SRI.subsize.toNat * complexFactor tmp)) 0
    (burstStart initSRI tmp c)
  refine ⟨?_, _, hfind, ?_, ?_⟩
  · rw [hout, ho]
    rfl
  · rw [hc, burstStart_streamCount]
  · rw [hx]


theorem payloads_append (a b : List Output) : payloads (a ++ b) = payloads a ++ payloads b := by
  induction a with
  | nil => rfl
  | cons o rest ih => cases o <;> simp [payloads, ih]

theorem payloads_eosMarkers (T : Nat) (ids : List String) :
    payloads (eosMarkers T ids) = List.replicate ids.length [] := by
  induction ids with
  | nil => rfl
  | cons a rest ih =>
    simp only [eosMarkers, List.map_cons, payloads, List.length_cons, List.replicate_succ] at ih ⊢
    rw [ih]

theorem payloads_burstCalls (key : String) (tmp : DataTransfer) (stride i : Nat)
    (st : StateStruct) (l : List Nat) :
    payloads (l.flatMap (burstCalls key tmp stride i st))
      = l.map (fun k => block tmp.dataBuffer stride (i + k)) := by
  induction l with
  | nil => rfl
  | cons a rest ih =>
    simp only [List.flatMap_cons, List.map_cons, payloads_append, ih]
    rfl

theorem block_eq_specBlock (data : List ℚ) (stride i : Nat) (h : i < data.length / stride) :
    block data stride i = specBlock data stride i := by
  have h1 : (i + 1) * stride ≤ data.length / stride * stride := Nat.mul_le_mul_right _ h
  have h2 : data.length / stride * stride ≤ data.length := Nat.div_mul_le_self _ _
  have h3 : (i + 1) * stride = i * stride + stride := Nat.succ_mul _ _
  apply List.ext_getElem?
  intro j
  unfold block specBlock
  by_cases hj : j < stride
  · have hlt : i * stride + j < data.length := by omega
    simp [List.getElem?_take, hj, List.getElem?_range hj, List.getD_eq_getElem?_getD,
      List.getElem?_eq_getElem hlt]
  · have hr : (List.range stride)[j]? = none := List.getElem?_eq_none (by simpa using hj)
    simp [List.getElem?_take, hj, hr]

theorem flatten_blocks (data : List ℚ) (stride : Nat) :
    ∀ n : Nat, ((List.range n).map (fun k => block data stride (0 + k))).flatten
      = data.take (n * stride) := by
  intro n
  induction n with
  | zero => simp
  | succ n ih =>
    rw [List.range_succ, List.map_append, List.flatten_append, ih]
    simp only [List.map_cons, List.map_nil, List.flatten_cons, List.flatten_nil,
      List.append_nil, block, Nat.zero_add]
    rw [Nat.succ_mul, List.take_add]


/-- C3. Burst engine data: in burst mode, for a packet with `subsize > 0` and
`stride = subsize * complexFactor`, the payloads of the data packets of the call are, after the
empty payloads of the end-of-stream markers of a flush done in the same call, the blocks
`[i * stride, (i + 1) * stride)` of the input for `i = 0 .. frameCount - 1` in order; the
payloads concatenated in emission order are the first `frameCount * stride` input samples, and
the whole input when its length is a multiple of `stride`. -/
theorem burst_engine_data (initSRI : StreamSRI) (c : Component) (tmp : DataTransfer)
    (hs : 0 < tmp.SRI.subsize) :
    payloads (serviceFunction initSRI false (some tmp) c).out
        = List.replicate (closedIDs false tmp c).length []
          ++ (List.range
              (tmp.dataBuffer.length / (tmp.SRI.subsize.toNat * complexFactor tmp))).map
            (specBlock tmp.dataBuffer (tmp.SRI.subsize.toNat * complexFactor tmp))
    ∧ (payloads (serviceFunction initSRI false (some tmp) c).out).flatten
        = tmp.dataBuffer.take
            (tmp.dataBuffer.length / (tmp.SRI.subsize.toNat * complexFactor tmp)
              * (tmp.SRI.subsize.toNat * complexFactor tmp))
    ∧ (tmp.dataBuffer.length % (tmp.SRI.subsize.toNat * complexFactor tmp) = 0 →
        (payloads (serviceFunction initSRI false (some tmp) c).out).flatten = tmp.dataBuffer) := by
  obtain ⟨hout, _⟩ := servicePacket_burst initSRI tmp c hs
  have hp : payloads (serviceFunction initSRI false (some tmp) c).out
      = List.replicate (closedIDs false tmp c).length []
        ++ (List.range
            (tmp.dataBuffer.length / (tmp.SRI.subsize.toNat * complexFactor tmp))).map
          (fun k => block tmp.dataBuffer (tmp.SRI.subsize.toNat * complexFactor tmp) (0 + k)) := by
    show payloads (servicePacket initSRI false tmp c).2 = _
    rw [hout, payloads_append, payloads_eosMarkers, payloads_burstCalls]
  have hflat : (payloads (serviceFunction initSRI false (some tmp) c).out).flatten
      = tmp.dataBuffer.take
          (tmp.dataBuffer.length / (tmp.SRI.subsize.toNat * complexFactor tmp)
            * (tmp.SRI.subsize.toNat * complexFactor tmp)) := by
    rw [hp, List.flatten_append, flatten_blocks]
    simp
  refine ⟨?_, hflat, ?_⟩
  · rw [hp]
    congr 1
    apply List.map_congr_left
    intro k hk
    rw [Nat.zero_add]
    exact block_eq_specBlock _ _ _ (by simpa using hk)
  · intro hmod
    rw [hflat]
    apply List.take_of_length_le
    have := Nat.div_add_mod tmp.dataBuffer.length (tmp.SRI.subsize.toNat * complexFactor tmp)
    rw [hmod, Nat.mul_comm] at this
    omega

/-- The scenario of C3: burst mode, `subsize = 2`, real, `[1,2,3,4]` gives `[1,2]` then
`[3,4]`. -/
theorem burst_engine_data_witness :
    0 < (samplePacket [1, 2, 3, 4] 2 0 false).SRI.subsize
    ∧ (payloads (serviceFunction zeroSRI false (some (samplePacket [1, 2, 3, 4] 2 0 false))
          initial).out
        = List.replicate (closedIDs false (samplePacket [1, 2, 3, 4] 2 0 false) initial).length []
          ++ (List.range
              ((samplePacket [1, 2, 3, 4] 2 0 false).dataBuffer.length
                / ((samplePacket [1, 2, 3, 4] 2 0 false).SRI.subsize.toNat
                    * complexFactor (samplePacket [1, 2, 3, 4] 2 0 false)))).map
            (specBlock (samplePacket [1, 2, 3, 4] 2 0 false).dataBuffer
              ((samplePacket [1, 2, 3, 4] 2 0 false).SRI.subsize.toNat
                * complexFactor (samplePacket [1, 2, 3, 4] 2 0 false)))
      ∧ (payloads (serviceFunction zeroSRI false (some (samplePacket [1, 2, 3, 4] 2 0 false))
          initial).out).flatten
        = (samplePacket [1, 2, 3, 4] 2 0 false).dataBuffer.take
            ((samplePacket [1, 2, 3, 4] 2 0 false).dataBuffer.length
              / ((samplePacket [1, 2, 3, 4] 2 0 false).SRI.subsize.toNat
                  * complexFactor (samplePacket [1, 2, 3, 4] 2 0 false))
              * ((samplePacket [1, 2, 3, 4] 2 0 false).SRI.subsize.toNat
                  * complexFactor (samplePacket [1, 2, 3, 4] 2 0 false)))
      ∧ ((samplePacket [1, 2, 3, 4] 2 0 false).dataBuffer.length
            % ((samplePacket [1, 2, 3, 4] 2 0 false).SRI.subsize.toNat
                * complexFactor (samplePacket [1, 2, 3, 4] 2 0 false)) = 0 →
          (payloads (serviceFunction zeroSRI false (some (samplePacket [1, 2, 3, 4] 2 0 false))
            initial).out).flatten = (samplePacket [1, 2, 3, 4] 2 0 false).dataBuffer))
    ∧ payloads (serviceFunction zeroSRI false (some (samplePacket [1, 2, 3, 4] 2 0 false))
          initial).out = [[1, 2], [3, 4]] :=
  ⟨by decide, burst_engine_data zeroSRI initial (samplePacket [1, 2, 3, 4] 2 0 false) (by decide),
    by decide⟩


theorem pushStep_nonpos (thisTranspose : Bool) (key : String) (st : StateStruct)
    (tmp : DataTransfer) (hs : ¬ 0 < tmp.SRI.subsize) :
    pushStep thisTranspose key st tmp
      = (st, (if tmp.sriChanged then [Output.pushSRI tmp.SRI] else [])
          ++ [Output.pushPacket tmp.dataBuffer tmp.T tmp.EOS tmp.streamID]) := by
  unfold pushStep
  rw [if_neg hs]

theorem closedIDs_nonpos (transpose : Bool) (tmp : DataTransfer) (c : Component)
    (hs : ¬ 0 < tmp.SRI.subsize) :
    closedIDs transpose tmp c
      = if c.flushStreams || tmp.inputQueueFlushed then trackedIDs c.activeStreams else [] := by
  unfold closedIDs
  cases h : (c.flushStreams || tmp.inputQueueFlushed)
  · cases findState c.activeStreams tmp.streamID <;> simp [hs]
  · simp

/-- C4. P5, pass-through: for a packet with `subsize = 0` (and any `subsize ≤ 0`), in either
mode and whatever the map holds, the output of the call of `serviceFunction` is: the
end-of-stream markers of the flush if one is done in the call (nothing when no flush is pending,
that is when `flushStreams` is clear and the packet does not report a flushed queue), then the
incoming SRI if and only if `sriChanged` is set, then exactly one data packet under the
identifier of the source stream with the samples, time stamp and end-of-stream flag of the
input; and nothing else. -/
theorem pass_through (initSRI : StreamSRI) (transpose : Bool) (c : Component)
    (tmp : DataTransfer) (hs : tmp.SRI.subsize ≤ 0) :
    (serviceFunction initSRI transpose (some tmp) c).out
      = (if c.flushStreams || tmp.inputQueueFlushed then
          eosMarkers tmp.T (trackedIDs c.activeStreams) else [])
        ++ (if tmp.sriChanged then [Output.pushSRI tmp.SRI] else [])
        ++ [Output.pushPacket tmp.dataBuffer tmp.T tmp.EOS tmp.streamID] := by
  have hs' : ¬ 0 < tmp.SRI.subsize := by omega
  show (servicePacket initSRI transpose tmp c).2 = _
  rw [servicePacket_out, closedIDs_nonpos _ _ _ hs']
  unfold engineInput
  rw [refreshStep_nonpos _ _ _ hs', pushStep_nonpos _ _ _ _ hs']
  cases h : (c.flushStreams || tmp.inputQueueFlushed) <;> simp [eosMarkers]

/-- An instance of C4: a packet with `subsize = 0` of the stream `s`, in column mode, while the
columns `s_0` and `s_1` are tracked and no flush is pending: one data packet under `s`. -/
theorem pass_through_witness :
    (samplePacket [1, 2, 3] 0 0 true).SRI.subsize ≤ 0
    ∧ (serviceFunction zeroSRI true (some (samplePacket [1, 2, 3] 0 0 true)) afterColumns).out
      = (if afterColumns.flushStreams || (samplePacket [1, 2, 3] 0 0 true).inputQueueFlushed then
          eosMarkers (samplePacket [1, 2, 3] 0 0 true).T (trackedIDs afterColumns.activeStreams)
         else [])
        ++ (if (samplePacket [1, 2, 3] 0 0 true).sriChanged then
              [Output.pushSRI (samplePacket [1, 2, 3] 0 0 true).SRI] else [])
        ++ [Output.pushPacket (samplePacket [1, 2, 3] 0 0 true).dataBuffer
              (samplePacket [1, 2, 3] 0 0 true).T (samplePacket [1, 2, 3] 0 0 true).EOS
              (samplePacket [1, 2, 3] 0 0 true).streamID]
    ∧ (serviceFunction zeroSRI true (some (samplePacket [1, 2, 3] 0 0 true)) afterColumns).out
      = [Output.pushPacket [1, 2, 3] 7 true "s"] :=
  ⟨by decide, pass_through zeroSRI true afterColumns (samplePacket [1, 2, 3] 0 0 true) (by decide),
    by decide⟩

theorem servicePacket_of_flush (initSRI : StreamSRI) (transpose : Bool) (tmp : DataTransfer)
    (c : Component) (h : (c.flushStreams || tmp.inputQueueFlushed) = true) :
    servicePacket initSRI transpose tmp c
      = ((servicePacket initSRI transpose tmp { activeStreams := [], flushStreams := false }).1,
          eosMarkers tmp.T (trackedIDs c.activeStreams)
            ++ (servicePacket initSRI transpose tmp
                { activeStreams := [], flushStreams := false }).2) := by
  have he : flushStep { activeStreams := [], flushStreams := false } tmp
      = ({ activeStreams := [], flushStreams := false }, []) := by
    unfold flushStep
    cases tmp.inputQueueFlushed <;> simp [flushOutputs]
  unfold servicePacket
  rw [flushStep_of_flush c tmp h, he]
  simp

theorem servicePacket_empty_activeStreams (initSRI : StreamSRI) (transpose : Bool)
    (tmp : DataTransfer) :
    ∃ st : StateStruct,
      (servicePacket initSRI transpose tmp
        { activeStreams := [], flushStreams := false }).1.activeStreams
        = [(tmp.streamID, st)] := by
  have he : flushStep { activeStreams := [], flushStreams := false } tmp
      = ({ activeStreams := [], flushStreams := false }, []) := by
    unfold flushStep
    cases tmp.inputQueueFlushed <;> simp [flushOutputs]
  unfold servicePacket
  rw [he]
  simp [lookupOrCreate, findState, insertState, assignState]

/-- C5. P4, flush clears all: a call of `serviceFunction` that starts with `flushStreams` armed
emits first, for every entry of the map and every identifier in its `outputIDs`, one empty
end-of-stream packet; what follows, and the component it leaves, are those of the same call on a
component with an empty map: the packet is processed against an empty map, every entry that
existed is removed (the map then holds the entry of the stream of the packet only), and
`flushStreams` is left clear. -/
theorem flush_clears_all (initSRI : StreamSRI) (transpose : Bool) (c : Component)
    (tmp : DataTransfer) (h : c.flushStreams = true) :
    (serviceFunction initSRI transpose (some tmp) c).out
        = eosMarkers tmp.T (trackedIDs c.activeStreams)
          ++ (serviceFunction initSRI transpose (some tmp)
              { activeStreams := [], flushStreams := false }).out
    ∧ (serviceFunction initSRI transpose (some tmp) c).comp
        = (serviceFunction initSRI transpose (some tmp)
            { activeStreams := [], flushStreams := false }).comp
    ∧ (serviceFunction initSRI transpose (some tmp) c).comp.flushStreams = false
    ∧ ∃ st : StateStruct,
        (serviceFunction initSRI transpose (some tmp) c).comp.activeStreams
          = [(tmp.streamID, st)] := by
  have hf : (c.flushStreams || tmp.inputQueueFlushed) = true := by simp [h]
  have hsp := servicePacket_of_flush initSRI transpose tmp c hf
  obtain ⟨st, hst⟩ := servicePacket_empty_activeStreams initSRI transpose tmp
  refine ⟨?_, ?_, ?_, st, ?_⟩
  · show (servicePacket initSRI transpose tmp c).2 = _
    rw [hsp]
    rfl
  · show ServiceResult.comp _ = _
    simp only [serviceFunction]
    rw [hsp]
  · exact servicePacket_flushStreams initSRI transpose tmp c
  · show (servicePacket initSRI transpose tmp c).1.activeStreams = _
    rw [hsp]
    exact hst

/-- An instance of C5: burst mode packet `[1,2,3,4]` of the stream `s` after a toggle of the
mode, while `a_0`, `s_0` and `s_1` are tracked: the three markers come first, then the two
bursts, under identifiers minted from 0 again. -/
theorem flush_clears_all_witness :
    armedComponent.flushStreams = true
    ∧ ((serviceFunction zeroSRI false (some (samplePacket [1, 2, 3, 4] 2 0 false))
          armedComponent).out
        = eosMarkers (samplePacket [1, 2, 3, 4] 2 0 false).T
            (trackedIDs armedComponent.activeStreams)
          ++ (serviceFunction zeroSRI false (some (samplePacket [1, 2, 3, 4] 2 0 false))
              { activeStreams := [], flushStreams := false }).out
      ∧ (serviceFunction zeroSRI false (some (samplePacket [1, 2, 3, 4] 2 0 false))
          armedComponent).comp
        = (serviceFunction zeroSRI false (some (samplePacket [1, 2, 3, 4] 2 0 false))
            { activeStreams := [], flushStreams := false }).comp
      ∧ (serviceFunction zeroSRI false (some (samplePacket [1, 2, 3, 4] 2 0 false))
          armedComponent).comp.flushStreams = false
      ∧ ∃ st : StateStruct,
          (serviceFunction zeroSRI false (some (samplePacket [1, 2, 3, 4] 2 0 false))
            armedComponent).comp.activeStreams
            = [((samplePacket [1, 2, 3, 4] 2 0 false).streamID, st)])
    ∧ dataPackets (serviceFunction zeroSRI false (some (samplePacket [1, 2, 3, 4] 2 0 false))
          armedComponent).out
        = [Output.pushPacket [] 7 true "a_0", Output.pushPacket [] 7 true "s_0",
           Output.pushPacket [] 7 true "s_1", Output.pushPacket [1, 2] 7 true "s_0",
           Output.pushPacket [3, 4] 7 true "s_1"] :=
  ⟨by decide,
    flush_clears_all zeroSRI false armedComponent (samplePacket [1, 2, 3, 4] 2 0 false)
      (by decide),
    by decide⟩


theorem pushTransposedCol_fresh (key : String) (tmp : DataTransfer) (col : Nat)
    (st : StateStruct) (h : st.outputIDs.length = col) :
    pushTransposedCol key tmp col st
      = ({ streamCount := st.streamCount + 1
           outputIDs := st.outputIDs ++ [mintedID key st.streamCount]
           SRI := { st.SRI with
                     streamID := mintedID key st.streamCount
                     xstart := if st.adjustXStart then st.SRI.xstart + tmp.SRI.xdelta
                               else st.SRI.xstart }
           adjustXStart := st.adjustXStart },
         columnCalls key tmp col st 0) := by
  have hg : (st.outputIDs ++ [mintedID key st.streamCount]).getD col ""
      = mintedID key st.streamCount := by
    rw [← h]
    simp [List.getD_eq_getElem?_getD]
  unfold pushTransposedCol ensureID pushColSRI columnCalls columnSRI getStreamID
  simp only [h, decide_True, Bool.or_true, if_true]
  change (st.outputIDs ++ [mintedID key st.streamCount]).getD col "" = _ at hg
  cases hadj : st.adjustXStart <;> simp [hg, mintedID] <;> simp [mintedID] at hg <;> simp [hg]


theorem pushTransposedLoop_fresh (key : String) (tmp : DataTransfer) :
    ∀ (remaining col : Nat) (st : StateStruct), st.outputIDs.length = col →
      (pushTransposedLoop key tmp remaining col st).2
          = (List.range remaining).flatMap (columnCalls key tmp col st)
      ∧ (pushTransposedLoop key tmp remaining col st).1.outputIDs
          = st.outputIDs ++ (List.range remaining).map (fun k => mintedID key (st.streamCount + k))
      ∧ (pushTransposedLoop key tmp remaining col st).1.streamCount
          = st.streamCount + remaining
      ∧ (pushTransposedLoop key tmp remaining col st).1.adjustXStart = st.adjustXStart
      ∧ (pushTransposedLoop key tmp remaining col st).1.SRI.xstart
          = (if st.adjustXStart then st.SRI.xstart + (remaining : ℚ) * tmp.SRI.xdelta
             else st.SRI.xstart) := by
  intro remaining
  induction remaining with
  | zero =>
    intro col st _
    simp [pushTransposedLoop]
  | succ remaining ih =>
    intro col st h
    have hcol := pushTransposedCol_fresh key tmp col st h
    have hlen : (pushTransposedCol key tmp col st).1.outputIDs.length = col + 1 := by
      rw [hcol]; simp [h]
    obtain ⟨hout, hids, hcount, hadj, hx⟩ := ih (col + 1) (pushTransposedCol key tmp col st).1 hlen
    simp only [pushTransposedLoop]
    rw [hout, hids, hcount, hadj, hx, hcol]
    refine ⟨?_, ?_, ?_, rfl, ?_⟩
    · rw [List.range_succ_eq_map]
      simp only [List.flatMap_cons, List.flatMap_map]
      congr 1
      apply List.flatMap_congr
      intro j _
      unfold columnCalls columnSRI
      have e1 : st.streamCount + 1 + j = st.streamCount + (j + 1) := by omega
      have e2 : col + 1 + j = col + (j + 1) := by omega
      simp only [Function.comp, Nat.succ_eq_add_one, e1, e2]
      cases h : st.adjustXStart
      · simp
      · simp only [if_true, Nat.cast_add, Nat.cast_one]
        congr 3
        ring
    · rw [List.range_succ_eq_map]
      simp only [List.map_cons, List.map_map, List.append_assoc, List.singleton_append,
        Nat.add_zero]
      congr 2
      apply List.map_congr_left
      intro j _
      simp only [Function.comp, Nat.succ_eq_add_one]
      have e1 : st.streamCount + 1 + j = st.streamCount + (j + 1) := by omega
      rw [e1]
    · simp only; omega
    · cases h : st.adjustXStart
      · simp
      · simp only [if_true, Nat.cast_add, Nat.cast_one]
        ring

theorem refreshStep_refresh (st : StateStruct) (tmp : DataTransfer)
    (hs : 0 < tmp.SRI.subsize) (hdiff : tmp.SRI.subsize ≠ (st.outputIDs.length : Int)) :
    (refreshStep true st tmp).state
        = { streamCount := 0, outputIDs := [], SRI := deriveSRI true tmp.SRI,
            adjustXStart := st.adjustXStart }
    ∧ (refreshStep true st tmp).tmp = { tmp with sriChanged := true } := by
  have hb : (true && decide (tmp.SRI.subsize ≠ (st.outputIDs.length : Int))) = true := by
    simp [hdiff]
  unfold refreshStep
  simp only [hb, Bool.or_true, Bool.true_or, if_true, updateState_pos _ _ _ _ hs, clearStreams]
  cases hids : st.outputIDs <;> simp

/-- C6 (as amended). P3, shape refresh: in column mode with no flush done in the call, for a
stream state with non-empty `outputIDs` and a packet of that stream whose `subsize` is greater
than 0 and differs from `outputIDs.size()`, the output of `serviceFunction` starts with exactly
one empty end-of-stream packet for each previously assigned identifier, in order; everything
else comes after them: per column `col = 0 .. subsize - 1`, the SRI push and the data packet
under the identifier newly minted for the column. -/
theorem shape_refresh (initSRI : StreamSRI) (c : Component) (tmp : DataTransfer)
    (st : StateStruct) (hflush : c.flushStreams = false) (hq : tmp.inputQueueFlushed = false)
    (hfind : findState c.activeStreams tmp.streamID = some st) (hne : st.outputIDs ≠ [])
    (hs : 0 < tmp.SRI.subsize) (hdiff : tmp.SRI.subsize ≠ (st.outputIDs.length : Int)) :
    ∃ sris : Nat → StreamSRI,
      (serviceFunction initSRI true (some tmp) c).out
          = eosMarkers tmp.T st.outputIDs
            ++ (List.range tmp.SRI.subsize.toNat).flatMap (fun col =>
                [Output.pushSRI (sris col),
                 Output.pushPacket (columnData tmp col) tmp.T tmp.EOS
                   (mintedID tmp.streamID col)])
      ∧ ∀ col, (sris col).streamID = mintedID tmp.streamID col := by
  have hf : (c.flushStreams || tmp.inputQueueFlushed) = false := by simp [hflush, hq]
  have hentry : entryState initSRI tmp c = st := by
    rw [entryState_of_no_flush initSRI tmp c hf, hfind]
  have hclosed : closedIDs true tmp c = st.outputIDs := by
    unfold closedIDs
    rw [hf, hfind]
    simp [hs, hdiff]
  obtain ⟨hstate, htmp⟩ := refreshStep_refresh st tmp hs hdiff
  have hout := servicePacket_out initSRI true tmp c
  unfold engineInput at hout
  rw [hentry, hstate, htmp, hclosed] at hout
  have hpush : pushStep true tmp.streamID
        { streamCount := 0, outputIDs := [], SRI := deriveSRI true tmp.SRI,
          adjustXStart := st.adjustXStart } { tmp with sriChanged := true }
      = pushTransposedLoop tmp.streamID { tmp with sriChanged := true } tmp.SRI.subsize.toNat 0
          (adjustXStartStep true { tmp with sriChanged := true }
            { streamCount := 0, outputIDs := [], SRI := deriveSRI true tmp.SRI,
              adjustXStart := st.adjustXStart }) := by
    unfold pushStep pushTransposed
    simp [hs]
  rw [hpush] at hout
  obtain ⟨hloop, _⟩ := pushTransposedLoop_fresh tmp.streamID { tmp with sriChanged := true }
    tmp.SRI.subsize.toNat 0
    (adjustXStartStep true { tmp with sriChanged := true }
      { streamCount := 0, outputIDs := [], SRI := deriveSRI true tmp.SRI,
        adjustXStart := st.adjustXStart })
    (by rw [adjustXStartStep_outputIDs]; rfl)
  rw [hloop] at hout
  refine ⟨columnSRI tmp.streamID { tmp with sriChanged := true }
    (adjustXStartStep true { tmp with sriChanged := true }
      { streamCount := 0, outputIDs := [], SRI := deriveSRI true tmp.SRI,
        adjustXStart := st.adjustXStart }), ?_, ?_⟩
  · show (servicePacket initSRI true tmp c).2 = _
    rw [hout]
    congr 1
    apply List.flatMap_congr
    intro col _
    unfold columnCalls
    rw [(adjustXStartStep_frame _ _ _).1]
    simp only [Nat.zero_add]
    rfl
  · intro col
    unfold columnSRI
    rw [(adjustXStartStep_frame _ _ _).1]
    simp only [Nat.zero_add]

/-- An instance of the amended C6: after the columns `s_0` and `s_1`, a packet with
`subsize = 3`: the two markers come first, then the three new columns. -/
theorem shape_refresh_witness :
    (afterColumns.flushStreams = false
      ∧ (samplePacket [1, 2, 3, 4, 5, 6] 3 0 false).inputQueueFlushed = false
      ∧ findState afterColumns.activeStreams (samplePacket [1, 2, 3, 4, 5, 6] 3 0 false).streamID
          = some columnsState
      ∧ columnsState.outputIDs ≠ []
      ∧ 0 < (samplePacket [1, 2, 3, 4, 5, 6] 3 0 false).SRI.subsize
      ∧ (samplePacket [1, 2, 3, 4, 5, 6] 3 0 false).SRI.subsize
          ≠ (columnsState.outputIDs.length : Int))
    ∧ (∃ sris : Nat → StreamSRI,
      (serviceFunction zeroSRI true (some (samplePacket [1, 2, 3, 4, 5, 6] 3 0 false))
          afterColumns).out
          = eosMarkers (samplePacket [1, 2, 3, 4, 5, 6] 3 0 false).T columnsState.outputIDs
            ++ (List.range (samplePacket [1, 2, 3, 4, 5, 6] 3 0 false).SRI.subsize.toNat).flatMap
              (fun col =>
                [Output.pushSRI (sris col),
                 Output.pushPacket (columnData (samplePacket [1, 2, 3, 4, 5, 6] 3 0 false) col)
                   (samplePacket [1, 2, 3, 4, 5, 6] 3 0 false).T
                   (samplePacket [1, 2, 3, 4, 5, 6] 3 0 false).EOS
                   (mintedID (samplePacket [1, 2, 3, 4, 5, 6] 3 0 false).streamID col)])
      ∧ ∀ col, (sris col).streamID
          = mintedID (samplePacket [1, 2, 3, 4, 5, 6] 3 0 false).streamID col)
    ∧ dataPackets (serviceFunction zeroSRI true
          (some (samplePacket [1, 2, 3, 4, 5, 6] 3 0 false)) afterColumns).out
        = [Output.pushPacket [] 7 true "s_0", Output.pushPacket [] 7 true "s_1",
           Output.pushPacket [1, 4] 7 false "s_0", Output.pushPacket [2, 5] 7 false "s_1",
           Output.pushPacket [3, 6] 7 false "s_2"] :=
  ⟨⟨by decide, by decide, by decide!, by decide, by decide, by decide⟩,
    shape_refresh zeroSRI afterColumns (samplePacket [1, 2, 3, 4, 5, 6] 3 0 false) columnsState
      (by decide) (by decide) (by decide!) (by decide) (by decide) (by decide),
    by decide⟩

/-- C6 as stated fails when the new `subsize` is 0: in column mode, with no flush pending, the
stream `s` has the output identifiers `s_0` and `s_1`, the packet has `subsize = 0`, which
differs from 2, and the call emits the pass-through packet only: no end-of-stream packet for
`s_0` or `s_1`. -/
theorem shape_refresh_counterexample :
    afterColumns.flushStreams = false
    ∧ (samplePacket [1, 2, 3] 0 0 false).inputQueueFlushed = false
    ∧ findState afterColumns.activeStreams (samplePacket [1, 2, 3] 0 0 false).streamID
        = some columnsState
    ∧ columnsState.outputIDs = ["s_0", "s_1"]
    ∧ (samplePacket [1, 2, 3] 0 0 false).SRI.subsize ≠ (columnsState.outputIDs.length : Int)
    ∧ (serviceFunction zeroSRI true (some (samplePacket [1, 2, 3] 0 0 false)) afterColumns).out
        = [Output.pushPacket [1, 2, 3] 7 false "s"]
    ∧ Output.pushPacket [] 7 true "s_0"
        ∉ (serviceFunction zeroSRI true (some (samplePacket [1, 2, 3] 0 0 false))
            afterColumns).out := by
  decide!


/-! ## Lemmas on sequences of column mode packets -/

theorem servicePacket_column (initSRI : StreamSRI) (c : Component) (tmp : DataTransfer)
    (hs : 0 < tmp.SRI.subsize) :
    ∃ st : StateStruct,
      findState (servicePacket initSRI true tmp c).1.activeStreams tmp.streamID = some st
      ∧ st.outputIDs.length = tmp.SRI.subsize.toNat
      ∧ (∃ ext, st.outputIDs = (engineInput initSRI true tmp c).state.outputIDs ++ ext)
      ∧ dataPackets (servicePacket initSRI true tmp c).2
          = eosMarkers tmp.T (closedIDs true tmp c)
            ++ (List.range tmp.SRI.subsize.toNat).map (fun col =>
                Output.pushPacket (columnData tmp col) tmp.T tmp.EOS
                  (st.outputIDs.getD col "")) := by
  obtain ⟨b, hb⟩ := refreshStep_tmp true (entryState initSRI tmp c) tmp
  have hfind := servicePacket_find initSRI true tmp c
  have hout := servicePacket_out initSRI true tmp c
  have hids := refreshStep_outputIDs true (entryState initSRI tmp c) tmp
  unfold engineInput at hfind hout ⊢
  rw [hb] at hfind hout
  have hpush : pushStep true tmp.streamID (refreshStep true (entryState initSRI tmp c) tmp).state
        { tmp with sriChanged := b }
      = pushTransposedLoop tmp.streamID { tmp with sriChanged := b } tmp.SRI.subsize.toNat 0
          (adjustXStartStep true { tmp with sriChanged := b }
            (refreshStep true (entryState initSRI tmp c) tmp).state) := by
    unfold pushStep pushTransposed
    simp [hs]
  rw [hpush] at hfind hout
  obtain ⟨hext, hlen, hdata⟩ := pushTransposedLoop_spec tmp.streamID { tmp with sriChanged := b }
    tmp.SRI.subsize.toNat 0
    (adjustXStartStep true { tmp with sriChanged := b }
      (refreshStep true (entryState initSRI tmp c) tmp).state) (Nat.zero_le _)
  rw [adjustXStartStep_outputIDs] at hext hlen
  refine ⟨_, hfind, ?_, hext, ?_⟩
  · rw [hlen, hids]
    by_cases hn : tmp.SRI.subsize = ((entryState initSRI tmp c).outputIDs.length : Int)
    · simp [hs, hn]
    · simp [hs, hn]
  · rw [hout, dataPackets_append, dataPackets_eosMarkers, hdata]
    congr 1
    apply List.map_congr_left
    intro col _
    simp only [Nat.zero_add]
    rfl

theorem servicePacket_column_stable (initSRI : StreamSRI) (c : Component) (tmp : DataTransfer)
    (ids : List String) (hs : 0 < tmp.SRI.subsize) (hq : tmp.inputQueueFlushed = false)
    (hlen : ids.length = tmp.SRI.subsize.toNat) (hinv : Tracks c tmp.streamID ids) :
    Tracks (servicePacket initSRI true tmp c).1 tmp.streamID ids
    ∧ dataPackets (servicePacket initSRI true tmp c).2
        = (List.range tmp.SRI.subsize.toNat).map (fun col =>
            Output.pushPacket (columnData tmp col) tmp.T tmp.EOS (ids.getD col "")) := by
  obtain ⟨hflush, st, hfind, hst⟩ := hinv
  have hf : (c.flushStreams || tmp.inputQueueFlushed) = false := by simp [hflush, hq]
  have hentry : entryState initSRI tmp c = st := by
    rw [entryState_of_no_flush initSRI tmp c hf, hfind]
  have hsame : tmp.SRI.subsize = (st.outputIDs.length : Int) := by
    rw [hst, hlen]
    omega
  have hclosed : closedIDs true tmp c = [] := by
    unfold closedIDs
    rw [hf, hfind]
    simp [hsame]
  have hin : (engineInput initSRI true tmp c).state.outputIDs = ids := by
    unfold engineInput
    rw [refreshStep_outputIDs, hentry]
    simp [hsame, hst]
  obtain ⟨st', hfind', hlen', ⟨ext, hext⟩, hdata⟩ := servicePacket_column initSRI c tmp hs
  have hids' : st'.outputIDs = ids := by
    rw [hin] at hext
    have hl : ext.length = 0 := by
      have := congrArg List.length hext
      rw [List.length_append, hlen', hlen] at this
      omega
    have : ext = [] := List.eq_nil_of_length_eq_zero hl
    rw [hext, this, List.append_nil]
  refine ⟨⟨servicePacket_flushStreams initSRI true tmp c, st', hfind', hids'⟩, ?_⟩
  rw [hdata, hclosed, hids']
  rfl


theorem run_cons (initSRI : StreamSRI) (s : Bool × DataTransfer)
    (rest : List (Bool × DataTransfer)) (c : Component) :
    run initSRI (s :: rest) c
      = ((run initSRI rest (servicePacket initSRI s.1 s.2 c).1).1,
          (servicePacket initSRI s.1 s.2 c).2
            ++ (run initSRI rest (servicePacket initSRI s.1 s.2 c).1).2) := rfl

theorem run_column_stable (initSRI : StreamSRI) (key : String) (s : Int) (ids : List String)
    (hs : 0 < s) (hlen : ids.length = s.toNat) :
    ∀ (qs : List DataTransfer) (c : Component), Tracks c key ids →
      (∀ q ∈ qs, q.streamID = key ∧ q.SRI.subsize = s ∧ q.inputQueueFlushed = false) →
      Tracks (run initSRI (columnSteps qs) c).1 key ids := by
  intro qs
  induction qs with
  | nil => intro c h _; exact h
  | cons q rest ih =>
    intro c h hall
    obtain ⟨hk, hsub, hq⟩ := hall q (List.mem_cons_self _ _)
    have hstep := (servicePacket_column_stable initSRI c q ids (by rw [hsub]; exact hs) hq
      (by rw [hsub]; exact hlen) (by rw [hk]; exact h)).1
    rw [hk] at hstep
    exact ih _ hstep (fun q' hq' => hall q' (List.mem_cons_of_mem _ hq'))

/-- C7. P2, identifier stability: for column mode packets `p :: ps` of one source stream `key`
with the same `subsize = s > 0`, none reporting a flushed queue, there is a sequence `ids` of
exactly `s` identifiers that is the `outputIDs` of the stream after the first packet and after
every later packet (after `p :: qs` for every prefix `qs` of `ps`), and every later packet
emits as its data packets exactly the columns `col = 0 .. s - 1`, column `col` under
`ids[col]`. In particular (second part) `outputIDs.size() == subsize` holds after every column
mode call with `subsize > 0`, from every component state. -/
theorem identifier_stability (initSRI : StreamSRI) (c : Component) (key : String) (s : Int)
    (p : DataTransfer) (ps : List DataTransfer) (hs : 0 < s)
    (hall : ∀ q ∈ p :: ps, q.streamID = key ∧ q.SRI.subsize = s ∧ q.inputQueueFlushed = false) :
    (∃ ids : List String, ids.length = s.toNat
      ∧ (∀ qs rest, ps = qs ++ rest →
          Option.map StateStruct.outputIDs
            (findState (run initSRI (columnSteps (p :: qs)) c).1.activeStreams key) = some ids)
      ∧ (∀ qs q rest, ps = qs ++ q :: rest →
          dataPackets (serviceFunction initSRI true (some q)
              (run initSRI (columnSteps (p :: qs)) c).1).out
            = (List.range s.toNat).map (fun col =>
                Output.pushPacket (columnData q col) q.T q.EOS (ids.getD col ""))))
    ∧ (∀ (c' : Component) (tmp : DataTransfer), 0 < tmp.SRI.subsize →
        ∃ st : StateStruct,
          findState (serviceFunction initSRI true (some tmp) c').comp.activeStreams tmp.streamID
            = some st
          ∧ st.outputIDs.length = tmp.SRI.subsize.toNat) := by
  obtain ⟨hk, hsub, _⟩ := hall p (List.mem_cons_self _ _)
  have hps : 0 < p.SRI.subsize := by rw [hsub]; exact hs
  obtain ⟨st1, hfind1, hlen1, _, _⟩ := servicePacket_column initSRI c p hps
  rw [hk] at hfind1
  rw [hsub] at hlen1
  have htr1 : Tracks (servicePacket initSRI true p c).1 key st1.outputIDs :=
    ⟨servicePacket_flushStreams initSRI true p c, st1, hfind1, rfl⟩
  have hafter : ∀ qs rest, ps = qs ++ rest →
      Tracks (run initSRI (columnSteps (p :: qs)) c).1 key st1.outputIDs := by
    intro qs rest hsplit
    have hqs : ∀ q ∈ qs, q.streamID = key ∧ q.SRI.subsize = s ∧ q.inputQueueFlushed = false := by
      intro q hq
      exact hall q (List.mem_cons_of_mem _ (by rw [hsplit]; exact List.mem_append_left _ hq))
    exact run_column_stable initSRI key s st1.outputIDs hs hlen1 qs _ htr1 hqs
  refine ⟨⟨st1.outputIDs, hlen1, ?_, ?_⟩, ?_⟩
  · intro qs rest hsplit
    obtain ⟨_, st, hf, hids⟩ := hafter qs rest hsplit
    rw [hf, Option.map_some', hids]
  · intro qs q rest hsplit
    have htr := hafter qs (q :: rest) hsplit
    obtain ⟨hqk, hqs, hqf⟩ := hall q
      (List.mem_cons_of_mem _ (by rw [hsplit]; simp))
    have hstep := (servicePacket_column_stable initSRI _ q st1.outputIDs
      (by rw [hqs]; exact hs) hqf (by rw [hqs]; exact hlen1) (by rw [hqk]; exact htr)).2
    rw [hqs] at hstep
    exact hstep
  · intro c' tmp htmp
    obtain ⟨st, hf, hl, _, _⟩ := servicePacket_column initSRI c' tmp htmp
    exact ⟨st, hf, hl⟩


/-- An instance of C7: two column mode packets of the stream `s` with `subsize = 2` from the
initial component; the identifiers are `s_0` and `s_1` after both. -/
theorem identifier_stability_witness :
    ((0 : Int) < 2
      ∧ ∀ q ∈ samplePacket [1, 2, 3, 4, 5, 6] 2 0 false :: [eosPacket],
          q.streamID = "s" ∧ q.SRI.subsize = 2 ∧ q.inputQueueFlushed = false)
    ∧ ((∃ ids : List String, ids.length = (2 : Int).toNat
        ∧ (∀ qs rest, [eosPacket] = qs ++ rest →
            Option.map StateStruct.outputIDs
              (findState (run zeroSRI
                (columnSteps (samplePacket [1, 2, 3, 4, 5, 6] 2 0 false :: qs))
                initial).1.activeStreams "s") = some ids)
        ∧ (∀ qs q rest, [eosPacket] = qs ++ q :: rest →
            dataPackets (serviceFunction zeroSRI true (some q)
                (run zeroSRI (columnSteps (samplePacket [1, 2, 3, 4, 5, 6] 2 0 false :: qs))
                  initial).1).out
              = (List.range (2 : Int).toNat).map (fun col =>
                  Output.pushPacket (columnData q col) q.T q.EOS (ids.getD col ""))))
      ∧ (∀ (c' : Component) (tmp : DataTransfer), 0 < tmp.SRI.subsize →
          ∃ st : StateStruct,
            findState (serviceFunction zeroSRI true (some tmp) c').comp.activeStreams
                tmp.streamID = some st
            ∧ st.outputIDs.length = tmp.SRI.subsize.toNat))
    ∧ Option.map StateStruct.outputIDs
        (findState (run zeroSRI
          (columnSteps [samplePacket [1, 2, 3, 4, 5, 6] 2 0 false, eosPacket])
          initial).1.activeStreams "s") = some ["s_0", "s_1"] :=
  ⟨⟨by decide, by decide⟩,
    identifier_stability zeroSRI initial "s" 2 (samplePacket [1, 2, 3, 4, 5, 6] 2 0 false)
      [eosPacket] (by decide) (by decide),
    by decide⟩

theorem mem_dataPackets (o : Output) (out : List Output) (d : List ℚ) (T : Nat) (e : Bool)
    (id : String) (ho : o = Output.pushPacket d T e id) (hmem : o ∈ out) :
    o ∈ dataPackets out := by
  unfold dataPackets
  rw [List.mem_filter]
  refine ⟨hmem, ?_⟩
  rw [ho]

theorem servicePacket_column_eos (initSRI : StreamSRI) (c : Component) (tmp : DataTransfer)
    (hs : 0 < tmp.SRI.subsize) (hq : tmp.inputQueueFlushed = false)
    (hinv : Settled c tmp.streamID tmp.SRI.subsize.toNat) :
    Settled (servicePacket initSRI true tmp c).1 tmp.streamID tmp.SRI.subsize.toNat
    ∧ ∀ d T e id, Output.pushPacket d T e id ∈ (servicePacket initSRI true tmp c).2 →
        e = tmp.EOS ∧ T = tmp.T := by
  obtain ⟨hflush, hstart⟩ := hinv
  have hf : (c.flushStreams || tmp.inputQueueFlushed) = false := by simp [hflush, hq]
  have hclosed : closedIDs true tmp c = [] := by
    unfold closedIDs
    rw [hf]
    cases hfind : findState c.activeStreams tmp.streamID with
    | none => simp
    | some st =>
      simp only [Bool.false_eq_true, if_false]
      by_cases hsame : tmp.SRI.subsize = (st.outputIDs.length : Int)
      · simp [hsame]
      · rcases hstart st hfind with h | h
        · simp [h]
        · exfalso
          apply hsame
          rw [h]
          omega
  obtain ⟨st', hfind', hlen', _, hdata⟩ := servicePacket_column initSRI c tmp hs
  refine ⟨⟨servicePacket_flushStreams initSRI true tmp c, ?_⟩, ?_⟩
  · intro st hst
    rw [hfind'] at hst
    cases hst
    exact Or.inr hlen'
  · intro d T e id hmem
    have hm := mem_dataPackets _ _ d T e id rfl hmem
    rw [hdata, hclosed] at hm
    simp only [eosMarkers, List.map_nil, List.nil_append, List.mem_map] at hm
    obtain ⟨col, _, hcol⟩ := hm
    cases hcol
    exact ⟨rfl, rfl⟩

theorem run_column_eos (initSRI : StreamSRI) (key : String) (s : Int) (hs : 0 < s) :
    ∀ (ps : List DataTransfer) (c : Component), Settled c key s.toNat →
      (∀ q ∈ ps, q.streamID = key ∧ q.SRI.subsize = s ∧ q.inputQueueFlushed = false) →
      ∀ d T e id, Output.pushPacket d T e id ∈ (run initSRI (columnSteps ps) c).2 →
        ∃ q ∈ ps, e = q.EOS ∧ T = q.T := by
  intro ps
  induction ps with
  | nil =>
    intro c _ _ d T e id hmem
    simp [columnSteps, run] at hmem
  | cons p rest ih =>
    intro c hinv hall d T e id hmem
    obtain ⟨hk, hsub, hq⟩ := hall p (List.mem_cons_self _ _)
    have hstep := servicePacket_column_eos initSRI c p (by rw [hsub]; exact hs) hq
      (by rw [hk, hsub]; exact hinv)
    rw [hk, hsub] at hstep
    have hrun : run initSRI (columnSteps (p :: rest)) c
        = ((run initSRI (columnSteps rest) (servicePacket initSRI true p c).1).1,
            (servicePacket initSRI true p c).2
              ++ (run initSRI (columnSteps rest) (servicePacket initSRI true p c).1).2) := rfl
    rw [hrun] at hmem
    rcases List.mem_append.mp hmem with h | h
    · exact ⟨p, List.mem_cons_self _ _, hstep.2 d T e id h⟩
    · obtain ⟨q, hq', hres⟩ := ih _ hstep.1
        (fun q' hq' => hall q' (List.mem_cons_of_mem _ hq')) d T e id h
      exact ⟨q, List.mem_cons_of_mem _ hq', hres⟩

/-- C8 (as amended). P2, no end-of-stream: for a sequence of column mode packets of one source
stream `key` with unchanged `subsize = s > 0`, with no flush (the flag is clear, no packet
reports a flushed queue) and no shape refresh (the stream starts with no output identifier or
with `s` of them), every data packet emitted carries the end-of-stream flag and the time stamp
of one of the input packets; so no end-of-stream data packet is emitted as long as no input
packet has its own end-of-stream flag set. -/
theorem no_end_of_stream (initSRI : StreamSRI) (c : Component) (key : String) (s : Int)
    (ps : List DataTransfer) (hs : 0 < s) (hflush : c.flushStreams = false)
    (hstart : ∀ st : StateStruct, findState c.activeStreams key = some st →
      st.outputIDs = [] ∨ st.outputIDs.length = s.toNat)
    (hall : ∀ q ∈ ps, q.streamID = key ∧ q.SRI.subsize = s ∧ q.inputQueueFlushed = false) :
    (∀ d T e id, Output.pushPacket d T e id ∈ (run initSRI (columnSteps ps) c).2 →
        ∃ q ∈ ps, e = q.EOS ∧ T = q.T)
    ∧ ((∀ q ∈ ps, q.EOS = false) →
        ∀ d T e id, Output.pushPacket d T e id ∈ (run initSRI (columnSteps ps) c).2 →
          e = false) := by
  have h := run_column_eos initSRI key s hs ps c ⟨hflush, hstart⟩ hall
  refine ⟨h, ?_⟩
  intro hno d T e id hmem
  obtain ⟨q, hq, he, _⟩ := h d T e id hmem
  rw [he]
  exact hno q hq

/-- An instance of the amended C8: two column mode packets of the stream `s` with
`subsize = 2` and the end-of-stream flag clear, from the initial component. -/
theorem no_end_of_stream_witness :
    ((0 : Int) < 2
      ∧ initial.flushStreams = false
      ∧ (∀ st : StateStruct, findState initial.activeStreams "s" = some st →
          st.outputIDs = [] ∨ st.outputIDs.length = (2 : Int).toNat)
      ∧ ∀ q ∈ [samplePacket [1, 2, 3, 4] 2 0 false, samplePacket [5, 6, 7, 8] 2 0 false],
          q.streamID = "s" ∧ q.SRI.subsize = 2 ∧ q.inputQueueFlushed = false)
    ∧ ((∀ d T e id, Output.pushPacket d T e id ∈ (run zeroSRI (columnSteps
            [samplePacket [1, 2, 3, 4] 2 0 false, samplePacket [5, 6, 7, 8] 2 0 false])
            initial).2 →
          ∃ q ∈ [samplePacket [1, 2, 3, 4] 2 0 false, samplePacket [5, 6, 7, 8] 2 0 false],
            e = q.EOS ∧ T = q.T)
      ∧ ((∀ q ∈ [samplePacket [1, 2, 3, 4] 2 0 false, samplePacket [5, 6, 7, 8] 2 0 false],
            q.EOS = false) →
          ∀ d T e id, Output.pushPacket d T e id ∈ (run zeroSRI (columnSteps
              [samplePacket [1, 2, 3, 4] 2 0 false, samplePacket [5, 6, 7, 8] 2 0 false])
              initial).2 →
            e = false))
    ∧ dataPackets (run zeroSRI (columnSteps
          [samplePacket [1, 2, 3, 4] 2 0 false, samplePacket [5, 6, 7, 8] 2 0 false])
          initial).2
        = [Output.pushPacket [1, 3] 7 false "s_0", Output.pushPacket [2, 4] 7 false "s_1",
           Output.pushPacket [5, 7] 7 false "s_0", Output.pushPacket [6, 8] 7 false "s_1"] :=
  ⟨⟨by decide, rfl, fun st h => by simp [initial, findState] at h, by decide⟩,
    no_end_of_stream zeroSRI initial "s" 2
      [samplePacket [1, 2, 3, 4] 2 0 false, samplePacket [5, 6, 7, 8] 2 0 false]
      (by decide) rfl (fun st h => by simp [initial, findState] at h) (by decide),
    by decide⟩

/-- C8 as stated fails when an input packet has its end-of-stream flag set: the stream `s` has
the columns `s_0` and `s_1`, no flush is pending, the next column mode packet has the same
`subsize = 2` (no shape refresh, no stream is closed) and `EOS = true`, and the call emits the
end-of-stream data packet `[5,7]` under `s_0`. -/
theorem no_end_of_stream_counterexample :
    afterColumns.flushStreams = false
    ∧ eosPacket.inputQueueFlushed = false
    ∧ Option.map StateStruct.outputIDs (findState afterColumns.activeStreams eosPacket.streamID)
        = some ["s_0", "s_1"]
    ∧ eosPacket.SRI.subsize = 2
    ∧ closedIDs true eosPacket afterColumns = []
    ∧ Output.pushPacket [5, 7] 7 true "s_0"
        ∈ (serviceFunction zeroSRI true (some eosPacket) afterColumns).out := by
  decide!


/-- C9. Metadata derivation: for a packet with `subsize > 0`, the SRI of the state right after
`updateState` has, in column mode, `xdelta` equal to the incoming `ydelta` when `ydelta > 0`
and to the incoming `xdelta / subsize` otherwise, `xstart` equal to the incoming `ystart` and
`xunits` equal to the incoming `yunits`; in burst mode `xdelta`, `xstart` and `xunits` are the
incoming ones; in both modes `mode` is the incoming one. -/
theorem metadata_derivation (subsizeRefresh : Bool) (st : StateStruct) (tmp : DataTransfer)
    (hs : 0 < tmp.SRI.subsize) :
    ((updateState subsizeRefresh st true tmp).state.SRI.xdelta
        = (if tmp.SRI.ydelta > 0 then tmp.SRI.ydelta
           else tmp.SRI.xdelta / (tmp.SRI.subsize : ℚ))
      ∧ (updateState subsizeRefresh st true tmp).state.SRI.xstart = tmp.SRI.ystart
      ∧ (updateState subsizeRefresh st true tmp).state.SRI.xunits = tmp.SRI.yunits
      ∧ (updateState subsizeRefresh st true tmp).state.SRI.mode = tmp.SRI.mode)
    ∧ ((updateState subsizeRefresh st false tmp).state.SRI.xdelta = tmp.SRI.xdelta
      ∧ (updateState subsizeRefresh st false tmp).state.SRI.xstart = tmp.SRI.xstart
      ∧ (updateState subsizeRefresh st false tmp).state.SRI.xunits = tmp.SRI.xunits
      ∧ (updateState subsizeRefresh st false tmp).state.SRI.mode = tmp.SRI.mode) := by
  rw [updateState_pos _ _ _ _ hs, updateState_pos _ _ _ _ hs]
  refine ⟨⟨?_, ?_, ?_, ?_⟩, ?_, ?_, ?_, ?_⟩ <;> simp [deriveSRI]

/-- An instance of C9: `subsize = 2`, `xdelta = 1`, `ydelta = 0`, `xstart = 3`, `ystart = 5`:
column mode derives `xdelta = 1/2` and `xstart = 5`; burst mode keeps `xdelta = 1` and
`xstart = 3`. -/
theorem metadata_derivation_witness :
    0 < noRatePacket.SRI.subsize
    ∧ (((updateState true columnsState true noRatePacket).state.SRI.xdelta
          = (if noRatePacket.SRI.ydelta > 0 then noRatePacket.SRI.ydelta
             else noRatePacket.SRI.xdelta / (noRatePacket.SRI.subsize : ℚ))
        ∧ (updateState true columnsState true noRatePacket).state.SRI.xstart
            = noRatePacket.SRI.ystart
        ∧ (updateState true columnsState true noRatePacket).state.SRI.xunits
            = noRatePacket.SRI.yunits
        ∧ (updateState true columnsState true noRatePacket).state.SRI.mode
            = noRatePacket.SRI.mode)
      ∧ ((updateState true columnsState false noRatePacket).state.SRI.xdelta
          = noRatePacket.SRI.xdelta
        ∧ (updateState true columnsState false noRatePacket).state.SRI.xstart
            = noRatePacket.SRI.xstart
        ∧ (updateState true columnsState false noRatePacket).state.SRI.xunits
            = noRatePacket.SRI.xunits
        ∧ (updateState true columnsState false noRatePacket).state.SRI.mode
            = noRatePacket.SRI.mode))
    ∧ (updateState true columnsState true noRatePacket).state.SRI.xdelta = 1 / 2
    ∧ (updateState true columnsState true noRatePacket).state.SRI.xstart = 5
    ∧ (updateState true columnsState false noRatePacket).state.SRI.xdelta = 1
    ∧ (updateState true columnsState false noRatePacket).state.SRI.xstart = 3 :=
  ⟨by decide, metadata_derivation true columnsState noRatePacket (by decide),
    by decide!, by decide!, by decide!, by decide!⟩


/-! ## Lemmas on the published SRI -/

theorem deriveSRI_oneDimensional (thisTranspose : Bool) (sri : StreamSRI) :
    OneDimensional (deriveSRI thisTranspose sri) := by
  unfold OneDimensional deriveSRI
  exact ⟨rfl, rfl, rfl, rfl⟩

theorem adjustXStartStep_oneDimensional (thisTranspose : Bool) (tmp : DataTransfer)
    (st : StateStruct) (h : OneDimensional st.SRI) :
    OneDimensional (adjustXStartStep thisTranspose tmp st).SRI := by
  unfold adjustXStartStep
  split
  · split <;> exact h
  · exact h

theorem pushTransposedCol_oneDimensional (key : String) (tmp : DataTransfer) (col : Nat)
    (st : StateStruct) (h : OneDimensional st.SRI) :
    OneDimensional (pushTransposedCol key tmp col st).1.SRI
    ∧ ∀ sri, Output.pushSRI sri ∈ (pushTransposedCol key tmp col st).2 → OneDimensional sri := by
  have he : (ensureID key col st).SRI = st.SRI := by
    unfold ensureID
    split <;> rfl
  unfold pushTransposedCol
  simp only
  split
  · unfold pushColSRI
    simp only [he]
    refine ⟨?_, ?_⟩
    · split <;> exact h
    · intro sri hmem
      simp only [List.mem_append, List.mem_singleton, Output.pushSRI.injEq, or_false,
        reduceCtorEq] at hmem
      rw [hmem]
      exact h
  · refine ⟨by rw [he]; exact h, ?_⟩
    intro sri hmem
    simp at hmem

theorem pushTransposedLoop_oneDimensional (key : String) (tmp : DataTransfer) :
    ∀ (remaining col : Nat) (st : StateStruct), OneDimensional st.SRI →
      OneDimensional (pushTransposedLoop key tmp remaining col st).1.SRI
      ∧ ∀ sri, Output.pushSRI sri ∈ (pushTransposedLoop key tmp remaining col st).2 →
          OneDimensional sri := by
  intro remaining
  induction remaining with
  | zero =>
    intro col st h
    exact ⟨h, fun sri hmem => by simp [pushTransposedLoop] at hmem⟩
  | succ remaining ih =>
    intro col st h
    obtain ⟨h1, h2⟩ := pushTransposedCol_oneDimensional key tmp col st h
    obtain ⟨h3, h4⟩ := ih (col + 1) _ h1
    simp only [pushTransposedLoop]
    refine ⟨h3, ?_⟩
    intro sri hmem
    rcases List.mem_append.mp hmem with hm | hm
    · exact h2 sri hm
    · exact h4 sri hm

theorem pushUnTransposedLoop_oneDimensional (key : String) (tmp : DataTransfer) (stride : Nat) :
    ∀ (remaining i : Nat) (st : StateStruct), OneDimensional st.SRI →
      OneDimensional (pushUnTransposedLoop key tmp stride remaining i st).1.SRI
      ∧ ∀ sri, Output.pushSRI sri ∈ (pushUnTransposedLoop key tmp stride remaining i st).2 →
          OneDimensional sri := by
  intro remaining
  induction remaining with
  | zero =>
    intro i st h
    exact ⟨h, fun sri hmem => by simp [pushUnTransposedLoop] at hmem⟩
  | succ remaining ih =>
    intro i st h
    have h1 : OneDimensional (pushUnTransposedFrame key tmp stride i st).1.SRI := by
      rw [pushUnTransposedFrame_fst]
      exact h
    have h2 : ∀ sri, Output.pushSRI sri ∈ (pushUnTransposedFrame key tmp stride i st).2 →
        OneDimensional sri := by
      intro sri hmem
      rw [pushUnTransposedFrame_snd] at hmem
      simp only [burstCalls, List.mem_cons, Output.pushSRI.injEq, List.mem_singleton,
        reduceCtorEq, or_false, List.not_mem_nil] at hmem
      rw [hmem]
      exact h
    obtain ⟨h3, h4⟩ := ih (i + 1) _ h1
    simp only [pushUnTransposedLoop]
    refine ⟨h3, ?_⟩
    intro sri hmem
    rcases List.mem_append.mp hmem with hm | hm
    · exact h2 sri hm
    · exact h4 sri hm

theorem pushStep_oneDimensional (thisTranspose : Bool) (key : String) (st : StateStruct)
    (tmp : DataTransfer) (hs : 0 < tmp.SRI.subsize) (h : OneDimensional st.SRI) :
    OneDimensional (pushStep thisTranspose key st tmp).1.SRI
    ∧ ∀ sri, Output.pushSRI sri ∈ (pushStep thisTranspose key st tmp).2 →
        OneDimensional sri := by
  unfold pushStep
  rw [if_pos hs]
  cases thisTranspose
  · exact pushUnTransposedLoop_oneDimensional key tmp _ _ 0 _
      (adjustXStartStep_oneDimensional false tmp st h)
  · exact pushTransposedLoop_oneDimensional key tmp _ 0 _
      (adjustXStartStep_oneDimensional true tmp st h)

theorem refreshStep_oneDimensional (thisTranspose : Bool) (st : StateStruct)
    (tmp : DataTransfer) (hs : 0 < tmp.SRI.subsize)
    (h : st.streamCount = 0 ∨ OneDimensional st.SRI) :
    OneDimensional (refreshStep thisTranspose st tmp).state.SRI := by
  unfold refreshStep
  simp only [updateState_pos _ _ _ _ hs]
  split
  · exact deriveSRI_oneDimensional thisTranspose tmp.SRI
  · rename_i hcond
    rcases h with h0 | h1
    · exfalso
      apply hcond
      simp [h0]
    · exact h1


theorem findState_mem (m : state_type) (key : String) (st : StateStruct)
    (h : findState m key = some st) : ∃ e ∈ m, e.2 = st := by
  induction m with
  | nil => simp [findState] at h
  | cons e rest ih =>
    unfold findState at h
    by_cases he : e.1 = key
    · simp only [he, if_true, Option.some.injEq] at h
      exact ⟨e, List.mem_cons_self _ _, h⟩
    · simp only [he, if_false] at h
      obtain ⟨e', hmem, heq⟩ := ih h
      exact ⟨e', List.mem_cons_of_mem _ hmem, heq⟩

theorem mem_assignState (m : state_type) (key : String) (v : StateStruct)
    (e : String × StateStruct) (h : e ∈ assignState m key v) : e ∈ m ∨ e.2 = v := by
  induction m with
  | nil => simp [assignState] at h
  | cons x rest ih =>
    unfold assignState at h
    by_cases hx : x.1 = key
    · simp only [hx, if_true, List.mem_cons] at h
      rcases h with h | h
      · exact Or.inr (by rw [h])
      · exact Or.inl (List.mem_cons_of_mem _ h)
    · simp only [hx, if_false, List.mem_cons] at h
      rcases h with h | h
      · exact Or.inl (by rw [h]; exact List.mem_cons_self _ _)
      · rcases ih h with h' | h'
        · exact Or.inl (List.mem_cons_of_mem _ h')
        · exact Or.inr h'

theorem mem_insertState (m : state_type) (key : String) (v : StateStruct)
    (e : String × StateStruct) (h : e ∈ insertState m key v) : e ∈ m ∨ e.2 = v := by
  induction m with
  | nil =>
    simp only [insertState, List.mem_singleton] at h
    exact Or.inr (by rw [h])
  | cons x rest ih =>
    unfold insertState at h
    by_cases hx : key.data < x.1.data
    · simp only [hx, if_true, List.mem_cons] at h
      rcases h with h | h | h
      · exact Or.inr (by rw [h])
      · exact Or.inl (by rw [h]; exact List.mem_cons_self _ _)
      · exact Or.inl (List.mem_cons_of_mem _ h)
    · simp only [hx, if_false, List.mem_cons] at h
      rcases h with h | h
      · exact Or.inl (by rw [h]; exact List.mem_cons_self _ _)
      · rcases ih h with h' | h'
        · exact Or.inl (List.mem_cons_of_mem _ h')
        · exact Or.inr h'

theorem flushStep_derived (c : Component) (tmp : DataTransfer)
    (h : DerivedOnceCounted c.activeStreams) :
    DerivedOnceCounted (flushStep c tmp).1.activeStreams := by
  cases hf : (c.flushStreams || tmp.inputQueueFlushed)
  · rw [flushStep_of_no_flush c tmp hf]
    exact h
  · rw [flushStep_of_flush c tmp hf]
    intro e he
    simp at he

theorem lookupOrCreate_derived (initSRI : StreamSRI) (m : state_type) (tmp : DataTransfer)
    (h : DerivedOnceCounted m) :
    DerivedOnceCounted (lookupOrCreate initSRI m tmp).1
    ∧ ((lookupOrCreate initSRI m tmp).2.streamCount = 0
        ∨ OneDimensional (lookupOrCreate initSRI m tmp).2.SRI) := by
  unfold lookupOrCreate
  cases hf : findState m tmp.streamID with
  | none =>
    refine ⟨?_, Or.inl rfl⟩
    intro e he
    rcases mem_insertState _ _ _ _ he with h' | h'
    · exact h e h'
    · exact Or.inl (by rw [h']; rfl)
  | some st =>
    obtain ⟨e, hmem, heq⟩ := findState_mem m _ st hf
    refine ⟨h, ?_⟩
    have := h e hmem
    rw [heq] at this
    exact this

theorem servicePacket_derived (initSRI : StreamSRI) (transpose : Bool) (tmp : DataTransfer)
    (c : Component) (h : DerivedOnceCounted c.activeStreams) :
    DerivedOnceCounted (servicePacket initSRI transpose tmp c).1.activeStreams
    ∧ ∀ sri, Output.pushSRI sri ∈ (servicePacket initSRI transpose tmp c).2 →
        OneDimensional sri
        ∨ (tmp.SRI.subsize ≤ 0 ∧ tmp.sriChanged = true ∧ sri = tmp.SRI) := by
  obtain ⟨hl1, hl2⟩ := lookupOrCreate_derived initSRI (flushStep c tmp).1.activeStreams tmp
    (flushStep_derived c tmp h)
  have hout := servicePacket_out initSRI transpose tmp c
  have hnomark : ∀ sri, Output.pushSRI sri ∉ eosMarkers tmp.T (closedIDs transpose tmp c) := by
    intro sri hmem
    simp [eosMarkers] at hmem
  by_cases hs : 0 < tmp.SRI.subsize
  · obtain ⟨b, hb⟩ := refreshStep_tmp transpose (entryState initSRI tmp c) tmp
    have hone := refreshStep_oneDimensional transpose (entryState initSRI tmp c) tmp hs hl2
    have hs' : 0 < (refreshStep transpose (entryState initSRI tmp c) tmp).tmp.SRI.subsize := by
      rw [hb]; exact hs
    obtain ⟨hp1, hp2⟩ := pushStep_oneDimensional transpose tmp.streamID _ _ hs' hone
    refine ⟨?_, ?_⟩
    · intro e he
      unfold servicePacket at he
      rcases mem_assignState _ _ _ _ he with h' | h'
      · exact hl1 e h'
      · exact Or.inr (by rw [h']; exact hp1)
    · intro sri hmem
      rw [hout] at hmem
      rcases List.mem_append.mp hmem with hm | hm
      · exact absurd hm (hnomark sri)
      · exact Or.inl (hp2 sri hm)
  · have hr := refreshStep_nonpos transpose (entryState initSRI tmp c) tmp hs
    refine ⟨?_, ?_⟩
    · intro e he
      unfold servicePacket at he
      rcases mem_assignState _ _ _ _ he with h' | h'
      · exact hl1 e h'
      · have hr' : refreshStep transpose
            (lookupOrCreate initSRI (flushStep c tmp).1.activeStreams tmp).2 tmp
            = { state := (lookupOrCreate initSRI (flushStep c tmp).1.activeStreams tmp).2,
                tmp := tmp, out := [] } := hr
        rw [hr', pushStep_nonpos _ _ _ _ hs] at h'
        rw [h']
        exact hl2
    · intro sri hmem
      rw [hout] at hmem
      rcases List.mem_append.mp hmem with hm | hm
      · exact absurd hm (hnomark sri)
      · unfold engineInput at hm
        rw [hr, pushStep_nonpos _ _ _ _ hs] at hm
        right
        by_cases hc : tmp.sriChanged = true
        · simp [hc] at hm
          exact ⟨by omega, hc, hm⟩
        · simp [hc] at hm


theorem run_derived (initSRI : StreamSRI) :
    ∀ (steps : List (Bool × DataTransfer)) (c : Component),
      DerivedOnceCounted c.activeStreams →
      ∀ sri, Output.pushSRI sri ∈ (run initSRI steps c).2 →
        OneDimensional sri
        ∨ ∃ s ∈ steps, s.2.SRI.subsize ≤ 0 ∧ s.2.sriChanged = true ∧ sri = s.2.SRI := by
  intro steps
  induction steps with
  | nil =>
    intro c _ sri hmem
    simp [run] at hmem
  | cons s rest ih =>
    intro c h sri hmem
    obtain ⟨h1, h2⟩ := servicePacket_derived initSRI s.1 s.2 c h
    rw [run_cons] at hmem
    rcases List.mem_append.mp hmem with hm | hm
    · rcases h2 sri hm with h' | h'
      · exact Or.inl h'
      · exact Or.inr ⟨s, List.mem_cons_self _ _, h'⟩
    · rcases ih _ h1 sri hm with h' | ⟨s', hs', h'⟩
      · exact Or.inl h'
      · exact Or.inr ⟨s', List.mem_cons_of_mem _ hs', h'⟩

/-- C10. Derived streams are one-dimensional: over every sequence of calls of
`serviceFunction` (each in either mode) that starts with an empty map, whatever SRI a new state
is constructed with, every SRI pushed has `subsize = 0`, `ystart = 0`, `ydelta = 0` and
`yunits = UNITS_NONE`, unless it is the incoming SRI that the pass-through branch forwards for
a packet with `subsize ≤ 0` and `sriChanged` set. So the engines never publish the SRI of a
state that was not derived from a packet with `subsize > 0`. -/
theorem derived_streams_one_dimensional (initSRI : StreamSRI)
    (steps : List (Bool × DataTransfer)) (flush : Bool) (sri : StreamSRI)
    (hmem : Output.pushSRI sri
      ∈ (run initSRI steps { activeStreams := [], flushStreams := flush }).2) :
    (sri.subsize = 0 ∧ sri.ystart = 0 ∧ sri.ydelta = 0 ∧ sri.yunits = UNITS_NONE)
    ∨ ∃ s ∈ steps, s.2.SRI.subsize ≤ 0 ∧ s.2.sriChanged = true ∧ sri = s.2.SRI := by
  have hinit : DerivedOnceCounted
      ({ activeStreams := [], flushStreams := flush } : Component).activeStreams := by
    intro e he
    simp at he
  exact run_derived initSRI steps _ hinit sri hmem

/-- An instance of C10: new states are constructed with an SRI that has `subsize = 2`; the first
packet of the stream passes through (`subsize = 0`), so that the state is created without a
derived SRI; the SRI of the second burst of the next packet is one-dimensional. -/
theorem derived_streams_one_dimensional_witness :
    Output.pushSRI secondBurstSRI
      ∈ (run (sampleSRI 2 0) mixedSteps { activeStreams := [], flushStreams := false }).2
    ∧ ((secondBurstSRI.subsize = 0 ∧ secondBurstSRI.ystart = 0 ∧ secondBurstSRI.ydelta = 0
        ∧ secondBurstSRI.yunits = UNITS_NONE)
      ∨ ∃ s ∈ mixedSteps, s.2.SRI.subsize ≤ 0 ∧ s.2.sriChanged = true
          ∧ secondBurstSRI = s.2.SRI) :=
  ⟨by decide!,
    derived_streams_one_dimensional (sampleSRI 2 0) mixedSteps false secondBurstSRI
      (by decide!)⟩


/-! ## The flush flag -/

/-- C16 (as amended). A packet that reports a flushed queue makes `serviceFunction` flush in the
same call: with `flushStreams` not armed and `inputQueueFlushed` set, the call emits first one
empty end-of-stream packet for every identifier of every entry, what follows and the component
left behind are those of the same call on an empty map (every entry that existed is removed),
and `flushStreams` is clear when the call returns. -/
theorem queue_flush_in_step (initSRI : StreamSRI) (transpose : Bool) (c : Component)
    (tmp : DataTransfer) (hflag : c.flushStreams = false) (hq : tmp.inputQueueFlushed = true) :
    (serviceFunction initSRI transpose (some tmp) c).out
        = eosMarkers tmp.T (trackedIDs c.activeStreams)
          ++ (serviceFunction initSRI transpose (some tmp)
              { activeStreams := [], flushStreams := false }).out
    ∧ (serviceFunction initSRI transpose (some tmp) c).comp
        = (serviceFunction initSRI transpose (some tmp)
            { activeStreams := [], flushStreams := false }).comp
    ∧ (serviceFunction initSRI transpose (some tmp) c).comp.flushStreams = false
    ∧ ∀ key, key ≠ tmp.streamID →
        findState (serviceFunction initSRI transpose (some tmp) c).comp.activeStreams key
          = none := by
  have hf : (c.flushStreams || tmp.inputQueueFlushed) = true := by simp [hq]
  have hsp := servicePacket_of_flush initSRI transpose tmp c hf
  obtain ⟨st, hst⟩ := servicePacket_empty_activeStreams initSRI transpose tmp
  refine ⟨?_, ?_, ?_, ?_⟩
  · show (servicePacket initSRI transpose tmp c).2 = _
    rw [hsp]
    rfl
  · show ServiceResult.comp _ = _
    simp only [serviceFunction]
    rw [hsp]
  · exact servicePacket_flushStreams initSRI transpose tmp c
  · intro key hkey
    show findState (servicePacket initSRI transpose tmp c).1.activeStreams key = none
    rw [hsp]
    simp only
    rw [hst]
    simp [findState, Ne.symm hkey]

/-- An instance of the amended C16: the columns `s_0` and `s_1` are tracked, the flag is clear,
and a packet of the stream `a` reports a flushed queue. -/
theorem queue_flush_in_step_witness :
    (afterColumns.flushStreams = false ∧ flushedPacket.inputQueueFlushed = true)
    ∧ ((serviceFunction zeroSRI true (some flushedPacket) afterColumns).out
        = eosMarkers flushedPacket.T (trackedIDs afterColumns.activeStreams)
          ++ (serviceFunction zeroSRI true (some flushedPacket)
              { activeStreams := [], flushStreams := false }).out
      ∧ (serviceFunction zeroSRI true (some flushedPacket) afterColumns).comp
        = (serviceFunction zeroSRI true (some flushedPacket)
            { activeStreams := [], flushStreams := false }).comp
      ∧ (serviceFunction zeroSRI true (some flushedPacket) afterColumns).comp.flushStreams = false
      ∧ ∀ key, key ≠ flushedPacket.streamID →
          findState (serviceFunction zeroSRI true (some flushedPacket)
            afterColumns).comp.activeStreams key = none)
    ∧ dataPackets (serviceFunction zeroSRI true (some flushedPacket) afterColumns).out
        = [Output.pushPacket [] 7 true "s_0", Output.pushPacket [] 7 true "s_1",
           Output.pushPacket [1, 2] 7 false "a_0"] :=
  ⟨⟨by decide, by decide⟩,
    queue_flush_in_step zeroSRI true afterColumns flushedPacket (by decide) (by decide),
    by decide⟩

/-- C16 as stated fails: `flushStreams` is not armed, the stream `s` is tracked with the columns
`s_0` and `s_1`, and a packet of the stream `a` reports a flushed queue; the call emits the
end-of-stream markers of `s_0` and `s_1`, removes the entry of `s`, and leaves `flushStreams`
clear. -/
theorem queue_flush_in_step_counterexample :
    afterColumns.flushStreams = false
    ∧ flushedPacket.inputQueueFlushed = true
    ∧ Option.map StateStruct.outputIDs (findState afterColumns.activeStreams "s")
        = some ["s_0", "s_1"]
    ∧ Output.pushPacket [] 7 true "s_0"
        ∈ (serviceFunction zeroSRI true (some flushedPacket) afterColumns).out
    ∧ Output.pushPacket [] 7 true "s_1"
        ∈ (serviceFunction zeroSRI true (some flushedPacket) afterColumns).out
    ∧ findState (serviceFunction zeroSRI true (some flushedPacket) afterColumns).comp.activeStreams
        "s" = none
    ∧ (serviceFunction zeroSRI true (some flushedPacket) afterColumns).comp.flushStreams
        = false := by
  decide!

/-- C17. The listener `transposeChanged` leaves the map unchanged and arms `flushStreams` when
the old and the new value differ; but it assigns the comparison to the flag, so that a call with
equal values turns off a flag that was armed: after a toggle from true to false has armed the
flag (`armedComponent`), the call `transposeChanged(false, false)` leaves it clear. -/
theorem transposeChanged_assigns_flag :
    (∀ (oldValue newValue : Bool) (c : Component),
        (transposeChanged oldValue newValue c).activeStreams = c.activeStreams
        ∧ (oldValue ≠ newValue → (transposeChanged oldValue newValue c).flushStreams = true)
        ∧ (oldValue = newValue → (transposeChanged oldValue newValue c).flushStreams = false))
    ∧ armedComponent.flushStreams = true
    ∧ (transposeChanged false false armedComponent).flushStreams = false := by
  refine ⟨?_, by decide, by decide⟩
  intro oldValue newValue c
  refine ⟨rfl, ?_, ?_⟩
  · intro h
    simp [transposeChanged, h]
  · intro h
    simp [transposeChanged, h]


/-! ## The origin -/

/-- C15 (as amended). Origin adjustment rule: whenever the adjustment of lines 249 to 257
applies (`adjustXStart` set, incoming `xstart` or `ystart` nonzero, and burst mode or a changed
SRI), the `xstart` of the state becomes the incoming `xstart` (the column axis origin) when that
is nonzero and the incoming `ystart` (the row axis origin) otherwise; when both are nonzero, the
incoming `xstart` is the one used. -/
theorem origin_adjustment_rule (thisTranspose : Bool) (tmp : DataTransfer) (st : StateStruct)
    (hadj : st.adjustXStart = true)
    (horigin : tmp.SRI.xstart ≠ 0 ∨ tmp.SRI.ystart ≠ 0)
    (hwhen : thisTranspose = false ∨ tmp.sriChanged = true) :
    (adjustXStartStep thisTranspose tmp st).SRI.xstart
        = (if tmp.SRI.xstart ≠ 0 then tmp.SRI.xstart else tmp.SRI.ystart)
    ∧ (tmp.SRI.xstart ≠ 0 → tmp.SRI.ystart ≠ 0 →
        (adjustXStartStep thisTranspose tmp st).SRI.xstart = tmp.SRI.xstart) := by
  have hcond : (st.adjustXStart
      && (decide (tmp.SRI.xstart ≠ 0) || decide (tmp.SRI.ystart ≠ 0))
      && (!thisTranspose || tmp.sriChanged)) = true := by
    rcases horigin with h | h <;> rcases hwhen with h' | h' <;> simp [hadj, h, h']
  have hmain : (adjustXStartStep thisTranspose tmp st).SRI.xstart
      = (if tmp.SRI.xstart ≠ 0 then tmp.SRI.xstart else tmp.SRI.ystart) := by
    unfold adjustXStartStep
    rw [if_pos hcond]
    by_cases hx : tmp.SRI.xstart ≠ 0
    · rw [if_pos hx, if_pos hx]
    · rw [if_neg hx, if_neg hx]
  refine ⟨hmain, ?_⟩
  intro hx _
  rw [hmain, if_pos hx]

/-- An instance of the amended C15: incoming `xstart = 3` and `ystart = 5`, burst mode, a new
state of a stream with both units `UNITS_TIME`: `xstart` becomes 3. -/
theorem origin_adjustment_rule_witness :
    ((newState zeroSRI noRatePacket).adjustXStart = true
      ∧ (noRatePacket.SRI.xstart ≠ 0 ∨ noRatePacket.SRI.ystart ≠ 0)
      ∧ (false = false ∨ noRatePacket.sriChanged = true))
    ∧ ((adjustXStartStep false noRatePacket (newState zeroSRI noRatePacket)).SRI.xstart
          = (if noRatePacket.SRI.xstart ≠ 0 then noRatePacket.SRI.xstart
             else noRatePacket.SRI.ystart)
      ∧ (noRatePacket.SRI.xstart ≠ 0 → noRatePacket.SRI.ystart ≠ 0 →
          (adjustXStartStep false noRatePacket (newState zeroSRI noRatePacket)).SRI.xstart
            = noRatePacket.SRI.xstart))
    ∧ (adjustXStartStep false noRatePacket (newState zeroSRI noRatePacket)).SRI.xstart = 3 :=
  ⟨⟨by decide, Or.inl (by decide!), Or.inl rfl⟩,
    origin_adjustment_rule false noRatePacket (newState zeroSRI noRatePacket) (by decide)
      (Or.inl (by decide!)) (Or.inl rfl),
    by decide!⟩

/-- C15 as stated fails: a new stream with both units `UNITS_TIME`, `subsize = 2`, incoming
`xstart = 3` and `ystart = 5` (both nonzero, different), column mode with the SRI derived in the
same call: the first SRI published carries `xstart = 3`, the incoming `xstart`, and not the
incoming `ystart`. -/
theorem origin_adjustment_rule_counterexample :
    (entryState zeroSRI noRatePacket initial).adjustXStart = true
    ∧ 0 < noRatePacket.SRI.subsize
    ∧ noRatePacket.SRI.xstart = 3
    ∧ noRatePacket.SRI.ystart = 5
    ∧ (engineInput zeroSRI true noRatePacket initial).tmp.sriChanged = true
    ∧ (serviceFunction zeroSRI true (some noRatePacket) initial).out.head?
        = some (Output.pushSRI
            { xstart := 3, xdelta := 1 / 2, xunits := UNITS_TIME, subsize := 0, ystart := 0,
              ydelta := 0, yunits := UNITS_NONE, mode := 0, streamID := "s_0" }) := by
  decide!


/-- C19. Burst origin advance: in burst mode, for a packet with `subsize > 0`, with `b` the
`xstart` of the state of the stream when the burst engine starts (`burstStart`), the SRI
published for frame `k` of the packet carries `xstart = b + k * ydelta` when `adjustXStart` is
set, `ydelta` being the one of the incoming packet, and the state is left with
`xstart = b + frameCount * ydelta`; when `adjustXStart` is clear every frame carries
`xstart = b` and the `xstart` of the state is unchanged. -/
theorem burst_origin_advance (initSRI : StreamSRI) (c : Component) (tmp : DataTransfer)
    (hs : 0 < tmp.SRI.subsize) :
    ∃ (st : StateStruct) (sris : Nat → StreamSRI) (datas : Nat → List ℚ),
      findState (serviceFunction initSRI false (some tmp) c).comp.activeStreams tmp.streamID
          = some st
      ∧ (serviceFunction initSRI false (some tmp) c).out
          = eosMarkers tmp.T (closedIDs false tmp c)
            ++ (List.range
                (tmp.dataBuffer.length / (tmp.SRI.subsize.toNat * complexFactor tmp))).flatMap
              (fun k => [Output.pushSRI (sris k),
                Output.pushPacket (datas k) tmp.T true
                  (mintedID tmp.streamID (priorCount tmp c + k))])
      ∧ ((burstStart initSRI tmp c).adjustXStart = true →
          (∀ k, (sris k).xstart
              = (burstStart initSRI tmp c).SRI.xstart + (k : ℚ) * tmp.SRI.ydelta)
          ∧ st.SRI.xstart
              = (burstStart initSRI tmp c).SRI.xstart
                + ((tmp.dataBuffer.length / (tmp.SRI.subsize.toNat * complexFactor tmp) : Nat) : ℚ)
                  * tmp.SRI.ydelta)
      ∧ ((burstStart initSRI tmp c).adjustXStart = false →
          (∀ k, (sris k).xstart = (burstStart initSRI tmp c).SRI.xstart)
          ∧ st.SRI.xstart = (burstStart initSRI tmp c).SRI.xstart) := by
  obtain ⟨hout, st, hfind, _, hx⟩ := servicePacket_burst initSRI tmp c hs
  refine ⟨st, burstSRI tmp.streamID tmp (burstStart initSRI tmp c),
    fun k => block tmp.dataBuffer (tmp.SRI.subsize.toNat * complexFactor tmp) (0 + k),
    hfind, ?_, ?_, ?_⟩
  · show (servicePacket initSRI false tmp c).2 = _
    rw [hout]
    congr 1
    apply List.flatMap_congr
    intro k _
    unfold burstCalls
    rw [burstStart_streamCount]
  · intro hadj
    refine ⟨?_, ?_⟩
    · intro k
      simp [burstSRI, hadj]
    · rw [hx, if_pos hadj]
  · intro hadj
    refine ⟨?_, ?_⟩
    · intro k
      simp [burstSRI, hadj]
    · rw [hx]
      simp [hadj]

/-- An instance of C19: burst mode, `subsize = 2`, `[1,2,3,4]`, `ydelta = 4`, both units
`UNITS_TIME`: the two bursts carry `xstart = 0` and `xstart = 4`, and the state is left with
`xstart = 8`. -/
theorem burst_origin_advance_witness :
    0 < (samplePacket [1, 2, 3, 4] 2 0 false).SRI.subsize
    ∧ (∃ (st : StateStruct) (sris : Nat → StreamSRI) (datas : Nat → List ℚ),
      findState (serviceFunction zeroSRI false (some (samplePacket [1, 2, 3, 4] 2 0 false))
          initial).comp.activeStreams (samplePacket [1, 2, 3, 4] 2 0 false).streamID = some st
      ∧ (serviceFunction zeroSRI false (some (samplePacket [1, 2, 3, 4] 2 0 false)) initial).out
          = eosMarkers (samplePacket [1, 2, 3, 4] 2 0 false).T
              (closedIDs false (samplePacket [1, 2, 3, 4] 2 0 false) initial)
            ++ (List.range
                ((samplePacket [1, 2, 3, 4] 2 0 false).dataBuffer.length
                  / ((samplePacket [1, 2, 3, 4] 2 0 false).SRI.subsize.toNat
                      * complexFactor (samplePacket [1, 2, 3, 4] 2 0 false)))).flatMap
              (fun k => [Output.pushSRI (sris k),
                Output.pushPacket (datas k) (samplePacket [1, 2, 3, 4] 2 0 false).T true
                  (mintedID (samplePacket [1, 2, 3, 4] 2 0 false).streamID
                    (priorCount (samplePacket [1, 2, 3, 4] 2 0 false) initial + k))])
      ∧ ((burstStart zeroSRI (samplePacket [1, 2, 3, 4] 2 0 false) initial).adjustXStart = true →
          (∀ k, (sris k).xstart
              = (burstStart zeroSRI (samplePacket [1, 2, 3, 4] 2 0 false) initial).SRI.xstart
                + (k : ℚ) * (samplePacket [1, 2, 3, 4] 2 0 false).SRI.ydelta)
          ∧ st.SRI.xstart
              = (burstStart zeroSRI (samplePacket [1, 2, 3, 4] 2 0 false) initial).SRI.xstart
                + (((samplePacket [1, 2, 3, 4] 2 0 false).dataBuffer.length
                    / ((samplePacket [1, 2, 3, 4] 2 0 false).SRI.subsize.toNat
                        * complexFactor (samplePacket [1, 2, 3, 4] 2 0 false)) : Nat) : ℚ)
                  * (samplePacket [1, 2, 3, 4] 2 0 false).SRI.ydelta)
      ∧ ((burstStart zeroSRI (samplePacket [1, 2, 3, 4] 2 0 false) initial).adjustXStart = false →
          (∀ k, (sris k).xstart
              = (burstStart zeroSRI (samplePacket [1, 2, 3, 4] 2 0 false) initial).SRI.xstart)
          ∧ st.SRI.xstart
              = (burstStart zeroSRI (samplePacket [1, 2, 3, 4] 2 0 false) initial).SRI.xstart))
    ∧ (serviceFunction zeroSRI false (some (samplePacket [1, 2, 3, 4] 2 0 false)) initial).out
        = [Output.pushSRI
            { xstart := 0, xdelta := 1, xunits := UNITS_TIME, subsize := 0, ystart := 0,
              ydelta := 0, yunits := UNITS_NONE, mode := 0, streamID := "s_0" },
           Output.pushPacket [1, 2] 7 true "s_0",
           Output.pushSRI
            { xstart := 4, xdelta := 1, xunits := UNITS_TIME, subsize := 0, ystart := 0,
              ydelta := 0, yunits := UNITS_NONE, mode := 0, streamID := "s_1" },
           Output.pushPacket [3, 4] 7 true "s_1"]
    ∧ Option.map (fun st => st.SRI.xstart)
        (findState (serviceFunction zeroSRI false (some (samplePacket [1, 2, 3, 4] 2 0 false))
          initial).comp.activeStreams "s") = some 8 :=
  ⟨by decide,
    burst_origin_advance zeroSRI initial (samplePacket [1, 2, 3, 4] 2 0 false) (by decide),
    by decide!, by decide!⟩


/-! ## The bookkeeping fields of a stream state -/

theorem pushTransposedCol_frame (key : String) (tmp : DataTransfer) (col : Nat)
    (st : StateStruct) :
    (pushTransposedCol key tmp col st).1.adjustXStart = st.adjustXStart
    ∧ st.streamCount ≤ (pushTransposedCol key tmp col st).1.streamCount := by
  have he : (ensureID key col st).adjustXStart = st.adjustXStart
      ∧ st.streamCount ≤ (ensureID key col st).streamCount := by
    unfold ensureID
    split
    · exact ⟨rfl, Nat.le_succ _⟩
    · exact ⟨rfl, Nat.le_refl _⟩
  unfold pushTransposedCol
  simp only
  split
  · exact he
  · exact he

theorem pushTransposedLoop_frame (key : String) (tmp : DataTransfer) :
    ∀ (remaining col : Nat) (st : StateStruct),
      (pushTransposedLoop key tmp remaining col st).1.adjustXStart = st.adjustXStart
      ∧ st.streamCount ≤ (pushTransposedLoop key tmp remaining col st).1.streamCount := by
  intro remaining
  induction remaining with
  | zero =>
    intro col st
    exact ⟨rfl, Nat.le_refl _⟩
  | succ remaining ih =>
    intro col st
    obtain ⟨h1, h2⟩ := pushTransposedCol_frame key tmp col st
    obtain ⟨h3, h4⟩ := ih (col + 1) (pushTransposedCol key tmp col st).1
    simp only [pushTransposedLoop]
    exact ⟨h3.trans h1, Nat.le_trans h2 h4⟩

theorem pushStep_frame (thisTranspose : Bool) (key : String) (st : StateStruct)
    (tmp : DataTransfer) :
    (pushStep thisTranspose key st tmp).1.adjustXStart = st.adjustXStart
    ∧ st.streamCount ≤ (pushStep thisTranspose key st tmp).1.streamCount := by
  by_cases hs : 0 < tmp.SRI.subsize
  · obtain ⟨ha1, ha2⟩ := adjustXStartStep_frame thisTranspose tmp st
    unfold pushStep
    rw [if_pos hs]
    cases thisTranspose
    · obtain ⟨_, hc, _, hadj, _⟩ := pushUnTransposedLoop_spec key tmp
        (tmp.SRI.subsize.toNat * (if tmp.SRI.mode = 0 then 1 else 2))
        (tmp.dataBuffer.length / (tmp.SRI.subsize.toNat * (if tmp.SRI.mode = 0 then 1 else 2)))
        0 (adjustXStartStep false tmp st)
      refine ⟨?_, ?_⟩
      · exact hadj.trans ha2
      · show st.streamCount ≤ (pushUnTransposedLoop key tmp _ _ 0 _).1.streamCount
        rw [hc, ha1]
        exact Nat.le_add_right _ _
    · obtain ⟨h1, h2⟩ := pushTransposedLoop_frame key tmp tmp.SRI.subsize.toNat 0
        (adjustXStartStep true tmp st)
      refine ⟨?_, ?_⟩
      · exact h1.trans ha2
      · show st.streamCount ≤ (pushTransposedLoop key tmp _ 0 _).1.streamCount
        rw [ha1] at h2
        exact h2
  · rw [pushStep_nonpos _ _ _ _ hs]
    exact ⟨rfl, Nat.le_refl _⟩

theorem refreshStep_adjustXStart (thisTranspose : Bool) (st : StateStruct)
    (tmp : DataTransfer) :
    (refreshStep thisTranspose st tmp).state.adjustXStart = st.adjustXStart := by
  by_cases hs : 0 < tmp.SRI.subsize
  · unfold refreshStep
    simp only [updateState_pos _ _ _ _ hs, clearStreams]
    split
    · split
      · split <;> rfl
      · rfl
    · rfl
  · rw [refreshStep_nonpos _ _ _ hs]

theorem clearStreams_streamCount (subsizeRefresh : Bool) (st : StateStruct) (T : Nat) :
    (clearStreams subsizeRefresh st T).1.streamCount
      = if subsizeRefresh then 0 else st.streamCount := by
  unfold clearStreams
  cases subsizeRefresh <;> cases h : st.outputIDs <;> simp

theorem refreshStep_streamCount (thisTranspose : Bool) (st : StateStruct)
    (tmp : DataTransfer) :
    (refreshStep thisTranspose st tmp).state.streamCount
      = if thisTranspose && decide (0 < tmp.SRI.subsize)
            && decide (tmp.SRI.subsize ≠ (st.outputIDs.length : Int)) then 0
        else st.streamCount := by
  by_cases hs : 0 < tmp.SRI.subsize
  · unfold refreshStep
    simp only [updateState_pos _ _ _ _ hs]
    cases thisTranspose <;> by_cases hn : tmp.SRI.subsize = (st.outputIDs.length : Int)
      <;> simp [hs, hn, clearStreams_streamCount, apply_ite UpdateResult.state,
        apply_ite StateStruct.streamCount]
  · rw [refreshStep_nonpos _ _ _ hs]
    simp [hs]


theorem servicePacket_adjustXStart (initSRI : StreamSRI) (transpose : Bool)
    (tmp : DataTransfer) (c : Component) :
    ∃ st : StateStruct,
      findState (servicePacket initSRI transpose tmp c).1.activeStreams tmp.streamID = some st
      ∧ st.adjustXStart = (entryState initSRI tmp c).adjustXStart := by
  refine ⟨_, servicePacket_find initSRI transpose tmp c, ?_⟩
  rw [(pushStep_frame _ _ _ _).1]
  unfold engineInput
  rw [refreshStep_adjustXStart]

/-- C12 (as amended). The flag `adjustXStart` is fixed when the stream state is created: after
every call of `serviceFunction` the state of the stream of the packet has `adjustXStart` true if
and only if both `xunits` and `yunits` of the packet equal `UNITS_TIME` when the state is
created in this call (the stream was not in the map, or the map is flushed in the call), and
has the value it had before the call when the state already existed, whatever units the packet
declares. -/
theorem adjustXStart_fixed_at_creation (initSRI : StreamSRI) (transpose : Bool)
    (c : Component) (tmp : DataTransfer) :
    ∃ st' : StateStruct,
      findState (serviceFunction initSRI transpose (some tmp) c).comp.activeStreams tmp.streamID
          = some st'
      ∧ (((c.flushStreams || tmp.inputQueueFlushed) = true
            ∨ findState c.activeStreams tmp.streamID = none) →
          (st'.adjustXStart = true
            ↔ tmp.SRI.xunits = UNITS_TIME ∧ tmp.SRI.yunits = UNITS_TIME))
      ∧ (∀ st : StateStruct, (c.flushStreams || tmp.inputQueueFlushed) = false →
          findState c.activeStreams tmp.streamID = some st →
          st'.adjustXStart = st.adjustXStart) := by
  obtain ⟨st', hfind, hadj⟩ := servicePacket_adjustXStart initSRI transpose tmp c
  refine ⟨st', hfind, ?_, ?_⟩
  · intro hnew
    have hentry : entryState initSRI tmp c = newState initSRI tmp := by
      cases hf : (c.flushStreams || tmp.inputQueueFlushed)
      · rcases hnew with h | h
        · rw [hf] at h
          cases h
        · rw [entryState_of_no_flush initSRI tmp c hf, h]
      · exact entryState_of_flush initSRI tmp c hf
    rw [hadj, hentry]
    simp [newState]
  · intro st hf hst
    rw [hadj, entryState_of_no_flush initSRI tmp c hf, hst]

/-- C12 as stated fails: the state of the stream `s` was created by a packet with both units
`UNITS_TIME` and has `adjustXStart` set; a later packet of `s` declares `sriChanged` with
`yunits = UNITS_NONE`; after the call `adjustXStart` is still set, although not both units of
that packet are `UNITS_TIME`. -/
theorem adjustXStart_fixed_at_creation_counterexample :
    afterColumns.flushStreams = false
    ∧ unitsPacket.inputQueueFlushed = false
    ∧ Option.map StateStruct.adjustXStart (findState afterColumns.activeStreams "s") = some true
    ∧ unitsPacket.sriChanged = true
    ∧ unitsPacket.SRI.xunits = UNITS_TIME
    ∧ unitsPacket.SRI.yunits ≠ UNITS_TIME
    ∧ Option.map StateStruct.adjustXStart
        (findState (serviceFunction zeroSRI true (some unitsPacket) afterColumns).comp.activeStreams
          unitsPacket.streamID) = some true := by
  decide!


theorem findState_insertState_ne (m : state_type) (key key' : String) (v : StateStruct)
    (h : key' ≠ key) : findState (insertState m key v) key' = findState m key' := by
  induction m with
  | nil => simp [insertState, findState, Ne.symm h]
  | cons e rest ih =>
    unfold insertState
    by_cases hlt : key.data < e.1.data
    · simp only [hlt, if_true]
      rw [findState]
      simp [Ne.symm h]
    · simp only [hlt, if_false]
      unfold findState
      rw [ih]

theorem findState_assignState_ne (m : state_type) (key key' : String) (v : StateStruct)
    (h : key' ≠ key) : findState (assignState m key v) key' = findState m key' := by
  induction m with
  | nil => rfl
  | cons e rest ih =>
    unfold assignState
    by_cases he : e.1 = key
    · simp only [he, if_true]
      unfold findState
      simp [Ne.symm h, he]
    · simp only [he, if_false]
      unfold findState
      rw [ih]

theorem servicePacket_find_ne (initSRI : StreamSRI) (transpose : Bool) (tmp : DataTransfer)
    (c : Component) (hf : (c.flushStreams || tmp.inputQueueFlushed) = false) (key : String)
    (hkey : key ≠ tmp.streamID) :
    findState (servicePacket initSRI transpose tmp c).1.activeStreams key
      = findState c.activeStreams key := by
  unfold servicePacket
  simp only
  rw [findState_assignState_ne _ _ _ _ hkey, flushStep_of_no_flush c tmp hf]
  unfold lookupOrCreate
  cases hfind : findState c.activeStreams tmp.streamID with
  | none => exact findState_insertState_ne _ _ _ _ hkey
  | some st => rfl

/-- C13 (as amended). `streamCount` never decreases except when a shape refresh restarts it:
in a call of `serviceFunction` with no flush, the entries of the other streams are unchanged,
and the entry of the stream of the packet, when it existed before, still exists with a
`streamCount` that is greater than or equal to the one before, in both modes and for every
packet, unless the call is a shape refresh (column mode, `subsize > 0` and different from
`outputIDs.size()`), where `streamCount` restarts from 0 and is `subsize` after the call. -/
theorem streamCount_monotone_without_refresh (initSRI : StreamSRI) (transpose : Bool)
    (c : Component) (tmp : DataTransfer) (hflag : c.flushStreams = false)
    (hq : tmp.inputQueueFlushed = false) :
    (∀ key, key ≠ tmp.streamID →
        findState (serviceFunction initSRI transpose (some tmp) c).comp.activeStreams key
          = findState c.activeStreams key)
    ∧ ∀ st : StateStruct, findState c.activeStreams tmp.streamID = some st →
        ∃ st' : StateStruct,
          findState (serviceFunction initSRI transpose (some tmp) c).comp.activeStreams
              tmp.streamID = some st'
          ∧ (¬ (transpose = true ∧ 0 < tmp.SRI.subsize
                ∧ tmp.SRI.subsize ≠ (st.outputIDs.length : Int)) →
              st.streamCount ≤ st'.streamCount)
          ∧ ((transpose = true ∧ 0 < tmp.SRI.subsize
                ∧ tmp.SRI.subsize ≠ (st.outputIDs.length : Int)) →
              st'.streamCount = tmp.SRI.subsize.toNat) := by
  have hf : (c.flushStreams || tmp.inputQueueFlushed) = false := by simp [hflag, hq]
  refine ⟨fun key hkey => servicePacket_find_ne initSRI transpose tmp c hf key hkey, ?_⟩
  intro st hst
  have hentry : entryState initSRI tmp c = st := by
    rw [entryState_of_no_flush initSRI tmp c hf, hst]
  refine ⟨_, servicePacket_find initSRI transpose tmp c, ?_, ?_⟩
  · intro hno
    have h1 := (pushStep_frame transpose tmp.streamID
      (engineInput initSRI transpose tmp c).state (engineInput initSRI transpose tmp c).tmp).2
    have h2 : (engineInput initSRI transpose tmp c).state.streamCount = st.streamCount := by
      unfold engineInput
      rw [refreshStep_streamCount, hentry]
      have : (transpose && decide (0 < tmp.SRI.subsize)
          && decide (tmp.SRI.subsize ≠ (st.outputIDs.length : Int))) = false := by
        cases transpose
        · rfl
        · by_cases hs : 0 < tmp.SRI.subsize
          · by_cases hn : tmp.SRI.subsize = (st.outputIDs.length : Int)
            · simp [hn]
            · exact absurd ⟨rfl, hs, hn⟩ hno
          · simp [hs]
      rw [this]
      rfl
    rw [h2] at h1
    exact h1
  · rintro ⟨htr, hs, hn⟩
    subst htr
    obtain ⟨hstate, htmp⟩ := refreshStep_refresh st tmp hs hn
    unfold engineInput
    rw [hentry, hstate, htmp]
    have hpush : pushStep true tmp.streamID
          { streamCount := 0, outputIDs := [], SRI := deriveSRI true tmp.SRI,
            adjustXStart := st.adjustXStart } { tmp with sriChanged := true }
        = pushTransposedLoop tmp.streamID { tmp with sriChanged := true } tmp.SRI.subsize.toNat 0
            (adjustXStartStep true { tmp with sriChanged := true }
              { streamCount := 0, outputIDs := [], SRI := deriveSRI true tmp.SRI,
                adjustXStart := st.adjustXStart }) := by
      unfold pushStep pushTransposed
      simp [hs]
    rw [hpush]
    obtain ⟨_, _, hcount, _⟩ := pushTransposedLoop_fresh tmp.streamID
      { tmp with sriChanged := true } tmp.SRI.subsize.toNat 0
      (adjustXStartStep true { tmp with sriChanged := true }
        { streamCount := 0, outputIDs := [], SRI := deriveSRI true tmp.SRI,
          adjustXStart := st.adjustXStart })
      (by rw [adjustXStartStep_outputIDs]; rfl)
    rw [hcount, (adjustXStartStep_frame _ _ _).1]
    simp

/-- An instance of the amended C13: the stream `s` has `streamCount = 2` after its two columns;
a burst mode packet `[1,2,3,4]` with `subsize = 2` raises it to 4. -/
theorem streamCount_monotone_without_refresh_witness :
    (afterColumns.flushStreams = false
      ∧ (samplePacket [1, 2, 3, 4] 2 0 false).inputQueueFlushed = false)
    ∧ ((∀ key, key ≠ (samplePacket [1, 2, 3, 4] 2 0 false).streamID →
          findState (serviceFunction zeroSRI false (some (samplePacket [1, 2, 3, 4] 2 0 false))
            afterColumns).comp.activeStreams key = findState afterColumns.activeStreams key)
      ∧ ∀ st : StateStruct,
          findState afterColumns.activeStreams (samplePacket [1, 2, 3, 4] 2 0 false).streamID
            = some st →
          ∃ st' : StateStruct,
            findState (serviceFunction zeroSRI false (some (samplePacket [1, 2, 3, 4] 2 0 false))
                afterColumns).comp.activeStreams (samplePacket [1, 2, 3, 4] 2 0 false).streamID
              = some st'
            ∧ (¬ (false = true ∧ 0 < (samplePacket [1, 2, 3, 4] 2 0 false).SRI.subsize
                  ∧ (samplePacket [1, 2, 3, 4] 2 0 false).SRI.subsize
                      ≠ (st.outputIDs.length : Int)) →
                st.streamCount ≤ st'.streamCount)
            ∧ ((false = true ∧ 0 < (samplePacket [1, 2, 3, 4] 2 0 false).SRI.subsize
                  ∧ (samplePacket [1, 2, 3, 4] 2 0 false).SRI.subsize
                      ≠ (st.outputIDs.length : Int)) →
                st'.streamCount = (samplePacket [1, 2, 3, 4] 2 0 false).SRI.subsize.toNat))
    ∧ Option.map StateStruct.streamCount (findState afterColumns.activeStreams "s") = some 2
    ∧ Option.map StateStruct.streamCount
        (findState (serviceFunction zeroSRI false (some (samplePacket [1, 2, 3, 4] 2 0 false))
          afterColumns).comp.activeStreams "s") = some 4 :=
  ⟨⟨by decide, by decide⟩,
    streamCount_monotone_without_refresh zeroSRI false afterColumns
      (samplePacket [1, 2, 3, 4] 2 0 false) (by decide) (by decide),
    by decide, by decide⟩

/-- C13 as stated fails: with no flush, the stream `s` has `streamCount = 2` after its two
columns; a column mode packet with `subsize = 1` is a shape refresh, the entry of `s` still
exists after the call, and its `streamCount` is 1. -/
theorem streamCount_monotone_without_refresh_counterexample :
    afterColumns.flushStreams = false
    ∧ (samplePacket [1, 2, 3] 1 0 false).inputQueueFlushed = false
    ∧ Option.map StateStruct.streamCount (findState afterColumns.activeStreams "s") = some 2
    ∧ Option.map StateStruct.streamCount
        (findState (serviceFunction zeroSRI true (some (samplePacket [1, 2, 3] 1 0 false))
          afterColumns).comp.activeStreams "s") = some 1 := by
  decide


/-! ## The column lengths -/

theorem demuxData_length {α : Type} (input : List α) (c s : Nat) (hs : 0 < s) (hc : c < s) :
    (demuxData input c s).length = (input.length + (s - 1 - c)) / s := by
  have key : ∀ j, j < (demuxData input c s).length ↔ j < (input.length + (s - 1 - c)) / s := by
    intro j
    have h1 : j < (demuxData input c s).length ↔ c + j * s < input.length := by
      constructor
      · intro h
        by_contra hge
        have hn : input[c + j * s]? = none := List.getElem?_eq_none (by omega)
        rw [← demuxData_getElem? input c s hs j, List.getElem?_eq_getElem h] at hn
        cases hn
      · intro h
        by_contra hge
        have hn : (demuxData input c s)[j]? = none := List.getElem?_eq_none (by omega)
        rw [demuxData_getElem? input c s hs j, List.getElem?_eq_getElem h] at hn
        cases hn
    have h2 : j < (input.length + (s - 1 - c)) / s ↔ c + j * s < input.length := by
      have h3 : j + 1 ≤ (input.length + (s - 1 - c)) / s
          ↔ (j + 1) * s ≤ input.length + (s - 1 - c) := Nat.le_div_iff_mul_le hs
      have h4 : (j + 1) * s = j * s + s := Nat.succ_mul j s
      constructor
      · intro h
        have := h3.mp h
        omega
      · intro h
        have : j + 1 ≤ (input.length + (s - 1 - c)) / s := h3.mpr (by omega)
        omega
    rw [h1, h2]
  apply Nat.le_antisymm
  · by_contra h
    have := (key ((input.length + (s - 1 - c)) / s)).mp (by omega)
    omega
  · by_contra h
    have := (key (demuxData input c s).length).mpr (by omega)
    omega

theorem sum_column_lengths (t : Nat) :
    ∀ n : Nat, ((List.range (t + 1)).map (fun c => (n + (t + 1 - 1 - c)) / (t + 1))).sum = n := by
  intro n
  induction n with
  | zero =>
    apply List.sum_eq_zero
    intro x hx
    simp only [List.mem_map, List.mem_range] at hx
    obtain ⟨c, _, hc⟩ := hx
    rw [← hc]
    apply Nat.div_eq_of_lt
    omega
  | succ n ih =>
    rw [List.range_succ] at ih
    rw [List.range_succ_eq_map]
    simp only [List.map_cons, List.map_map, List.sum_cons, List.map_append, List.sum_append,
      List.map_nil, List.sum_nil] at ih ⊢
    have h0 : (n + 1 + (t + 1 - 1 - 0)) / (t + 1) = n / (t + 1) + 1 := by
      have : n + 1 + (t + 1 - 1 - 0) = n + (t + 1) := by omega
      rw [this, Nat.add_div_right _ (Nat.succ_pos t)]
    have hlast : (n + (t + 1 - 1 - t)) / (t + 1) = n / (t + 1) := by
      have : n + (t + 1 - 1 - t) = n := by omega
      rw [this]
    have hshift : (List.map ((fun c => (n + 1 + (t + 1 - 1 - c)) / (t + 1)) ∘ Nat.succ)
          (List.range t))
        = List.map (fun c => (n + (t + 1 - 1 - c)) / (t + 1)) (List.range t) := by
      apply List.map_congr_left
      intro c hc
      have hc' : c < t := List.mem_range.mp hc
      simp only [Function.comp]
      have : n + 1 + (t + 1 - 1 - c.succ) = n + (t + 1 - 1 - c) := by omega
      rw [this]
    rw [h0, hshift]
    rw [hlast] at ih
    omega


theorem payloads_dataPackets (out : List Output) : payloads (dataPackets out) = payloads out := by
  induction out with
  | nil => rfl
  | cons o rest ih =>
    cases o with
    | pushSRI sri =>
      simp only [dataPackets, List.filter_cons, payloads] at ih ⊢
      simpa using ih
    | pushPacket d T e id =>
      simp only [dataPackets, List.filter_cons, payloads] at ih ⊢
      simp [payloads, ih]

theorem payloads_map_pushPacket (l : List Nat) (f : Nat → List ℚ) (T : Nat) (e : Bool)
    (g : Nat → String) :
    payloads (l.map (fun col => Output.pushPacket (f col) T e (g col))) = l.map f := by
  induction l with
  | nil => rfl
  | cons a rest ih => simp [payloads, ih]

theorem columnData_real (tmp : DataTransfer) (hmode : tmp.SRI.mode = 0) (c : Nat) :
    columnData tmp c = demuxData tmp.dataBuffer c tmp.SRI.subsize.toNat := by
  unfold columnData
  rw [if_pos hmode]

/-- C20. Column demultiplexing loses and duplicates nothing: for a real mode packet with `n`
samples and `subsize > 0`, also when `n` is not a multiple of `subsize`, the sample at input
index `i` is in column `i mod subsize` at position `i div subsize`; column `c` holds at position
`j` exactly the sample at input index `c + j * subsize` (and nothing past the end of the
input), so its samples are in input order; the lengths of the `subsize` columns sum to `n`; and
these columns are the payloads that a column mode call of `serviceFunction` emits, after the
empty payloads of the streams it closes first. -/
theorem demux_loses_nothing (tmp : DataTransfer) (hmode : tmp.SRI.mode = 0)
    (hs : 0 < tmp.SRI.subsize) :
    (∀ i, i < tmp.dataBuffer.length →
        (columnData tmp (i % tmp.SRI.subsize.toNat))[i / tmp.SRI.subsize.toNat]?
          = tmp.dataBuffer[i]?)
    ∧ (∀ c j, c < tmp.SRI.subsize.toNat →
        (columnData tmp c)[j]? = tmp.dataBuffer[c + j * tmp.SRI.subsize.toNat]?)
    ∧ ((List.range tmp.SRI.subsize.toNat).map (fun c => (columnData tmp c).length)).sum
        = tmp.dataBuffer.length
    ∧ ∀ (initSRI : StreamSRI) (c : Component),
        payloads (serviceFunction initSRI true (some tmp) c).out
          = List.replicate (closedIDs true tmp c).length []
            ++ (List.range tmp.SRI.subsize.toNat).map (columnData tmp) := by
  have hs' : 0 < tmp.SRI.subsize.toNat := by omega
  refine ⟨?_, ?_, ?_, ?_⟩
  · intro i _
    rw [columnData_real tmp hmode, demuxData_getElem? _ _ _ hs']
    have : i % tmp.SRI.subsize.toNat + i / tmp.SRI.subsize.toNat * tmp.SRI.subsize.toNat = i := by
      rw [Nat.mul_comm]
      exact Nat.mod_add_div i _
    rw [this]
  · intro c j _
    rw [columnData_real tmp hmode, demuxData_getElem? _ _ _ hs']
  · obtain ⟨t, ht⟩ : ∃ t, tmp.SRI.subsize.toNat = t + 1 := ⟨tmp.SRI.subsize.toNat - 1, by omega⟩
    have hmap : (List.range tmp.SRI.subsize.toNat).map (fun c => (columnData tmp c).length)
        = (List.range (t + 1)).map
            (fun c => (tmp.dataBuffer.length + (t + 1 - 1 - c)) / (t + 1)) := by
      rw [ht]
      apply List.map_congr_left
      intro c hc
      have hc' : c < t + 1 := List.mem_range.mp hc
      rw [columnData_real tmp hmode, ht, demuxData_length _ _ _ (Nat.succ_pos t) hc']
    rw [hmap]
    exact sum_column_lengths t tmp.dataBuffer.length
  · intro initSRI c
    obtain ⟨st, _, _, _, hdata⟩ := servicePacket_column initSRI c tmp hs
    show payloads (servicePacket initSRI true tmp c).2 = _
    rw [← payloads_dataPackets, hdata, payloads_append, payloads_eosMarkers,
      payloads_map_pushPacket]

/-- An instance of C20: `[1,2,3,4,5]` with `subsize = 2`: the columns are `[1,3,5]` and `[2,4]`,
five samples in all. -/
theorem demux_loses_nothing_witness :
    ((samplePacket [1, 2, 3, 4, 5] 2 0 false).SRI.mode = 0
      ∧ 0 < (samplePacket [1, 2, 3, 4, 5] 2 0 false).SRI.subsize)
    ∧ ((∀ i, i < (samplePacket [1, 2, 3, 4, 5] 2 0 false).dataBuffer.length →
          (columnData (samplePacket [1, 2, 3, 4, 5] 2 0 false)
              (i % (samplePacket [1, 2, 3, 4, 5] 2 0 false).SRI.subsize.toNat))[
              i / (samplePacket [1, 2, 3, 4, 5] 2 0 false).SRI.subsize.toNat]?
            = (samplePacket [1, 2, 3, 4, 5] 2 0 false).dataBuffer[i]?)
      ∧ (∀ c j, c < (samplePacket [1, 2, 3, 4, 5] 2 0 false).SRI.subsize.toNat →
          (columnData (samplePacket [1, 2, 3, 4, 5] 2 0 false) c)[j]?
            = (samplePacket [1, 2, 3, 4, 5] 2 0 false).dataBuffer[
                c + j * (samplePacket [1, 2, 3, 4, 5] 2 0 false).SRI.subsize.toNat]?)
      ∧ ((List.range (samplePacket [1, 2, 3, 4, 5] 2 0 false).SRI.subsize.toNat).map
            (fun c => (columnData (samplePacket [1, 2, 3, 4, 5] 2 0 false) c).length)).sum
          = (samplePacket [1, 2, 3, 4, 5] 2 0 false).dataBuffer.length
      ∧ ∀ (initSRI : StreamSRI) (c : Component),
          payloads (serviceFunction initSRI true
              (some (samplePacket [1, 2, 3, 4, 5] 2 0 false)) c).out
            = List.replicate
                (closedIDs true (samplePacket [1, 2, 3, 4, 5] 2 0 false) c).length []
              ++ (List.range (samplePacket [1, 2, 3, 4, 5] 2 0 false).SRI.subsize.toNat).map
                (columnData (samplePacket [1, 2, 3, 4, 5] 2 0 false)))
    ∧ columnData (samplePacket [1, 2, 3, 4, 5] 2 0 false) 0 = [1, 3, 5]
    ∧ columnData (samplePacket [1, 2, 3, 4, 5] 2 0 false) 1 = [2, 4] :=
  ⟨⟨by decide, by decide⟩,
    demux_loses_nothing (samplePacket [1, 2, 3, 4, 5] 2 0 false) (by decide) (by decide),
    by decide, by decide⟩

theorem fromComplex_length : ∀ (l : List (ℚ × ℚ)), (fromComplex l).length = 2 * l.length
  | [] => rfl
  | z :: rest => by
    have ih := fromComplex_length rest
    simp only [fromComplex, List.length_cons, ih]
    omega

theorem columnData_length (tmp : DataTransfer) (col : Nat) (hs : 0 < tmp.SRI.subsize)
    (hcol : col < tmp.SRI.subsize.toNat) :
    (columnData tmp col).length
      = complexFactor tmp
        * (((tmp.dataBuffer.length + (complexFactor tmp - 1)) / complexFactor tmp
              + (tmp.SRI.subsize.toNat - 1 - col))
            / tmp.SRI.subsize.toNat) := by
  have hs' : 0 < tmp.SRI.subsize.toNat := by omega
  unfold columnData complexFactor
  by_cases hmode : tmp.SRI.mode = 0
  · simp only [hmode, if_true, Nat.div_one, Nat.one_mul, Nat.sub_self, Nat.add_zero]
    exact demuxData_length _ _ _ hs' hcol
  · simp only [hmode, if_false]
    rw [fromComplex_length, demuxData_length _ _ _ hs' hcol, toComplex_length]

theorem columnData_length_whole (tmp : DataTransfer) (col : Nat) (hs : 0 < tmp.SRI.subsize)
    (hcol : col < tmp.SRI.subsize.toNat)
    (hwhole : tmp.dataBuffer.length % complexFactor tmp = 0) :
    (columnData tmp col).length
      = complexFactor tmp
        * ((tmp.dataBuffer.length / complexFactor tmp + (tmp.SRI.subsize.toNat - 1 - col))
            / tmp.SRI.subsize.toNat) := by
  rw [columnData_length tmp col hs hcol]
  have hcf : 0 < complexFactor tmp := by
    unfold complexFactor
    split <;> decide
  have hdm := Nat.div_add_mod tmp.dataBuffer.length (complexFactor tmp)
  rw [hwhole, Nat.add_zero] at hdm
  have hlt : complexFactor tmp - 1 < complexFactor tmp := by omega
  have hq : (tmp.dataBuffer.length + (complexFactor tmp - 1)) / complexFactor tmp
      = tmp.dataBuffer.length / complexFactor tmp := by
    nth_rewrite 1 [← hdm]
    rw [Nat.add_comm, Nat.add_mul_div_left _ _ hcf, Nat.div_eq_of_lt hlt, Nat.zero_add]
  rw [hq]

/-- C18 (as amended). Column mode keeps the samples of an incomplete last frame: for a column
mode packet with `subsize > 0` whose buffer holds whole elements (the number of doubles is a
multiple of `complexFactor`: a complex buffer holds an even number of doubles), the payloads
that `serviceFunction` emits are, after the empty payloads of the streams it closes first, the
columns `col = 0 .. subsize - 1`, and column `col` holds
`(elementCount + (subsize - 1 - col)) / subsize` elements (each `complexFactor` doubles): one
per complete input frame, and one more for the columns that the incomplete last frame reaches.
Every column holds `elementCount / subsize` elements when the element count is a multiple of
`subsize`. -/
theorem column_payload_lengths (initSRI : StreamSRI) (c : Component) (tmp : DataTransfer)
    (hs : 0 < tmp.SRI.subsize)
    (hwhole : tmp.dataBuffer.length % complexFactor tmp = 0) :
    payloads (serviceFunction initSRI true (some tmp) c).out
        = List.replicate (closedIDs true tmp c).length []
          ++ (List.range tmp.SRI.subsize.toNat).map (columnData tmp)
    ∧ (∀ col, col < tmp.SRI.subsize.toNat →
        (columnData tmp col).length
          = complexFactor tmp
            * ((tmp.dataBuffer.length / complexFactor tmp + (tmp.SRI.subsize.toNat - 1 - col))
                / tmp.SRI.subsize.toNat))
    ∧ ((tmp.dataBuffer.length / complexFactor tmp) % tmp.SRI.subsize.toNat = 0 →
        ∀ col, col < tmp.SRI.subsize.toNat →
          (columnData tmp col).length
            = complexFactor tmp
              * (tmp.dataBuffer.length / complexFactor tmp / tmp.SRI.subsize.toNat)) := by
  have hs' : 0 < tmp.SRI.subsize.toNat := by omega
  refine ⟨?_, fun col hcol => columnData_length_whole tmp col hs hcol hwhole, ?_⟩
  · obtain ⟨st, _, _, _, hdata⟩ := servicePacket_column initSRI c tmp hs
    show payloads (servicePacket initSRI true tmp c).2 = _
    rw [← payloads_dataPackets, hdata, payloads_append, payloads_eosMarkers,
      payloads_map_pushPacket]
  · intro hmul col hcol
    rw [columnData_length_whole tmp col hs hcol hwhole]
    congr 1
    have hdm := Nat.div_add_mod (tmp.dataBuffer.length / complexFactor tmp)
      tmp.SRI.subsize.toNat
    rw [hmul, Nat.add_zero] at hdm
    have hlt : tmp.SRI.subsize.toNat - 1 - col < tmp.SRI.subsize.toNat := by omega
    rw [← hdm, Nat.mul_comm, Nat.add_comm,
      Nat.add_mul_div_right _ _ hs', Nat.div_eq_of_lt hlt, Nat.zero_add,
      Nat.mul_div_left _ hs']

/-- An instance of the amended C18 in complex mode: the six doubles `[1,2,3,4,5,6]` are three
complex values; with `subsize = 2`, from the initial component, column 0 receives the first and
the third, `[1,2,5,6]`, and column 1 the second, `[3,4]`. -/
theorem column_payload_lengths_witness :
    (0 < (samplePacket [1, 2, 3, 4, 5, 6] 2 1 false).SRI.subsize
      ∧ (samplePacket [1, 2, 3, 4, 5, 6] 2 1 false).dataBuffer.length
          % complexFactor (samplePacket [1, 2, 3, 4, 5, 6] 2 1 false) = 0)
    ∧ (payloads (serviceFunction zeroSRI true
            (some (samplePacket [1, 2, 3, 4, 5, 6] 2 1 false)) initial).out
          = List.replicate
              (closedIDs true (samplePacket [1, 2, 3, 4, 5, 6] 2 1 false) initial).length []
            ++ (List.range (samplePacket [1, 2, 3, 4, 5, 6] 2 1 false).SRI.subsize.toNat).map
              (columnData (samplePacket [1, 2, 3, 4, 5, 6] 2 1 false))
      ∧ (∀ col, col < (samplePacket [1, 2, 3, 4, 5, 6] 2 1 false).SRI.subsize.toNat →
          (columnData (samplePacket [1, 2, 3, 4, 5, 6] 2 1 false) col).length
            = complexFactor (samplePacket [1, 2, 3, 4, 5, 6] 2 1 false)
              * (((samplePacket [1, 2, 3, 4, 5, 6] 2 1 false).dataBuffer.length
                    / complexFactor (samplePacket [1, 2, 3, 4, 5, 6] 2 1 false)
                  + ((samplePacket [1, 2, 3, 4, 5, 6] 2 1 false).SRI.subsize.toNat - 1 - col))
                  / (samplePacket [1, 2, 3, 4, 5, 6] 2 1 false).SRI.subsize.toNat))
      ∧ (((samplePacket [1, 2, 3, 4, 5, 6] 2 1 false).dataBuffer.length
              / complexFactor (samplePacket [1, 2, 3, 4, 5, 6] 2 1 false))
            % (samplePacket [1, 2, 3, 4, 5, 6] 2 1 false).SRI.subsize.toNat = 0 →
          ∀ col, col < (samplePacket [1, 2, 3, 4, 5, 6] 2 1 false).SRI.subsize.toNat →
            (columnData (samplePacket [1, 2, 3, 4, 5, 6] 2 1 false) col).length
              = complexFactor (samplePacket [1, 2, 3, 4, 5, 6] 2 1 false)
                * ((samplePacket [1, 2, 3, 4, 5, 6] 2 1 false).dataBuffer.length
                    / complexFactor (samplePacket [1, 2, 3, 4, 5, 6] 2 1 false)
                    / (samplePacket [1, 2, 3, 4, 5, 6] 2 1 false).SRI.subsize.toNat)))
    ∧ payloads (serviceFunction zeroSRI true
          (some (samplePacket [1, 2, 3, 4, 5, 6] 2 1 false)) initial).out
        = [[1, 2, 5, 6], [3, 4]] :=
  ⟨⟨by decide, by decide⟩,
    column_payload_lengths zeroSRI initial (samplePacket [1, 2, 3, 4, 5, 6] 2 1 false)
      (by decide) (by decide),
    by decide⟩

/-- C18 as stated fails: column mode, `subsize = 2`, real, `[1,2,3,4,5]`: the element count is
5, `5 / 2 = 2`, and the call emits `[1,3,5]` under `s_0` and `[2,4]` under `s_1`: the payload of
column 0 holds 3 elements, and the two columns differ in length. -/
theorem column_payload_lengths_counterexample :
    0 < (samplePacket [1, 2, 3, 4, 5] 2 0 false).SRI.subsize
    ∧ (samplePacket [1, 2, 3, 4, 5] 2 0 false).dataBuffer.length
          / complexFactor (samplePacket [1, 2, 3, 4, 5] 2 0 false)
          / (samplePacket [1, 2, 3, 4, 5] 2 0 false).SRI.subsize.toNat = 2
    ∧ dataPackets (serviceFunction zeroSRI true
          (some (samplePacket [1, 2, 3, 4, 5] 2 0 false)) initial).out
        = [Output.pushPacket [1, 3, 5] 7 false "s_0", Output.pushPacket [2, 4] 7 false "s_1"]
    ∧ ([1, 3, 5] : List ℚ).length ≠ 2 := by
  decide


/-! ## The minted identifiers -/

theorem digitChar_toNat (d : Nat) (h : d < 10) : (Nat.digitChar d).toNat - 48 = d := by
  interval_cases d <;> rfl

theorem foldl_toDigitsCore :
    ∀ (fuel n : Nat) (ds : List Char), n < fuel →
      (Nat.toDigitsCore 10 fuel n ds).foldl (fun acc ch => acc * 10 + (ch.toNat - 48)) 0
        = ds.foldl (fun acc ch => acc * 10 + (ch.toNat - 48)) n := by
  intro fuel
  induction fuel with
  | zero => intro n ds h; omega
  | succ fuel ih =>
    intro n ds h
    have hd := digitChar_toNat (n % 10) (Nat.mod_lt _ (by decide))
    unfold Nat.toDigitsCore
    simp only
    by_cases h0 : n / 10 = 0
    · rw [if_pos h0]
      simp only [List.foldl_cons, hd]
      congr 1
      omega
    · rw [if_neg h0]
      rw [ih (n / 10) _ (by omega)]
      simp only [List.foldl_cons, hd]
      congr 1
      omega

theorem readDigits_toString (n : Nat) : readDigits (toString n).data = n := by
  show readDigits (Nat.toDigits 10 n) = n
  unfold readDigits Nat.toDigits
  rw [foldl_toDigitsCore (n + 1) n [] (Nat.lt_succ_self n)]
  rfl

theorem mintedID_injective (key : String) (m n : Nat) (h : mintedID key m = mintedID key n) :
    m = n := by
  unfold mintedID at h
  have hd := congrArg String.data h
  simp only [String.data_append] at hd
  have h2 := List.append_cancel_left hd
  have h3 := congrArg readDigits h2
  rw [readDigits_toString, readDigits_toString] at h3
  exact h3

theorem mintedID_ne_key (key : String) (n : Nat) : mintedID key n ≠ key := by
  intro h
  have hl := congrArg String.length h
  unfold mintedID at hl
  simp only [String.length_append] at hl
  have : "_".length = 1 := rfl
  omega


theorem packetIDs_append (a b : List Output) :
    packetIDs (a ++ b) = packetIDs a ++ packetIDs b := by
  induction a with
  | nil => rfl
  | cons o rest ih => cases o <;> simp [packetIDs, ih]

theorem derivedIDs_append (key : String) (a b : List Output) :
    derivedIDs key (a ++ b) = derivedIDs key a ++ derivedIDs key b := by
  simp [derivedIDs, packetIDs_append]

theorem derivedIDs_burstCalls (key : String) (tmp : DataTransfer) (stride i : Nat)
    (st : StateStruct) (l : List Nat) :
    derivedIDs key (l.flatMap (burstCalls key tmp stride i st))
      = l.map (fun k => mintedID key (st.streamCount + k)) := by
  induction l with
  | nil => rfl
  | cons a rest ih =>
    rw [List.flatMap_cons, derivedIDs_append, ih]
    simp [derivedIDs, burstCalls, packetIDs, mintedID_ne_key]

theorem closedIDs_burst_no_flush (tmp : DataTransfer) (c : Component)
    (hf : (c.flushStreams || tmp.inputQueueFlushed) = false) : closedIDs false tmp c = [] := by
  unfold closedIDs
  rw [hf]
  cases findState c.activeStreams tmp.streamID <;> simp

theorem priorCount_no_flush (tmp : DataTransfer) (c : Component)
    (hf : (c.flushStreams || tmp.inputQueueFlushed) = false) :
    priorCount tmp c = startCount c tmp.streamID := by
  unfold priorCount startCount
  rw [hf]
  rfl

theorem servicePacket_burst_ids (initSRI : StreamSRI) (tmp : DataTransfer) (c : Component)
    (hflag : c.flushStreams = false) (hq : tmp.inputQueueFlushed = false) :
    derivedIDs tmp.streamID (servicePacket initSRI false tmp c).2
        = (List.range (frameCount tmp)).map
            (fun k => mintedID tmp.streamID (startCount c tmp.streamID + k))
    ∧ startCount (servicePacket initSRI false tmp c).1 tmp.streamID
        = startCount c tmp.streamID + frameCount tmp := by
  have hf : (c.flushStreams || tmp.inputQueueFlushed) = false := by simp [hflag, hq]
  by_cases hs : 0 < tmp.SRI.subsize
  · obtain ⟨hout, st, hfind, hcount, _⟩ := servicePacket_burst initSRI tmp c hs
    refine ⟨?_, ?_⟩
    · rw [hout, closedIDs_burst_no_flush tmp c hf, derivedIDs_append, derivedIDs_burstCalls,
        burstStart_streamCount, priorCount_no_flush tmp c hf]
      rfl
    · unfold startCount at *
      rw [hfind]
      simp only
      rw [hcount, priorCount_no_flush tmp c hf]
      rfl
  · have hzero : frameCount tmp = 0 := by
      unfold frameCount
      have : tmp.SRI.subsize.toNat = 0 := by omega
      rw [this, Nat.zero_mul, Nat.div_zero]
    have hfind := servicePacket_find initSRI false tmp c
    have hout := servicePacket_out initSRI false tmp c
    unfold engineInput at hfind hout
    rw [refreshStep_nonpos _ _ _ hs, pushStep_nonpos _ _ _ _ hs] at hfind hout
    refine ⟨?_, ?_⟩
    · rw [hout, closedIDs_burst_no_flush tmp c hf, hzero]
      cases hc : tmp.sriChanged <;> simp [derivedIDs, packetIDs, eosMarkers]
    · have h1 : startCount (servicePacket initSRI false tmp c).1 tmp.streamID
          = (entryState initSRI tmp c).streamCount := by
        unfold startCount
        rw [hfind]
      rw [h1, entryState_streamCount, priorCount_no_flush tmp c hf, hzero, Nat.add_zero]


theorem run_burst_ids (initSRI : StreamSRI) (key : String) :
    ∀ (ps : List DataTransfer) (c : Component), c.flushStreams = false →
      (∀ q ∈ ps, q.streamID = key ∧ q.inputQueueFlushed = false) →
      derivedIDs key (run initSRI (burstSteps ps) c).2
          = (List.range (ps.map frameCount).sum).map
              (fun k => mintedID key (startCount c key + k))
      ∧ startCount (run initSRI (burstSteps ps) c).1 key
          = startCount c key + (ps.map frameCount).sum := by
  intro ps
  induction ps with
  | nil =>
    intro c _ _
    simp [burstSteps, run, derivedIDs, packetIDs]
  | cons q rest ih =>
    intro c hflag hall
    obtain ⟨hk, hq⟩ := hall q (List.mem_cons_self _ _)
    obtain ⟨hids, hcount⟩ := servicePacket_burst_ids initSRI q c hflag hq
    rw [hk] at hids hcount
    obtain ⟨hids2, hcount2⟩ := ih (servicePacket initSRI false q c).1
      (servicePacket_flushStreams initSRI false q c)
      (fun q' hq' => hall q' (List.mem_cons_of_mem _ hq'))
    have hrun : run initSRI (burstSteps (q :: rest)) c
        = ((run initSRI (burstSteps rest) (servicePacket initSRI false q c).1).1,
            (servicePacket initSRI false q c).2
              ++ (run initSRI (burstSteps rest) (servicePacket initSRI false q c).1).2) := rfl
    rw [hrun]
    simp only [List.map_cons, List.sum_cons]
    refine ⟨?_, ?_⟩
    · rw [derivedIDs_append, hids, hids2, hcount, List.range_add, List.map_append, List.map_map]
      congr 1
      apply List.map_congr_left
      intro k _
      simp only [Function.comp]
      rw [Nat.add_assoc]
    · rw [hcount2, hcount, Nat.add_assoc]

/-- C14. Burst identifiers are used once: in burst mode, over a sequence of packets of one
source stream `key` with no flush (the flag is clear and no packet reports a flushed queue),
the identifiers of the bursts, in emission order across the packets, are
`key_n` for `n = n0, n0 + 1, ..., n0 + N - 1`, where `n0` is the `streamCount` of the stream
before the sequence, `N` is the total number of frames, and `streamCount` is `n0 + N` after it:
every burst is published under the identifier made from the `streamCount` at minting, which
grows by one from each burst to the next. Different values of `n` give different identifiers,
so no identifier is used for more than one burst. -/
theorem burst_identifiers_used_once (initSRI : StreamSRI) (c : Component) (key : String)
    (ps : List DataTransfer) (hflag : c.flushStreams = false)
    (hall : ∀ q ∈ ps, q.streamID = key ∧ q.inputQueueFlushed = false) :
    derivedIDs key (run initSRI (burstSteps ps) c).2
        = (List.range (ps.map frameCount).sum).map
            (fun n => mintedID key (startCount c key + n))
    ∧ startCount (run initSRI (burstSteps ps) c).1 key
        = startCount c key + (ps.map frameCount).sum
    ∧ (∀ m n : Nat, mintedID key m = mintedID key n → m = n)
    ∧ (derivedIDs key (run initSRI (burstSteps ps) c).2).Nodup := by
  obtain ⟨hids, hcount⟩ := run_burst_ids initSRI key ps c hflag hall
  refine ⟨hids, hcount, mintedID_injective key, ?_⟩
  rw [hids]
  apply List.Nodup.map _ (List.nodup_range _)
  intro m n h
  have := mintedID_injective key _ _ h
  omega

/-- An instance of C14: two burst mode packets of the stream `s` with `subsize = 2`, of two
frames and one frame, with a pass-through packet between them, from the initial component: the
bursts go under `s_0`, `s_1` and `s_2`. -/
theorem burst_identifiers_used_once_witness :
    (initial.flushStreams = false
      ∧ ∀ q ∈ [samplePacket [1, 2, 3, 4] 2 0 false, samplePacket [9] 0 0 false,
                samplePacket [5, 6] 2 0 false],
          q.streamID = "s" ∧ q.inputQueueFlushed = false)
    ∧ (derivedIDs "s" (run zeroSRI (burstSteps
          [samplePacket [1, 2, 3, 4] 2 0 false, samplePacket [9] 0 0 false,
            samplePacket [5, 6] 2 0 false]) initial).2
        = (List.range (([samplePacket [1, 2, 3, 4] 2 0 false, samplePacket [9] 0 0 false,
              samplePacket [5, 6] 2 0 false]).map frameCount).sum).map
            (fun n => mintedID "s" (startCount initial "s" + n))
      ∧ startCount (run zeroSRI (burstSteps
          [samplePacket [1, 2, 3, 4] 2 0 false, samplePacket [9] 0 0 false,
            samplePacket [5, 6] 2 0 false]) initial).1 "s"
        = startCount initial "s"
          + (([samplePacket [1, 2, 3, 4] 2 0 false, samplePacket [9] 0 0 false,
              samplePacket [5, 6] 2 0 false]).map frameCount).sum
      ∧ (∀ m n : Nat, mintedID "s" m = mintedID "s" n → m = n)
      ∧ (derivedIDs "s" (run zeroSRI (burstSteps
          [samplePacket [1, 2, 3, 4] 2 0 false, samplePacket [9] 0 0 false,
            samplePacket [5, 6] 2 0 false]) initial).2).Nodup)
    ∧ packetIDs (run zeroSRI (burstSteps
          [samplePacket [1, 2, 3, 4] 2 0 false, samplePacket [9] 0 0 false,
            samplePacket [5, 6] 2 0 false]) initial).2
        = ["s_0", "s_1", "s", "s_2"] :=
  ⟨⟨by decide, by decide⟩,
    burst_identifiers_used_once zeroSRI initial "s"
      [samplePacket [1, 2, 3, 4] 2 0 false, samplePacket [9] 0 0 false,
        samplePacket [5, 6] 2 0 false] (by decide) (by decide),
    by decide⟩


/-! ## Metadata before data -/

theorem uncovered_append (a b : List Output) :
    ∀ pub : List String,
      uncovered pub (a ++ b) = uncovered pub a ++ uncovered (publishedAfter pub a) b := by
  induction a with
  | nil => intro pub; rfl
  | cons o rest ih =>
    intro pub
    cases o with
    | pushSRI sri =>
      rw [List.cons_append]
      simp only [uncovered, publishedAfter]
      exact ih _
    | pushPacket d T e id =>
      rw [List.cons_append]
      simp only [uncovered, publishedAfter]
      split
      · exact ih pub
      · rw [ih pub, List.cons_append]

theorem publishedAfter_append (a b : List Output) :
    ∀ pub : List String,
      publishedAfter pub (a ++ b) = publishedAfter (publishedAfter pub a) b := by
  induction a with
  | nil => intro pub; rfl
  | cons o rest ih =>
    intro pub
    cases o with
    | pushSRI sri =>
      rw [List.cons_append]
      simp only [publishedAfter]
      exact ih _
    | pushPacket d T e id =>
      rw [List.cons_append]
      simp only [publishedAfter]
      exact ih _

theorem publishedAfter_mono (a : List Output) :
    ∀ (pub : List String) (id : String), id ∈ pub → id ∈ publishedAfter pub a := by
  induction a with
  | nil => intro pub id h; exact h
  | cons o rest ih =>
    intro pub id h
    cases o with
    | pushSRI sri => exact ih _ id (List.mem_cons_of_mem _ h)
    | pushPacket d T e id' => exact ih _ id h

theorem uncovered_eosMarkers (T : Nat) (ids pub : List String) (h : ∀ id ∈ ids, id ∈ pub) :
    uncovered pub (eosMarkers T ids) = [] ∧ publishedAfter pub (eosMarkers T ids) = pub := by
  induction ids with
  | nil => exact ⟨rfl, rfl⟩
  | cons a rest ih =>
    obtain ⟨h1, h2⟩ := ih (fun id hid => h id (List.mem_cons_of_mem _ hid))
    have ha : a ∈ pub := h a (List.mem_cons_self _ _)
    simp only [eosMarkers, List.map_cons, uncovered, publishedAfter, ha, if_true] at h1 h2 ⊢
    exact ⟨h1, h2⟩

theorem uncovered_burstCalls (key : String) (tmp : DataTransfer) (stride i : Nat)
    (st : StateStruct) (l : List Nat) :
    ∀ pub : List String, uncovered pub (l.flatMap (burstCalls key tmp stride i st)) = [] := by
  induction l with
  | nil => intro pub; rfl
  | cons a rest ih =>
    intro pub
    rw [List.flatMap_cons, uncovered_append, ih]
    simp [burstCalls, burstSRI, uncovered]

theorem pushTransposedCol_covered (key : String) (tmp : DataTransfer) (col : Nat)
    (st : StateStruct) (pub : List String) (hcol : col ≤ st.outputIDs.length)
    (hpub : ∀ id ∈ st.outputIDs, id ∈ pub) :
    uncovered pub (pushTransposedCol key tmp col st).2 = []
    ∧ (∀ id ∈ (pushTransposedCol key tmp col st).1.outputIDs,
        id ∈ publishedAfter pub (pushTransposedCol key tmp col st).2)
    ∧ col + 1 ≤ (pushTransposedCol key tmp col st).1.outputIDs.length := by
  by_cases hlen : st.outputIDs.length = col
  · rw [pushTransposedCol_fresh key tmp col st hlen]
    refine ⟨?_, ?_, ?_⟩
    · simp [columnCalls, columnSRI, uncovered]
    · intro id hid
      simp only [List.mem_append, List.mem_singleton] at hid
      simp only [columnCalls, columnSRI, publishedAfter, Nat.add_zero, List.mem_cons]
      rcases hid with h | h
      · exact Or.inr (hpub id h)
      · exact Or.inl h
    · simp only [List.length_append, List.length_singleton]
      omega
  · have hlt : col < st.outputIDs.length := by omega
    have hget : st.outputIDs.getD col "" ∈ st.outputIDs := by
      rw [List.getD_eq_getElem _ _ hlt]
      exact List.getElem_mem _
    have he : ensureID key col st = st := by
      unfold ensureID
      rw [if_neg hlen]
    unfold pushTransposedCol
    simp only [he, hlen, decide_False, Bool.or_false]
    cases hc : tmp.sriChanged
    · simp only [Bool.false_eq_true, if_false, List.nil_append]
      refine ⟨?_, ?_, ?_⟩
      · have hin := hpub _ hget
        simp only [uncovered, hin, if_true]
      · intro id hid
        exact hpub id hid
      · omega
    · simp only [if_true, pushColSRI]
      refine ⟨?_, ?_, ?_⟩
      · simp [uncovered]
      · intro id hid
        simp only [List.singleton_append, publishedAfter, List.mem_cons]
        exact Or.inr (hpub id hid)
      · omega


theorem pushTransposedLoop_covered (key : String) (tmp : DataTransfer) :
    ∀ (remaining col : Nat) (st : StateStruct) (pub : List String),
      col ≤ st.outputIDs.length → (∀ id ∈ st.outputIDs, id ∈ pub) →
      uncovered pub (pushTransposedLoop key tmp remaining col st).2 = []
      ∧ ∀ id ∈ (pushTransposedLoop key tmp remaining col st).1.outputIDs,
          id ∈ publishedAfter pub (pushTransposedLoop key tmp remaining col st).2 := by
  intro remaining
  induction remaining with
  | zero =>
    intro col st pub _ hpub
    exact ⟨rfl, hpub⟩
  | succ remaining ih =>
    intro col st pub hcol hpub
    obtain ⟨h1, h2, h3⟩ := pushTransposedCol_covered key tmp col st pub hcol hpub
    obtain ⟨h4, h5⟩ := ih (col + 1) (pushTransposedCol key tmp col st).1
      (publishedAfter pub (pushTransposedCol key tmp col st).2) h3 h2
    simp only [pushTransposedLoop]
    refine ⟨?_, ?_⟩
    · rw [uncovered_append, h1, h4]
      rfl
    · rw [publishedAfter_append]
      exact h5

theorem pushStep_covered (thisTranspose : Bool) (st : StateStruct) (tmp : DataTransfer)
    (pub : List String) (hwf : tmp.SRI.streamID = tmp.streamID)
    (hpub : ∀ id ∈ st.outputIDs, id ∈ pub) :
    (∀ o ∈ uncovered pub (pushStep thisTranspose tmp.streamID st tmp).2,
        ForwardedWithoutSRI tmp o)
    ∧ ∀ id ∈ (pushStep thisTranspose tmp.streamID st tmp).1.outputIDs,
        id ∈ publishedAfter pub (pushStep thisTranspose tmp.streamID st tmp).2 := by
  by_cases hs : 0 < tmp.SRI.subsize
  · have hpub' : ∀ id ∈ (adjustXStartStep thisTranspose tmp st).outputIDs, id ∈ pub := by
      rw [adjustXStartStep_outputIDs]
      exact hpub
    unfold pushStep
    rw [if_pos hs]
    cases thisTranspose
    · obtain ⟨hout, _, hids, _, _⟩ := pushUnTransposedLoop_spec tmp.streamID tmp
        (tmp.SRI.subsize.toNat * (if tmp.SRI.mode = 0 then 1 else 2))
        (tmp.dataBuffer.length / (tmp.SRI.subsize.toNat * (if tmp.SRI.mode = 0 then 1 else 2)))
        0 (adjustXStartStep false tmp st)
      simp only [Bool.false_eq_true, if_false, pushUnTransposed]
      rw [hout, hids, uncovered_burstCalls]
      refine ⟨?_, ?_⟩
      · intro o ho
        cases ho
      · intro id hid
        exact publishedAfter_mono _ _ id (hpub' id hid)
    · obtain ⟨h1, h2⟩ := pushTransposedLoop_covered tmp.streamID tmp tmp.SRI.subsize.toNat 0
        (adjustXStartStep true tmp st) pub (Nat.zero_le _) hpub'
      simp only [if_true, pushTransposed]
      rw [h1]
      refine ⟨?_, h2⟩
      intro o ho
      cases ho
  · rw [pushStep_nonpos _ _ _ _ hs]
    cases hc : tmp.sriChanged
    · simp only [Bool.false_eq_true, if_false, List.nil_append]
      refine ⟨?_, ?_⟩
      · intro o ho
        simp only [uncovered] at ho
        split at ho
        · cases ho
        · simp only [List.mem_singleton] at ho
          exact ⟨by omega, hc, ho⟩
      · intro id hid
        exact publishedAfter_mono _ _ id (hpub id hid)
    · simp only [if_true, List.singleton_append]
      refine ⟨?_, ?_⟩
      · intro o ho
        simp [uncovered, hwf] at ho
      · intro id hid
        exact publishedAfter_mono _ _ id (hpub id hid)


theorem closedIDs_known (transpose : Bool) (tmp : DataTransfer) (c : Component)
    (pub : List String) (h : Known c.activeStreams pub) :
    ∀ id ∈ closedIDs transpose tmp c, id ∈ pub := by
  intro id hid
  unfold closedIDs at hid
  split at hid
  · unfold trackedIDs at hid
    rw [List.mem_flatMap] at hid
    obtain ⟨e, he, hide⟩ := hid
    exact h e he id hide
  · cases hf : findState c.activeStreams tmp.streamID with
    | none =>
      rw [hf] at hid
      cases hid
    | some st =>
      rw [hf] at hid
      simp only at hid
      split at hid
      · obtain ⟨e, he, heq⟩ := findState_mem _ _ st hf
        exact h e he id (by rw [heq]; exact hid)
      · cases hid

theorem lookupOrCreate_known (initSRI : StreamSRI) (m : state_type) (tmp : DataTransfer)
    (pub : List String) (h : Known m pub) :
    Known (lookupOrCreate initSRI m tmp).1 pub
    ∧ ∀ id ∈ (lookupOrCreate initSRI m tmp).2.outputIDs, id ∈ pub := by
  unfold lookupOrCreate
  cases hf : findState m tmp.streamID with
  | none =>
    refine ⟨?_, ?_⟩
    · intro e he id hid
      rcases mem_insertState _ _ _ _ he with h' | h'
      · exact h e h' id hid
      · rw [h'] at hid
        cases hid
    · intro id hid
      cases hid
  | some st =>
    obtain ⟨e, hmem, heq⟩ := findState_mem m _ st hf
    refine ⟨h, ?_⟩
    intro id hid
    exact h e hmem id (by rw [heq]; exact hid)

theorem flushStep_known (c : Component) (tmp : DataTransfer) (pub : List String)
    (h : Known c.activeStreams pub) : Known (flushStep c tmp).1.activeStreams pub := by
  cases hf : (c.flushStreams || tmp.inputQueueFlushed)
  · rw [flushStep_of_no_flush c tmp hf]
    exact h
  · rw [flushStep_of_flush c tmp hf]
    intro e he
    simp at he

theorem servicePacket_covered (initSRI : StreamSRI) (transpose : Bool) (tmp : DataTransfer)
    (c : Component) (pub : List String) (hwf : tmp.SRI.streamID = tmp.streamID)
    (h : Known c.activeStreams pub) :
    (∀ o ∈ uncovered pub (servicePacket initSRI transpose tmp c).2, ForwardedWithoutSRI tmp o)
    ∧ Known (servicePacket initSRI transpose tmp c).1.activeStreams
        (publishedAfter pub (servicePacket initSRI transpose tmp c).2) := by
  obtain ⟨hl1, hl2⟩ := lookupOrCreate_known initSRI (flushStep c tmp).1.activeStreams tmp pub
    (flushStep_known c tmp pub h)
  obtain ⟨hm1, hm2⟩ := uncovered_eosMarkers tmp.T (closedIDs transpose tmp c) pub
    (closedIDs_known transpose tmp c pub h)
  have hout := servicePacket_out initSRI transpose tmp c
  obtain ⟨b, hb⟩ := refreshStep_tmp transpose (entryState initSRI tmp c) tmp
  have hin : ∀ id ∈ (engineInput initSRI transpose tmp c).state.outputIDs, id ∈ pub := by
    unfold engineInput
    rw [refreshStep_outputIDs]
    split
    · intro id hid
      cases hid
    · exact hl2
  have htmp : (engineInput initSRI transpose tmp c).tmp = { tmp with sriChanged := b } := hb
  obtain ⟨hp1, hp2⟩ := pushStep_covered transpose (engineInput initSRI transpose tmp c).state
    { tmp with sriChanged := b } pub hwf hin
  rw [htmp] at hout
  have hunc : uncovered pub (servicePacket initSRI transpose tmp c).2
      = uncovered pub (pushStep transpose tmp.streamID
          (engineInput initSRI transpose tmp c).state { tmp with sriChanged := b }).2 := by
    rw [hout, uncovered_append, hm1, hm2]
    rfl
  have hpubl : publishedAfter pub (servicePacket initSRI transpose tmp c).2
      = publishedAfter pub (pushStep transpose tmp.streamID
          (engineInput initSRI transpose tmp c).state { tmp with sriChanged := b }).2 := by
    rw [hout, publishedAfter_append, hm2]
  refine ⟨?_, ?_⟩
  · intro o ho
    rw [hunc] at ho
    obtain ⟨hsub, hch, ho'⟩ := hp1 o ho
    have hs : ¬ 0 < tmp.SRI.subsize := by
      have : tmp.SRI.subsize ≤ 0 := hsub
      omega
    have hr := refreshStep_nonpos transpose (entryState initSRI tmp c) tmp hs
    have hb' : ({ tmp with sriChanged := b } : DataTransfer) = tmp := by
      rw [← hb, hr]
    rw [hb'] at hch ho'
    exact ⟨hsub, hch, ho'⟩
  · intro e he id hid
    rw [hpubl]
    have hfind : (servicePacket initSRI transpose tmp c).1.activeStreams
        = assignState (lookupOrCreate initSRI (flushStep c tmp).1.activeStreams tmp).1
            tmp.streamID
            (pushStep transpose tmp.streamID (engineInput initSRI transpose tmp c).state
              (engineInput initSRI transpose tmp c).tmp).1 := rfl
    rw [hfind, htmp] at he
    rcases mem_assignState _ _ _ _ he with h' | h'
    · exact publishedAfter_mono _ _ id (hl1 e h' id hid)
    · rw [h'] at hid
      exact hp2 id hid

theorem run_covered (initSRI : StreamSRI) :
    ∀ (steps : List (Bool × DataTransfer)) (c : Component) (pub : List String),
      Known c.activeStreams pub → (∀ s ∈ steps, s.2.SRI.streamID = s.2.streamID) →
      ∀ o ∈ uncovered pub (run initSRI steps c).2, ∃ s ∈ steps, ForwardedWithoutSRI s.2 o := by
  intro steps
  induction steps with
  | nil =>
    intro c pub _ _ o ho
    simp [run, uncovered] at ho
  | cons s rest ih =>
    intro c pub h hwf o ho
    obtain ⟨h1, h2⟩ := servicePacket_covered initSRI s.1 s.2 c pub
      (hwf s (List.mem_cons_self _ _)) h
    rw [run_cons, uncovered_append] at ho
    rcases List.mem_append.mp ho with hm | hm
    · exact ⟨s, List.mem_cons_self _ _, h1 o hm⟩
    · obtain ⟨s', hs', hres⟩ := ih _ _ h2 (fun s' hs' => hwf s' (List.mem_cons_of_mem _ hs')) o hm
      exact ⟨s', List.mem_cons_of_mem _ hs', hres⟩


/-- C11 (as amended). Metadata before data: in the output trace of every sequence of calls of
`serviceFunction` that starts with an empty map, for packets whose SRI names their own stream,
a data packet that is not preceded in the trace by a `pushSRI` under its identifier can only be
the packet that the pass-through branch forwards for an input with `subsize ≤ 0` and
`sriChanged` clear. Every data packet under a derived identifier (column, burst, end-of-stream
marker) is preceded by a `pushSRI` under that identifier, and so is every data packet of the
trace when every input with `subsize ≤ 0` has `sriChanged` set. -/
theorem metadata_before_data (initSRI : StreamSRI) (steps : List (Bool × DataTransfer))
    (flush : Bool) (hwf : ∀ s ∈ steps, s.2.SRI.streamID = s.2.streamID) :
    (∀ o ∈ uncovered [] (run initSRI steps { activeStreams := [], flushStreams := flush }).2,
        ∃ s ∈ steps, s.2.SRI.subsize ≤ 0 ∧ s.2.sriChanged = false
          ∧ o = Output.pushPacket s.2.dataBuffer s.2.T s.2.EOS s.2.streamID)
    ∧ ((∀ s ∈ steps, s.2.SRI.subsize ≤ 0 → s.2.sriChanged = true) →
        uncovered [] (run initSRI steps { activeStreams := [], flushStreams := flush }).2
          = []) := by
  have hinit : Known ({ activeStreams := [], flushStreams := flush } : Component).activeStreams
      [] := by
    intro e he
    simp at he
  have hmain := run_covered initSRI steps _ [] hinit hwf
  refine ⟨hmain, ?_⟩
  intro hall
  apply List.eq_nil_iff_forall_not_mem.mpr
  intro o ho
  obtain ⟨s, hs, hsub, hch, _⟩ := hmain o ho
  have := hall s hs hsub
  rw [hch] at this
  cases this

/-- An instance of the amended C11: a pass-through packet that declares a changed SRI, then a
burst mode packet and a column mode packet: every data packet of the trace is preceded by a
`pushSRI` under its identifier. -/
theorem metadata_before_data_witness :
    (∀ s ∈ mixedSteps, s.2.SRI.streamID = s.2.streamID)
    ∧ ((∀ o ∈ uncovered []
            (run zeroSRI mixedSteps { activeStreams := [], flushStreams := false }).2,
          ∃ s ∈ mixedSteps, s.2.SRI.subsize ≤ 0 ∧ s.2.sriChanged = false
            ∧ o = Output.pushPacket s.2.dataBuffer s.2.T s.2.EOS s.2.streamID)
      ∧ ((∀ s ∈ mixedSteps, s.2.SRI.subsize ≤ 0 → s.2.sriChanged = true) →
          uncovered [] (run zeroSRI mixedSteps { activeStreams := [], flushStreams := false }).2
            = []))
    ∧ packetIDs (run zeroSRI mixedSteps { activeStreams := [], flushStreams := false }).2
        = ["s", "s_0", "s_1", "s_0", "s_1"]
    ∧ uncovered [] (run zeroSRI mixedSteps { activeStreams := [], flushStreams := false }).2
        = [] :=
  ⟨by decide, metadata_before_data zeroSRI mixedSteps false (by decide), by decide, by decide⟩

/-- C11 as stated fails: from the initial component, one packet of the stream `s` with
`subsize = 0` and `sriChanged` clear: the trace is the forwarded data packet under `s` alone,
with no `pushSRI` before it. -/
theorem metadata_before_data_counterexample :
    (samplePacket [1, 2, 3] 0 0 false).SRI.streamID = (samplePacket [1, 2, 3] 0 0 false).streamID
    ∧ (run zeroSRI [(true, samplePacket [1, 2, 3] 0 0 false)] initial).2
        = [Output.pushPacket [1, 2, 3] 7 false "s"]
    ∧ uncovered [] (run zeroSRI [(true, samplePacket [1, 2, 3] 0 0 false)] initial).2
        = [Output.pushPacket [1, 2, 3] 7 false "s"] := by
  decide

end BurstDeserializer
